import Mathlib

/-!
YUView `videoHandler`: frame cache and pixel comparison.

A shallow embedding of `src/source/videoHandler.cpp`.  Member functions become
functions on an explicit `videoHandler` state.  C++ `int` arithmetic that can
leave the 32-bit range is written with `wrap32`, `qint64` accumulation with
`wrap64`.  The Qt value classes the file uses (`QSize`, `QImage`, `QPixmap`,
`QMap`, `QSpinBox`, `QTimer`) are modelled by what the documentation of Qt says
about the calls made here.  `double` values are modelled as exact rationals
together with the special values of IEEE arithmetic, so their rounding is
idealised while division by zero is not.  Each `float` operation rounds its
exact result to the nearest value of 24 significant bits.  The caching thread
and the GUI thread are modelled statement by statement, with a schedule that
names the thread executing its next statement.
-/

namespace YUView

/-! Section: Machine integers -/

/-- Two's-complement value of a C++ `int` (32 bit) holding the integer `x`. -/
def wrap32 (x : Int) : Int := (x + 2147483648) % 4294967296 - 2147483648

/-- Two's-complement value of a `qint64` holding the integer `x`. -/
def wrap64 (x : Int) : Int :=
  (x + 9223372036854775808) % 18446744073709551616 - 9223372036854775808

/-- Modelled from the spec: `clip(v, lo, hi) = max(lo, min(hi, v))`; the function
itself lives in a header that is not part of `src/`. -/
def clip (n lower upper : Int) : Int := max lower (min upper n)

/-! Section: Idealised IEEE values -/

/-- A floating-point value: an exact rational, or one of the IEEE specials. -/
inductive Double where
  | finite (q : ℚ)
  | nan
  | posInf
  | negInf
  deriving DecidableEq

namespace Double

/-- Conversion `double(n)` of an integer. -/
def ofInt (n : Int) : Double := finite n

/-- IEEE division `a / b`, rounding idealised. -/
def div : Double → Double → Double
  | finite a, finite b =>
      if b = 0 then (if a = 0 then nan else if 0 < a then posInf else negInf)
      else finite (a / b)
  | finite _, posInf => finite 0
  | finite _, negInf => finite 0
  | posInf, finite b => if 0 ≤ b then posInf else negInf
  | negInf, finite b => if 0 ≤ b then negInf else posInf
  | _, _ => nan

/-- IEEE addition `a + b`, rounding idealised. -/
def add : Double → Double → Double
  | finite a, finite b => finite (a + b)
  | finite _, posInf => posInf
  | finite _, negInf => negInf
  | posInf, finite _ => posInf
  | negInf, finite _ => negInf
  | posInf, posInf => posInf
  | negInf, negInf => negInf
  | _, _ => nan

/-- IEEE subtraction and multiplication on finite values (the only use in the
source is on converted bytes). -/
def sub : Double → Double → Double
  | finite a, finite b => finite (a - b)
  | _, _ => nan

/-- IEEE multiplication on finite values. -/
def mul : Double → Double → Double
  | finite a, finite b => finite (a * b)
  | _, _ => nan

end Double

/-! Section: Qt value types -/

/-- A `QRgb`: an unsigned 32-bit `0xAARRGGBB` value. -/
abbrev QRgb := Nat

/-- Qt `qRed`: `(rgb >> 16) & 0xff`. -/
def qRed (rgb : QRgb) : Int := ((rgb / 65536 % 256 : Nat) : Int)

/-- Qt `qGreen`: `(rgb >> 8) & 0xff`. -/
def qGreen (rgb : QRgb) : Int := ((rgb / 256 % 256 : Nat) : Int)

/-- Qt `qBlue`: `rgb & 0xff`. -/
def qBlue (rgb : QRgb) : Int := ((rgb % 256 : Nat) : Int)

/-- Qt `qRgb(r, g, b)`: `0xff000000 | (r & 0xff) << 16 | (g & 0xff) << 8 | (b & 0xff)`. -/
def qRgb (r g b : Int) : QRgb :=
  4278190080 + (r % 256).toNat * 65536 + (g % 256).toNat * 256 + (b % 256).toNat

/-- A `QSize`. -/
structure QSize where
  width : Int
  height : Int
  deriving DecidableEq, Repr

/-- A `QPoint`. -/
structure QPoint where
  x : Int
  y : Int
  deriving DecidableEq, Repr

/-- A `QImage` of format RGB32: its size and its pixel data. -/
structure QImage where
  width : Int
  height : Int
  data : Int → Int → QRgb

/-- The allocation inside `QImage(width, height, format)` for a positive size: nothing when
Qt refuses the size or memory is short, otherwise the content found in the fresh buffer,
which Qt does not initialise. -/
abbrev QImageAlloc := Int → Int → Option (Int → Int → QRgb)

namespace QImage

/-- The null image. -/
def null : QImage := ⟨0, 0, fun _ _ => 0⟩

/-- `QImage(width, height, Format_RGB32)`: Qt gives the null image when a dimension is
not positive and when the allocation yields nothing; otherwise the image has the size
asked for and the uninitialised content of its buffer. -/
def create (alloc : QImageAlloc) (width height : Int) : QImage :=
  if width ≤ 0 ∨ height ≤ 0 then null
  else
    match alloc width height with
    | some data => ⟨width, height, data⟩
    | none => null

/-- `QImage::valid(x, y)`. -/
def valid (img : QImage) (x y : Int) : Bool :=
  decide (0 ≤ x ∧ x < img.width ∧ 0 ≤ y ∧ y < img.height)

/-- `QImage::pixel(x, y)`: Qt warns and returns 12345 for a coordinate out of range. -/
def pixel (img : QImage) (x y : Int) : QRgb :=
  if img.valid x y then img.data x y else 12345

/-- `QImage::setPixel(x, y, rgb)`: Qt warns and does nothing for a coordinate out of range. -/
def setPixel (img : QImage) (x y : Int) (rgb : QRgb) : QImage :=
  if img.valid x y then
    { img with data := fun x1 y1 => if x1 = x ∧ y1 = y then rgb else img.data x1 y1 }
  else img

end QImage

/-- A `QPixmap`: the image it displays. -/
structure QPixmap where
  image : QImage

namespace QPixmap

/-- `QPixmap::toImage()`. -/
def toImage (p : QPixmap) : QImage := p.image

/-- `QPixmap::fromImage(img)`. -/
def fromImage (img : QImage) : QPixmap := ⟨img⟩

/-- A default-constructed (null) pixmap. -/
def null : QPixmap := ⟨QImage.null⟩

end QPixmap

/-- A `QMap<int, V>`: key/value pairs with at most one pair for a key. -/
abbrev QMap (V : Type) := List (Int × V)

namespace QMap

/-- `QMap::contains(key)`. -/
def contains {V : Type} (m : QMap V) (key : Int) : Bool := m.any (fun e => e.1 == key)

/-- Lookup of `key`: the value stored under it, if any. -/
def lookup {V : Type} (m : QMap V) (key : Int) : Option V :=
  (m.find? (fun e => e.1 == key)).map Prod.snd

/-- `QMap::insert(key, value)`: a value already stored under `key` is replaced. -/
def insert {V : Type} (m : QMap V) (key : Int) (value : V) : QMap V :=
  (key, value) :: m.filter (fun e => !(e.1 == key))

/-- `QMap::clear()`. -/
def clear {V : Type} (_m : QMap V) : QMap V := []

/-- The keys of the map, one per entry. -/
def keys {V : Type} (m : QMap V) : List Int := m.map Prod.fst

end QMap

/-- A `QSpinBox`; `connected` tells whether `valueChanged(int)` is connected to
`slotVideoControlChanged()`. -/
structure QSpinBox where
  value : Int
  minimum : Int
  maximum : Int
  enabled : Bool
  connected : Bool

/-- A `QComboBox`; `connected` tells whether `currentIndexChanged(int)` is connected
to `slotVideoControlChanged()`. -/
structure QComboBox where
  items : List String
  currentIndex : Int
  enabled : Bool
  connected : Bool

/-- The generated `Ui::videoHandler` form. -/
structure Ui where
  widthSpinBox : QSpinBox
  heightSpinBox : QSpinBox
  frameSizeComboBox : QComboBox

/-- The `QTimer cachingTimer`. -/
structure QTimer where
  active : Bool
  singleShot : Bool
  interval : Int

/-- Calls to the external decoder, signals emitted and pixel reads, in the order they happen.
A read `getPixelVal x y converted inRange` tells whether the call converted the current frame
with `toImage()` and whether `QImage::pixel` found the coordinate inside the image. -/
inductive Event where
  | loadFrame (frameIdx : Int)
  | loadFrameForCaching (frameIdx : Int)
  | signalHandlerChanged (redrawNeeded cacheChanged : Bool)
  | signalUpdateFrameLimits
  | cachingTimerStart
  | getPixelVal (x y : Int) (converted inRange : Bool)
  deriving DecidableEq, Repr

/-! Section: The handler -/

/-- The member variables of `videoHandler`, and the trace of its external calls. -/
structure videoHandler where
  frameSize : QSize
  currentFrame : QPixmap
  currentFrameIdx : Int
  currentFrame_Image : QImage
  currentFrame_Image_FrameIdx : Int
  controlsCreated : Bool
  rawData_frameIdx : Int
  pixmapCache : QMap QPixmap
  cachingTimer : QTimer
  ui : Ui
  trace : List Event

/-- The state `videoHandler::videoHandler()` leaves: `frameSize` is a default `QSize`. -/
def videoHandler.init : videoHandler where
  frameSize := ⟨-1, -1⟩
  currentFrame := QPixmap.null
  currentFrameIdx := -1
  currentFrame_Image := QImage.null
  currentFrame_Image_FrameIdx := -1
  controlsCreated := false
  rawData_frameIdx := -1
  pixmapCache := []
  cachingTimer := ⟨false, false, 0⟩
  ui := ⟨⟨0, 0, 99, true, false⟩, ⟨0, 0, 99, true, false⟩, ⟨[], -1, true, false⟩⟩
  trace := []

/-- The virtual `loadFrame(frameIdx)` of the external decoder: any update of the handler. -/
abbrev LoadFrame := videoHandler → Int → videoHandler

/-- A call `loadFrame(frameIdx)`, recorded in the trace. -/
def callLoadFrame (loadFrame : LoadFrame) (s : videoHandler) (frameIdx : Int) : videoHandler :=
  let s1 := loadFrame s frameIdx
  { s1 with trace := s1.trace ++ [Event.loadFrame frameIdx] }

/-- The code of `videoHandler::getPixelVal(int x, int y)`: the pixel read and the handler after
the call, with the read recorded in the trace. -/
def getPixelVal (s : videoHandler) (x y : Int) : QRgb × videoHandler :=
  let s1 : videoHandler :=
    if s.currentFrame_Image_FrameIdx ≠ s.currentFrameIdx then
      { s with currentFrame_Image := s.currentFrame.toImage }
    else s
  (s1.currentFrame_Image.pixel x y,
   { s1 with trace := s1.trace ++
      [Event.getPixelVal x y (decide (s.currentFrame_Image_FrameIdx ≠ s.currentFrameIdx))
        (s1.currentFrame_Image.valid x y)] })

/-- The code of `videoHandler::getPixelVal(QPoint pixelPos)`. -/
def getPixelValAt (s : videoHandler) (pixelPos : QPoint) : QRgb × videoHandler :=
  let s1 : videoHandler :=
    if s.currentFrame_Image_FrameIdx ≠ s.currentFrameIdx then
      { s with currentFrame_Image := s.currentFrame.toImage }
    else s
  (s1.currentFrame_Image.pixel pixelPos.x pixelPos.y,
   { s1 with trace := s1.trace ++
      [Event.getPixelVal pixelPos.x pixelPos.y
        (decide (s.currentFrame_Image_FrameIdx ≠ s.currentFrameIdx))
        (s1.currentFrame_Image.valid pixelPos.x pixelPos.y)] })

/-! Section: Difference of two handlers -/

/-- The text of an `infoItem`: a string, or a number formatted by `QString::arg`. -/
inductive InfoText where
  | str (s : String)
  | num (d : Double)
  deriving DecidableEq

/-- An `infoItem(name, text)`. -/
structure infoItem where
  name : String
  text : InfoText
  deriving DecidableEq

/-- The variables the two loops of `calculateDifference` update. -/
structure DiffLoop where
  self : videoHandler
  item2 : videoHandler
  diffImg : QImage
  mseAdd0 : Int
  mseAdd1 : Int
  mseAdd2 : Int

/-- The body of the inner loop of `calculateDifference` at pixel `(x, y)`. -/
def calculateDifference_body (amplificationFactor : Int) (markDifference : Bool)
    (y : Int) (st : DiffLoop) (x : Int) : DiffLoop :=
  let p1 := getPixelVal st.self x y
  let p2 := getPixelVal st.item2 x y
  let pixel1 := p1.1
  let pixel2 := p2.1
  let dR := qRed pixel1 - qRed pixel2
  let dG := qGreen pixel1 - qGreen pixel2
  let dB := qBlue pixel1 - qBlue pixel2
  let rgb : Int × Int × Int :=
    if markDifference then
      (if dR ≠ 0 then 255 else 0, if dG ≠ 0 then 255 else 0, if dB ≠ 0 then 255 else 0)
    else if amplificationFactor ≠ 1 then
      (clip (wrap32 (128 + wrap32 (dR * amplificationFactor))) 0 255,
       clip (wrap32 (128 + wrap32 (dG * amplificationFactor))) 0 255,
       clip (wrap32 (128 + wrap32 (dB * amplificationFactor))) 0 255)
    else
      (clip (wrap32 (128 + dR)) 0 255, clip (wrap32 (128 + dG)) 0 255,
       clip (wrap32 (128 + dB)) 0 255)
  let val := qRgb rgb.1 rgb.2.1 rgb.2.2
  { self := p1.2
    item2 := p2.2
    diffImg := st.diffImg.setPixel x y val
    mseAdd0 := wrap64 (st.mseAdd0 + wrap32 (dR * dR))
    mseAdd1 := wrap64 (st.mseAdd1 + wrap32 (dG * dG))
    mseAdd2 := wrap64 (st.mseAdd2 + wrap32 (dB * dB)) }

/-- The loop `for (int i = 0; i < n; i++)` as the list of the values `i` takes. -/
def intRange (n : Int) : List Int := (List.range n.toNat).map Int.ofNat

/-- The two nested loops of `calculateDifference`. -/
def calculateDifference_loops (amplificationFactor : Int) (markDifference : Bool)
    (width height : Int) (st : DiffLoop) : DiffLoop :=
  (intRange height).foldl
    (fun st y =>
      (intRange width).foldl (calculateDifference_body amplificationFactor markDifference y) st)
    st

/-- What `calculateDifference` returns and changes: the pixmap, the info list, and both
handlers. -/
structure DiffResult where
  pixmap : QPixmap
  differenceInfoList : List infoItem
  self : videoHandler
  item2 : videoHandler

/-- The code of `videoHandler::calculateDifference`, for two distinct handler objects;
`loadFrame` is the virtual `loadFrame` of this handler and `loadFrame2` the one of `item2`. -/
def calculateDifference (alloc : QImageAlloc) (loadFrame loadFrame2 : LoadFrame) (self item2 : videoHandler)
    (frame : Int) (differenceInfoList : List infoItem) (amplificationFactor : Int)
    (markDifference : Bool) : DiffResult :=
  let self1 := if self.currentFrameIdx ≠ frame then callLoadFrame loadFrame self frame else self
  let self2 := callLoadFrame loadFrame self1 frame
  let item2a :=
    if item2.currentFrameIdx ≠ frame then callLoadFrame loadFrame2 item2 frame else item2
  let width := min self2.frameSize.width item2a.frameSize.width
  let height := min self2.frameSize.height item2a.frameSize.height
  let diffImg := QImage.create alloc width height
  let st := calculateDifference_loops amplificationFactor markDifference width height
    ⟨self2, item2a, diffImg, 0, 0, 0⟩
  let l1 := differenceInfoList ++ [⟨"Difference Type", InfoText.str "RGB"⟩]
  let area := Double.ofInt (wrap32 (width * height))
  let mse0 := Double.div (Double.ofInt st.mseAdd0) area
  let mse1 := Double.div (Double.ofInt st.mseAdd1) area
  let mse2 := Double.div (Double.ofInt st.mseAdd2) area
  let mse3 := Double.add (Double.add mse0 mse1) mse2
  let l2 := l1 ++ [⟨"MSE R", InfoText.num mse0⟩, ⟨"MSE G", InfoText.num mse1⟩,
    ⟨"MSE B", InfoText.num mse2⟩, ⟨"MSE All", InfoText.num mse3⟩]
  ⟨QPixmap.fromImage st.diffImg, l2, st.self, st.item2⟩

/-- A `ValuePair(name, QString::number(n))`; the number stands for its decimal text. -/
structure ValuePair where
  name : String
  value : Int
  deriving DecidableEq, Repr

/-- A `ValuePairList`. -/
abbrev ValuePairList := List ValuePair

/-- The code of `videoHandler::getPixelValuesDifference`: the list returned. -/
def getPixelValuesDifference (self : videoHandler) (pixelPos : QPoint) (item2 : videoHandler) :
    ValuePairList :=
  let width := min self.frameSize.width item2.frameSize.width
  let height := min self.frameSize.height item2.frameSize.height
  if pixelPos.x < 0 ∨ pixelPos.x ≥ width ∨ pixelPos.y < 0 ∨ pixelPos.y ≥ height then []
  else
    let pixel1 := (getPixelValAt self pixelPos).1
    let pixel2 := (getPixelValAt item2 pixelPos).1
    let r := qRed pixel1 - qRed pixel2
    let g := qGreen pixel1 - qGreen pixel2
    let b := qBlue pixel1 - qBlue pixel2
    [⟨"R", r⟩, ⟨"G", g⟩, ⟨"B", b⟩]

/-! Section: The frame cache -/

/-- The virtual `loadFrameForCaching(frameIdx, cachePixmap)` of the external decoder: the
pixmap it writes for a handler state and a frame index. -/
abbrev LoadFrameForCaching := videoHandler → Int → QPixmap

/-- The code of `videoHandler::cacheFrame`.  The signal `cachingTimerStart()` is connected to
`cachingTimer.start()` in the constructor, so emitting it makes the timer active. -/
def cacheFrame (loadFrameForCaching : LoadFrameForCaching) (s : videoHandler) (frameIdx : Int) :
    videoHandler :=
  if s.pixmapCache.contains frameIdx then s
  else
    let cachePixmap := loadFrameForCaching s frameIdx
    let s1 : videoHandler :=
      { s with
        trace := s.trace ++ [Event.loadFrameForCaching frameIdx]
        pixmapCache := s.pixmapCache.insert frameIdx cachePixmap }
    if !s1.cachingTimer.active then
      { s1 with
        cachingTimer := { active := true, singleShot := true, interval := 1000 }
        trace := s1.trace ++ [Event.cachingTimerStart] }
    else s1

/-- The code of `videoHandler::removeFrameFromCache`: it only writes a debug line. -/
def removeFrameFromCache (s : videoHandler) (_frameIdx : Int) : videoHandler := s

/-- The code of `videoHandler::cachingTimerEvent`. -/
def cachingTimerEvent (s : videoHandler) : videoHandler :=
  { s with trace := s.trace ++ [Event.signalHandlerChanged false false] }

/-- The single-shot `cachingTimer` runs out: it stops and its `timeout()` calls
`cachingTimerEvent()`. -/
def cachingTimerTimeout (s : videoHandler) : videoHandler :=
  if s.cachingTimer.active then
    cachingTimerEvent { s with cachingTimer := { s.cachingTimer with active := false } }
  else s

/-! Section: Frame size and controls -/

/-- The names `frameSizePresetList::frameSizePresetList()` stores. -/
def presetNames : List String :=
  ["Custom Size", "QCIF", "QVGA", "WQVGA", "CIF", "VGA", "WVGA", "4CIF", "ITU R.BT601",
   "720i/p", "1080i/p", "4k", "XGA", "XGA+"]

/-- The sizes `frameSizePresetList::frameSizePresetList()` stores. -/
def presetSizes : List QSize :=
  [⟨-1, -1⟩, ⟨176, 144⟩, ⟨320, 240⟩, ⟨416, 240⟩, ⟨352, 288⟩, ⟨640, 480⟩, ⟨832, 480⟩,
   ⟨704, 576⟩, ⟨720, 576⟩, ⟨1280, 720⟩, ⟨1920, 1080⟩, ⟨3840, 2160⟩, ⟨1024, 768⟩, ⟨1280, 960⟩]

/-- Modelled from the spec: `findIndex(size)`, declared as `findSize` in a header that is not
part of `src/`: the first preset whose size equals the query, or 0 if no preset matches. -/
def findSize (size : QSize) : Int :=
  match presetSizes.indexOf? size with
  | some i => (i : Int)
  | none => 0

/-- Modelled from the spec: `sizeAt(index)`, declared as `getSize` in a header that is not part
of `src/`: the size stored at `index`; an index outside the list is answered with the unset
size. -/
def getSize (index : Int) : QSize :=
  if index < 0 then ⟨-1, -1⟩ else presetSizes.getD index.toNat ⟨-1, -1⟩

/-- The object that emitted the signal a slot is running for (`QObject::sender()`). -/
inductive Sender where
  | widthSpinBox
  | heightSpinBox
  | frameSizeComboBox
  | other
  deriving DecidableEq, Repr

/-- The value a `QSpinBox` takes for `setValue(v)`: `v` bounded by minimum and maximum. -/
def QSpinBox.bound (box : QSpinBox) (v : Int) : Int := max box.minimum (min box.maximum v)

/-- `ui->widthSpinBox->setValue(v)`: a changed value emits `valueChanged(int)`, which runs the
connected slot `deliver` at once. -/
def widthSpinBox_setValue (deliver : Sender → videoHandler → Option videoHandler) (v : Int)
    (s : videoHandler) : Option videoHandler :=
  let v1 := s.ui.widthSpinBox.bound v
  if v1 = s.ui.widthSpinBox.value then some s
  else
    let s1 : videoHandler :=
      { s with ui := { s.ui with widthSpinBox := { s.ui.widthSpinBox with value := v1 } } }
    if s1.ui.widthSpinBox.connected then deliver Sender.widthSpinBox s1 else some s1

/-- `ui->heightSpinBox->setValue(v)`. -/
def heightSpinBox_setValue (deliver : Sender → videoHandler → Option videoHandler) (v : Int)
    (s : videoHandler) : Option videoHandler :=
  let v1 := s.ui.heightSpinBox.bound v
  if v1 = s.ui.heightSpinBox.value then some s
  else
    let s1 : videoHandler :=
      { s with ui := { s.ui with heightSpinBox := { s.ui.heightSpinBox with value := v1 } } }
    if s1.ui.heightSpinBox.connected then deliver Sender.heightSpinBox s1 else some s1

/-- Connect or disconnect `valueChanged(int)` of both spin boxes and the slot. -/
def setSpinBoxesConnected (c : Bool) (s : videoHandler) : videoHandler :=
  { s with ui := { s.ui with
      widthSpinBox := { s.ui.widthSpinBox with connected := c }
      heightSpinBox := { s.ui.heightSpinBox with connected := c } } }

/-- What `slotVideoControlChanged` does after `setFrameSize(newSize)` in both of its branches:
emit `signalUpdateFrameLimits()`, invalidate the current frame, clear the cache, emit
`signalHandlerChanged(true, true)`. -/
def afterSizeChange (s : videoHandler) : videoHandler :=
  { s with
    currentFrameIdx := -1
    pixmapCache := s.pixmapCache.clear
    trace := s.trace ++ [Event.signalUpdateFrameLimits, Event.signalHandlerChanged true true] }

mutual

/-- The code of `videoHandler::setFrameSize(newSize, emitSignal)`.  The first argument is the
default value of `emitSignal`, declared in a header that is not part of `src/`; the second
bounds the depth of signal delivery (`none`: bound reached). -/
def setFrameSize (emitSignalDefault : Bool) :
    Nat → QSize → Bool → videoHandler → Option videoHandler
  | 0, _, _, _ => none
  | fuel + 1, newSize, emitSignal, s =>
    if newSize = s.frameSize then some s
    else
      let s1 : videoHandler := { s with frameSize := newSize }
      if !s1.controlsCreated then some s1
      else
        let s2 := if !emitSignal then setSpinBoxesConnected false s1 else s1
        match widthSpinBox_setValue
            (fun sender t => slotVideoControlChanged emitSignalDefault fuel sender t)
            newSize.width s2 with
        | none => none
        | some s3 =>
          match heightSpinBox_setValue
              (fun sender t => slotVideoControlChanged emitSignalDefault fuel sender t)
              newSize.height s3 with
          | none => none
          | some s4 => some (if !emitSignal then setSpinBoxesConnected true s4 else s4)

/-- The code of `videoHandler::slotVideoControlChanged()`, run for the signal of `sender`. -/
def slotVideoControlChanged (emitSignalDefault : Bool) :
    Nat → Sender → videoHandler → Option videoHandler
  | 0, _, _ => none
  | fuel + 1, sender, s =>
    if sender = Sender.widthSpinBox ∨ sender = Sender.heightSpinBox then
      let newSize : QSize := ⟨s.ui.widthSpinBox.value, s.ui.heightSpinBox.value⟩
      if newSize ≠ s.frameSize then
        let idx := findSize newSize
        let s1 : videoHandler :=
          { s with ui := { s.ui with
              frameSizeComboBox :=
                { s.ui.frameSizeComboBox with currentIndex := idx, connected := true } } }
        match setFrameSize emitSignalDefault fuel newSize emitSignalDefault s1 with
        | none => none
        | some s2 => some (afterSizeChange s2)
      else some s
    else if sender = Sender.frameSizeComboBox then
      let newSize := getSize s.ui.frameSizeComboBox.currentIndex
      if newSize ≠ s.frameSize ∧ newSize ≠ ⟨-1, -1⟩ then
        match setFrameSize emitSignalDefault fuel newSize emitSignalDefault s with
        | none => none
        | some s2 => some (afterSizeChange s2)
      else some s
    else some s

end

/-! Section: Drawing -/

/-- Conversion of a `double` to `int`: truncation toward zero.  C++ leaves the result open
when the truncated value does not fit 32 bits; the conversion instruction of x86-64 then gives
`INT_MIN`. -/
def truncToInt (q : ℚ) : Int :=
  let t := if 0 ≤ q then ⌊q⌋ else ⌈q⌉
  if -2147483648 ≤ t ∧ t ≤ 2147483647 then t else -2147483648

/-- Qt `qRound(double d)`:
`d >= 0.0 ? int(d + 0.5) : int(d - double(int(d-1)) + 0.5) + int(d-1)`. -/
def qRound (d : ℚ) : Int :=
  if 0 ≤ d then truncToInt (d + 1 / 2)
  else truncToInt (d - (truncToInt (d - 1) : ℚ) + 1 / 2) + truncToInt (d - 1)

/-- Conversion of an `int` to `unsigned int`. -/
def toUnsigned (v : Int) : Nat := (v % 4294967296).toNat

/-- Qt `operator*(const QSize &, qreal)`. -/
def QSize.scale (size : QSize) (c : ℚ) : QSize :=
  ⟨qRound ((size.width : ℚ) * c), qRound ((size.height : ℚ) * c)⟩

/-- A `QRect`, stored as Qt does by its corner coordinates. -/
structure QRect where
  x1 : Int
  y1 : Int
  x2 : Int
  y2 : Int
  deriving DecidableEq, Repr

namespace QRect

/-- A default-constructed `QRect()`. -/
def null : QRect := ⟨0, 0, -1, -1⟩

/-- `QRect::width()`. -/
def width (r : QRect) : Int := r.x2 - r.x1 + 1

/-- `QRect::height()`. -/
def height (r : QRect) : Int := r.y2 - r.y1 + 1

/-- `QRect::setSize(size)`. -/
def setSize (r : QRect) (size : QSize) : QRect :=
  { r with x2 := size.width + r.x1 - 1, y2 := size.height + r.y1 - 1 }

/-- `QRect::moveCenter(p)`. -/
def moveCenter (r : QRect) (p : QPoint) : QRect :=
  let w := r.x2 - r.x1
  let h := r.y2 - r.y1
  let x1 := p.x - Int.tdiv w 2
  let y1 := p.y - Int.tdiv h 2
  ⟨x1, y1, x1 + w, y1 + h⟩

end QRect

/-- What the code asks a `QPainter` to do. -/
inductive PaintOp where
  | drawPixmap (target : QRect) (pixmap : QPixmap)
  | setPen (white : Bool)
  | drawText (rect : QRect) (red green blue : Int)

/-- A `QPainter`: its viewport, the translation of its world transform, and the operations
it has been asked for. -/
structure QPainter where
  viewport : QRect
  dx : ℚ
  dy : ℚ
  ops : List PaintOp

/-- The variables the loops of `drawPixelValues` update. -/
structure PixelLoop where
  self : videoHandler
  item2 : Option videoHandler
  pixelRect : QRect
  painter : QPainter

/-- The body of the inner loop of `drawPixelValues` at pixel `(x, y)`. -/
def drawPixelValues_body (centerPointZero : QPoint) (zoomFactor : ℚ) (x : Nat) (st : PixelLoop)
    (y : Nat) : PixelLoop :=
  let pixCenter : QPoint :=
    ⟨centerPointZero.x + truncToInt ((x : ℚ) * zoomFactor),
     centerPointZero.y + truncToInt ((y : ℚ) * zoomFactor)⟩
  let pixelRect := st.pixelRect.moveCenter pixCenter
  let p1 := getPixelVal st.self x y
  let r : QRgb × Option videoHandler :=
    match st.item2 with
    | some i2 =>
      let p2 := getPixelVal i2 x y
      let dR := qRed p1.1 - qRed p2.1
      let dG := qGreen p1.1 - qGreen p2.1
      let dB := qBlue p1.1 - qBlue p2.1
      (qRgb (clip (128 + dR) 0 255) (clip (128 + dG) 0 255) (clip (128 + dB) 0 255), some p2.2)
    | none => (p1.1, none)
  let pixVal := r.1
  let white := decide (qRed pixVal < 128 ∧ qGreen pixVal < 128 ∧ qBlue pixVal < 128)
  { self := p1.2
    item2 := r.2
    pixelRect := pixelRect
    painter := { st.painter with
      ops := st.painter.ops ++
        [PaintOp.setPen white,
         PaintOp.drawText pixelRect (qRed pixVal) (qGreen pixVal) (qBlue pixVal)] } }

/-- The code of `videoHandler::drawPixelValues`; the loops run `x` from `xMin` to `xMax` and
`y` from `yMin` to `yMax`, both ends included. -/
def drawPixelValues (painter : QPainter) (xMin xMax yMin yMax : Nat) (zoomFactor : ℚ)
    (s : videoHandler) (item2 : Option videoHandler) : PixelLoop :=
  let p0 : QPoint :=
    ⟨qRound ((-s.frameSize.width : ℚ) * zoomFactor) + truncToInt zoomFactor,
     qRound ((-s.frameSize.height : ℚ) * zoomFactor) + truncToInt zoomFactor⟩
  let centerPointZero : QPoint := ⟨qRound ((p0.x : ℚ) / 2), qRound ((p0.y : ℚ) / 2)⟩
  let pixelRect := QRect.null.setSize ⟨truncToInt zoomFactor, truncToInt zoomFactor⟩
  (List.range' xMin (xMax + 1 - xMin)).foldl
    (fun st x =>
      (List.range' yMin (yMax + 1 - yMin)).foldl
        (drawPixelValues_body centerPointZero zoomFactor x) st)
    ⟨s, item2, pixelRect, painter⟩

/-- The bounds `xMin, xMax, yMin, yMax` that `drawFrame` computes for `drawPixelValues`:
the visible pixels, clipped to the frame size. -/
def drawFrame_pixelRange (frameSize : QSize) (videoRect viewport : QRect) (dx dy zoomFactor : ℚ) :
    Int × Int × Int × Int :=
  let xMin := truncToInt (((Int.tdiv videoRect.width 2 : Int) - dx) / zoomFactor)
  let yMin := truncToInt (((Int.tdiv videoRect.height 2 : Int) - dy) / zoomFactor)
  let xMax := truncToInt (((Int.tdiv videoRect.width 2 : Int) - (dx - viewport.width)) / zoomFactor)
  let yMax :=
    truncToInt (((Int.tdiv videoRect.height 2 : Int) - (dy - viewport.height)) / zoomFactor)
  (clip xMin 0 (frameSize.width - 1), clip xMax 0 (frameSize.width - 1),
   clip yMin 0 (frameSize.height - 1), clip yMax 0 (frameSize.height - 1))

/-- The rectangle `drawFrame` draws the frame into: the frame size times the zoom factor,
centred at the origin. -/
def drawFrame_videoRect (frameSize : QSize) (zoomFactor : ℚ) : QRect :=
  (QRect.null.setSize (frameSize.scale zoomFactor)).moveCenter ⟨0, 0⟩

/-- The first part of `drawFrame`: make `frameIdx` the current frame, from the cache or by
`loadFrame`; the flag tells whether the frame is current afterwards. -/
def drawFrame_load (loadFrame : LoadFrame) (frameIdx : Int) (s : videoHandler) :
    videoHandler × Bool :=
  if frameIdx ≠ s.currentFrameIdx then
    if s.pixmapCache.contains frameIdx then
      ({ s with
         currentFrame := (s.pixmapCache.lookup frameIdx).getD QPixmap.null
         currentFrameIdx := frameIdx }, true)
    else
      let s1 := callLoadFrame loadFrame s frameIdx
      (s1, decide (frameIdx = s1.currentFrameIdx))
  else (s, true)

/-- The code of `videoHandler::drawFrame`: the handler and the painter after the call. -/
def drawFrame (loadFrame : LoadFrame) (painter : QPainter) (frameIdx : Int) (zoomFactor : ℚ)
    (s : videoHandler) : videoHandler × QPainter :=
  let loaded := drawFrame_load loadFrame frameIdx s
  let s1 := loaded.1
  if !loaded.2 then (s1, painter)
  else
    let videoRect := drawFrame_videoRect s1.frameSize zoomFactor
    let painter1 : QPainter :=
      { painter with ops := painter.ops ++ [PaintOp.drawPixmap videoRect s1.currentFrame] }
    if zoomFactor ≥ 64 then
      let b := drawFrame_pixelRange s1.frameSize videoRect painter1.viewport painter1.dx
        painter1.dy zoomFactor
      let r := drawPixelValues painter1 (toUnsigned b.1) (toUnsigned b.2.1) (toUnsigned b.2.2.1)
        (toUnsigned b.2.2.2) zoomFactor s1 none
      (r.self, r.painter)
    else (s1, painter1)

/-! Section: Mean squared error of two buffers -/

/-- Memory an `unsigned char *` points to: `size` readable bytes. -/
structure Buffer where
  size : Nat
  byte : Nat → Nat

/-- The read `ptr[i]`: the byte at index `i`, or nothing outside the readable bytes. -/
def Buffer.read (ptr : Buffer) (i : Nat) : Option Int :=
  if i < ptr.size then some ((ptr.byte i % 256 : Nat) : Int) else none

/-- The integer nearest to `q`; a tie goes to the even neighbour. -/
def roundHalfEven (q : ℚ) : Int :=
  let f := ⌊q⌋
  let r := q - f
  if r < 1 / 2 then f
  else if 1 / 2 < r then f + 1
  else if f % 2 = 0 then f else f + 1

/-- The `float` nearest to a positive `q`: 24 significant bits, ties to even.  The exponent
range is left out; the values `computeMSE` meets lie between 2^-31 and 2^47. -/
def roundF32Pos (q : ℚ) : ℚ :=
  let ulp : ℚ := 2 ^ (Int.log 2 q - 23)
  roundHalfEven (q / ulp) * ulp

/-- The `float` nearest to `q`. -/
def roundF32 (q : ℚ) : ℚ :=
  if q = 0 then 0 else if 0 < q then roundF32Pos q else -roundF32Pos (-q)

namespace Float32

/-- Rounding of an exact result to `float`. -/
def round : Double → Double
  | Double.finite q => Double.finite (roundF32 q)
  | x => x

/-- Conversion `(float)n` of an integer. -/
def ofInt (n : Int) : Double := round (Double.ofInt n)

/-- The `float` difference `a - b`. -/
def sub (a b : Double) : Double := round (Double.sub a b)

/-- The `float` product `a * b`. -/
def mul (a b : Double) : Double := round (Double.mul a b)

/-- The `float` sum `a + b`. -/
def add (a b : Double) : Double := round (Double.add a b)

/-- The `float` quotient `a / b`. -/
def div (a b : Double) : Double := round (Double.div a b)

end Float32

/-- The body of the loop of `computeMSE`, every operation in `float`; `none` once a read has
left its buffer. -/
def computeMSE_body (ptr ptr2 : Buffer) (mse : Option Double) (i : Nat) : Option Double :=
  match mse, ptr.read i, ptr2.read i with
  | some m, some a, some b =>
    let diff := Float32.sub (Float32.ofInt a) (Float32.ofInt b)
    some (Float32.add m (Float32.mul diff diff))
  | _, _, _ => none

/-- The code of `videoHandler::computeMSE`. -/
def computeMSE (ptr ptr2 : Buffer) (numPixels : Int) : Option Double :=
  let mse : Double := Double.finite 0
  if numPixels > 0 then
    match (List.range numPixels.toNat).foldl (computeMSE_body ptr ptr2) (some mse) with
    | some m => some (Float32.div m (Float32.ofInt numPixels))
    | none => none
  else some mse

/-! Section: Reference notions used to state the properties -/

/-- The pixels `(x, y)` of the rectangle `[0, width) × [0, height)` in scan order. -/
def overlapPixels (width height : Int) : List (Int × Int) :=
  (intRange height).flatMap (fun y => (intRange width).map (fun x => (x, y)))

/-- The value the loop body of `calculateDifference` stores for the two pixels read. -/
def diffValue (amplificationFactor : Int) (markDifference : Bool) (pixel1 pixel2 : QRgb) : QRgb :=
  let dR := qRed pixel1 - qRed pixel2
  let dG := qGreen pixel1 - qGreen pixel2
  let dB := qBlue pixel1 - qBlue pixel2
  let rgb : Int × Int × Int :=
    if markDifference then
      (if dR ≠ 0 then 255 else 0, if dG ≠ 0 then 255 else 0, if dB ≠ 0 then 255 else 0)
    else if amplificationFactor ≠ 1 then
      (clip (wrap32 (128 + wrap32 (dR * amplificationFactor))) 0 255,
       clip (wrap32 (128 + wrap32 (dG * amplificationFactor))) 0 255,
       clip (wrap32 (128 + wrap32 (dB * amplificationFactor))) 0 255)
    else
      (clip (wrap32 (128 + dR)) 0 255, clip (wrap32 (128 + dG)) 0 255,
       clip (wrap32 (128 + dB)) 0 255)
  qRgb rgb.1 rgb.2.1 rgb.2.2

/-- The handlers `calculateDifference` compares: `self` and `item2` after the loads. -/
def loadedSelf (loadFrame : LoadFrame) (self : videoHandler) (frame : Int) : videoHandler :=
  callLoadFrame loadFrame
    (if self.currentFrameIdx ≠ frame then callLoadFrame loadFrame self frame else self) frame

/-- The second handler after the conditional load of `calculateDifference`. -/
def loadedItem2 (loadFrame2 : LoadFrame) (item2 : videoHandler) (frame : Int) : videoHandler :=
  if item2.currentFrameIdx ≠ frame then callLoadFrame loadFrame2 item2 frame else item2

/-- The channel value the specification gives for a channel difference `delta`:
255 or 0 when differences are only marked, else `max(0, min(255, 128 + delta * amplification))`. -/
def specChannel (amplification : Int) (markOnly : Bool) (delta : Int) : Int :=
  if markOnly then (if delta ≠ 0 then 255 else 0)
  else max 0 (min 255 (128 + delta * amplification))

/-- The sum over the pixels of `[0, width) × [0, height)` of the squared difference of one
channel of the pixels the two handlers read. -/
def sumSquares (channel : QRgb → Int) (a b : videoHandler) (width height : Int) : Int :=
  ((overlapPixels width height).map (fun p =>
    (channel (getPixelVal a p.1 p.2).1 - channel (getPixelVal b p.1 p.2).1) ^ 2)).sum

/-- The four statistics the specification gives for an overlap of `width` by `height`:
per channel the sum of squared differences divided by `width * height`, and their sum. -/
def specStatistics (a b : videoHandler) (width height : Int) : List infoItem :=
  let mseR : ℚ := (sumSquares qRed a b width height : ℚ) / ((width * height : Int) : ℚ)
  let mseG : ℚ := (sumSquares qGreen a b width height : ℚ) / ((width * height : Int) : ℚ)
  let mseB : ℚ := (sumSquares qBlue a b width height : ℚ) / ((width * height : Int) : ℚ)
  [⟨"MSE R", InfoText.num (Double.finite mseR)⟩, ⟨"MSE G", InfoText.num (Double.finite mseG)⟩,
   ⟨"MSE B", InfoText.num (Double.finite mseB)⟩,
   ⟨"MSE All", InfoText.num (Double.finite (mseR + mseG + mseB))⟩]

/-- The four statistics with every value NaN. -/
def nanStatistics : List infoItem :=
  [⟨"MSE R", InfoText.num Double.nan⟩, ⟨"MSE G", InfoText.num Double.nan⟩,
   ⟨"MSE B", InfoText.num Double.nan⟩, ⟨"MSE All", InfoText.num Double.nan⟩]

/-- The four statistics with every value 0. -/
def zeroStatistics : List infoItem :=
  [⟨"MSE R", InfoText.num (Double.finite 0)⟩, ⟨"MSE G", InfoText.num (Double.finite 0)⟩,
   ⟨"MSE B", InfoText.num (Double.finite 0)⟩, ⟨"MSE All", InfoText.num (Double.finite 0)⟩]

/-- An allocation that always succeeds and finds the same leftover value in every pixel. -/
def exampleAlloc : QImageAlloc := fun _ _ => some (fun _ _ => 11259375)

/-- A decoder that makes the requested frame current and keeps the pixmap it finds. -/
def exampleLoadFrame : LoadFrame := fun s frameIdx => { s with currentFrameIdx := frameIdx }

/-- A handler of frame size `size` whose current frame has that size and one colour. -/
def exampleHandler (size : QSize) (rgb : QRgb) : videoHandler :=
  { videoHandler.init with
    frameSize := size
    currentFrame := ⟨⟨size.width, size.height, fun _ _ => rgb⟩⟩ }

/-- The sum over `i` in `[0, count)` of the squared difference of the bytes `a_i` and `b_i`. -/
def sumSquaredSamples (a b : Buffer) (count : Nat) : Int :=
  ((List.range count).map (fun i =>
    (((a.byte i % 256 : Nat) : Int) - ((b.byte i % 256 : Nat) : Int)) ^ 2)).sum

/-- A buffer of `size` bytes, each of them `value`. -/
def exampleBuffer (size value : Nat) : Buffer := ⟨size, fun _ => value⟩

/-- A buffer holding the bytes of a list. -/
def Buffer.ofList (l : List Nat) : Buffer := ⟨l.length, fun i => l.getD i 0⟩

/-- A decoder for caching that writes a pixmap of the frame size, coloured by the index. -/
def exampleLoadFrameForCaching : LoadFrameForCaching :=
  fun s frameIdx => ⟨⟨s.frameSize.width, s.frameSize.height, fun _ _ => qRgb frameIdx 0 0⟩⟩

/-- Both spin boxes hold a value inside their range, as a `QSpinBox` always does. -/
def spinBoxesInRange (s : videoHandler) : Prop :=
  s.ui.widthSpinBox.bound s.ui.widthSpinBox.value = s.ui.widthSpinBox.value ∧
  s.ui.heightSpinBox.bound s.ui.heightSpinBox.value = s.ui.heightSpinBox.value

instance (s : videoHandler) : Decidable (spinBoxesInRange s) :=
  inferInstanceAs (Decidable (_ ∧ _))

/-- The two handlers agree on value, minimum and maximum of both spin boxes and on
`controlsCreated`. -/
def sameSpinBoxes (s t : videoHandler) : Prop :=
  t.ui.widthSpinBox.value = s.ui.widthSpinBox.value ∧
  t.ui.widthSpinBox.minimum = s.ui.widthSpinBox.minimum ∧
  t.ui.widthSpinBox.maximum = s.ui.widthSpinBox.maximum ∧
  t.ui.heightSpinBox.value = s.ui.heightSpinBox.value ∧
  t.ui.heightSpinBox.minimum = s.ui.heightSpinBox.minimum ∧
  t.ui.heightSpinBox.maximum = s.ui.heightSpinBox.maximum ∧
  t.controlsCreated = s.controlsCreated

/-- The size the controls ask for when `sender` signals a change, if it differs from the
current frame size (and, for the combo box, is not the unset size of "Custom Size"). -/
def requestedSize (sender : Sender) (s : videoHandler) : Option QSize :=
  match sender with
  | Sender.widthSpinBox | Sender.heightSpinBox =>
    let newSize : QSize := ⟨s.ui.widthSpinBox.value, s.ui.heightSpinBox.value⟩
    if newSize ≠ s.frameSize then some newSize else none
  | Sender.frameSizeComboBox =>
    let newSize := getSize s.ui.frameSizeComboBox.currentIndex
    if newSize ≠ s.frameSize ∧ newSize ≠ ⟨-1, -1⟩ then some newSize else none
  | Sender.other => none

/-- A handler whose controls exist, with index 5 in the cache and shown, frame size
176 x 144, and the preset "WQVGA" (416 x 240) just selected in the combo box. -/
def exampleControls : videoHandler :=
  { videoHandler.init with
    frameSize := ⟨176, 144⟩
    controlsCreated := true
    currentFrameIdx := 5
    pixmapCache := [(5, QPixmap.null)]
    ui := ⟨⟨176, 0, 100000, true, true⟩, ⟨144, 0, 100000, true, true⟩, ⟨[], 3, true, true⟩⟩ }

/-- A handler without controls, with index 5 in the cache and shown. -/
def exampleCached : videoHandler :=
  { videoHandler.init with
    frameSize := ⟨176, 144⟩
    currentFrameIdx := 5
    pixmapCache := [(5, QPixmap.null)] }

/-- The number of cache-change notifications `signalHandlerChanged(false, false)` in a
trace. -/
def notifications (trace : List Event) : Nat :=
  trace.count (Event.signalHandlerChanged false false)

/-- The number of times a trace starts the caching timer. -/
def timerStarts (trace : List Event) : Nat := trace.count Event.cachingTimerStart

/-- The image a call of `getPixelVal` indexes: the converted current frame when the tag of the
derived image differs from the current frame index, the derived image it finds otherwise. -/
def indexedImage (s : videoHandler) : QImage :=
  if s.currentFrame_Image_FrameIdx ≠ s.currentFrameIdx then s.currentFrame.toImage
  else s.currentFrame_Image

/-- The trace entry a call `getPixelVal(x, y)` on the handler `s` writes for `p = (x, y)`. -/
def readEvent (s : videoHandler) (p : Int × Int) : Event :=
  Event.getPixelVal p.1 p.2 (decide (s.currentFrame_Image_FrameIdx ≠ s.currentFrameIdx))
    ((indexedImage s).valid p.1 p.2)

/-- The number of pixel reads in a trace. -/
def pixelReads (trace : List Event) : Nat :=
  trace.countP (fun e => match e with
    | Event.getPixelVal _ _ _ _ => true
    | _ => false)

/-- The code of `videoHandler::getPixelValuesDifference`: the two handlers after the call. -/
def getPixelValuesDifference_handlers (self : videoHandler) (pixelPos : QPoint)
    (item2 : videoHandler) : videoHandler × videoHandler :=
  let width := min self.frameSize.width item2.frameSize.width
  let height := min self.frameSize.height item2.frameSize.height
  if pixelPos.x < 0 ∨ pixelPos.x ≥ width ∨ pixelPos.y < 0 ∨ pixelPos.y ≥ height then
    (self, item2)
  else ((getPixelValAt self pixelPos).2, (getPixelValAt item2 pixelPos).2)

/-- A 2 x 2 handler that shows frame 5; its derived image still carries the tag -1 of the
constructor. -/
def exampleShowing5 : videoHandler :=
  { exampleHandler ⟨2, 2⟩ (qRgb 1 2 3) with currentFrameIdx := 5 }

/-- A handler of frame size 100000 x 100000, the maximum of the size controls, whose
current frame has that size and one colour. -/
def exampleMaxSize (rgb : QRgb) : videoHandler := exampleHandler ⟨100000, 100000⟩ rgb

/-! Section: A size change in the GUI thread against `cacheFrame` in the caching thread -/

/-- The tail of `setFrameSize` after the size has been stored (lines 117 to 135): the spin
boxes take the new size, with their signal disconnected unless `emitSignal`. -/
def setFrameSize_controls (emitSignalDefault : Bool) (fuel : Nat) (newSize : QSize)
    (emitSignal : Bool) (s1 : videoHandler) : Option videoHandler :=
  if !s1.controlsCreated then some s1
  else
    let s2 := if !emitSignal then setSpinBoxesConnected false s1 else s1
    match widthSpinBox_setValue
        (fun sender t => slotVideoControlChanged emitSignalDefault fuel sender t)
        newSize.width s2 with
    | none => none
    | some s3 =>
      match heightSpinBox_setValue
          (fun sender t => slotVideoControlChanged emitSignalDefault fuel sender t)
          newSize.height s3 with
      | none => none
      | some s4 => some (if !emitSignal then setSpinBoxesConnected true s4 else s4)

/-- The two threads that use a handler. -/
inductive Thread where
  | caching
  | gui
  deriving DecidableEq, Repr

/-- The statement of `cacheFrame(frameIdx)` the caching thread executes next; after the decode
the thread holds its local `cachePixmap`. -/
inductive CachePc where
  | contains
  | lock
  | loadFrameForCaching
  | unlock (cachePixmap : QPixmap)
  | insert (cachePixmap : QPixmap)
  | timer
  | done

/-- The statement the GUI thread executes next in `slotVideoControlChanged`, with the body of
`setFrameSize(newSize)` in the place of its call; from the comparison on the thread holds its
local `newSize`. -/
inductive SizePc where
  | sender
  | compare (newSize : QSize)
  | lock (newSize : QSize)
  | write (newSize : QSize)
  | unlock (newSize : QSize)
  | controls (newSize : QSize)
  | signalUpdateFrameLimits
  | invalidate
  | clear
  | signalHandlerChanged
  | done

/-- Whether the caching thread has left `cacheFrame`. -/
def CachePc.finished : CachePc → Bool
  | CachePc.done => true
  | _ => false

/-- Whether the GUI thread has left `slotVideoControlChanged`. -/
def SizePc.finished : SizePc → Bool
  | SizePc.done => true
  | _ => false

/-- The handler both threads work on, the holder of `cachingFrameSizeMutex`, and the place of
each thread in its function. -/
structure Threads where
  handler : videoHandler
  mutex : Option Thread
  cachePc : CachePc
  sizePc : SizePc

/-- Both threads at the entry of their function, the mutex free. -/
def Threads.start (s : videoHandler) : Threads := ⟨s, none, CachePc.contains, SizePc.sender⟩

/-- One statement of `cacheFrame(frameIdx)` in the caching thread; `none` when the thread
waits for the mutex or has returned. -/
def stepCaching (loadFrameForCaching : LoadFrameForCaching) (frameIdx : Int) (r : Threads) :
    Option Threads :=
  match r.cachePc with
  | CachePc.contains =>
    if r.handler.pixmapCache.contains frameIdx then some { r with cachePc := CachePc.done }
    else some { r with cachePc := CachePc.lock }
  | CachePc.lock =>
    if r.mutex.isNone then
      some { r with mutex := some Thread.caching, cachePc := CachePc.loadFrameForCaching }
    else none
  | CachePc.loadFrameForCaching =>
    some { r with
      handler := { r.handler with
        trace := r.handler.trace ++ [Event.loadFrameForCaching frameIdx] }
      cachePc := CachePc.unlock (loadFrameForCaching r.handler frameIdx) }
  | CachePc.unlock cachePixmap => some { r with mutex := none, cachePc := CachePc.insert cachePixmap }
  | CachePc.insert cachePixmap =>
    some { r with
      handler := { r.handler with
        pixmapCache := r.handler.pixmapCache.insert frameIdx cachePixmap }
      cachePc := CachePc.timer }
  | CachePc.timer =>
    some { r with
      handler :=
        if !r.handler.cachingTimer.active then
          { r.handler with
            cachingTimer := { active := true, singleShot := true, interval := 1000 }
            trace := r.handler.trace ++ [Event.cachingTimerStart] }
        else r.handler
      cachePc := CachePc.done }
  | CachePc.done => none

/-- One statement of `slotVideoControlChanged()` in the GUI thread, run for the signal of
`sender`; `none` when the thread waits for the mutex or has returned.  The spin box updates
at the end of `setFrameSize` are one step, taken while the mutex is free because a slot they
deliver may store a size again. -/
def stepSize (emitSignalDefault : Bool) (fuel : Nat) (sender : Sender) (r : Threads) :
    Option Threads :=
  match r.sizePc with
  | SizePc.sender =>
    if sender = Sender.widthSpinBox ∨ sender = Sender.heightSpinBox then
      let newSize : QSize := ⟨r.handler.ui.widthSpinBox.value, r.handler.ui.heightSpinBox.value⟩
      if newSize ≠ r.handler.frameSize then
        let idx := findSize newSize
        some { r with
          handler := { r.handler with ui := { r.handler.ui with
            frameSizeComboBox :=
              { r.handler.ui.frameSizeComboBox with currentIndex := idx, connected := true } } }
          sizePc := SizePc.compare newSize }
      else some { r with sizePc := SizePc.done }
    else if sender = Sender.frameSizeComboBox then
      let newSize := getSize r.handler.ui.frameSizeComboBox.currentIndex
      if newSize ≠ r.handler.frameSize ∧ newSize ≠ ⟨-1, -1⟩ then
        some { r with sizePc := SizePc.compare newSize }
      else some { r with sizePc := SizePc.done }
    else some { r with sizePc := SizePc.done }
  | SizePc.compare newSize =>
    if newSize = r.handler.frameSize then some { r with sizePc := SizePc.signalUpdateFrameLimits }
    else some { r with sizePc := SizePc.lock newSize }
  | SizePc.lock newSize =>
    if r.mutex.isNone then some { r with mutex := some Thread.gui, sizePc := SizePc.write newSize }
    else none
  | SizePc.write newSize =>
    some { r with
      handler := { r.handler with frameSize := newSize }
      sizePc := SizePc.unlock newSize }
  | SizePc.unlock newSize => some { r with mutex := none, sizePc := SizePc.controls newSize }
  | SizePc.controls newSize =>
    if r.mutex.isNone then
      match setFrameSize_controls emitSignalDefault fuel newSize emitSignalDefault r.handler with
      | some s => some { r with handler := s, sizePc := SizePc.signalUpdateFrameLimits }
      | none => none
    else none
  | SizePc.signalUpdateFrameLimits =>
    some { r with
      handler := { r.handler with
        trace := r.handler.trace ++ [Event.signalUpdateFrameLimits] }
      sizePc := SizePc.invalidate }
  | SizePc.invalidate =>
    some { r with
      handler := { r.handler with currentFrameIdx := -1 }
      sizePc := SizePc.clear }
  | SizePc.clear =>
    some { r with
      handler := { r.handler with pixmapCache := r.handler.pixmapCache.clear }
      sizePc := SizePc.signalHandlerChanged }
  | SizePc.signalHandlerChanged =>
    some { r with
      handler := { r.handler with
        trace := r.handler.trace ++ [Event.signalHandlerChanged true true] }
      sizePc := SizePc.done }
  | SizePc.done => none

/-- The threads after the statements of a schedule, each entry naming the thread that
executes its next statement; `none` when a thread named cannot move. -/
def runSchedule (loadFrameForCaching : LoadFrameForCaching) (frameIdx : Int)
    (emitSignalDefault : Bool) (fuel : Nat) (sender : Sender) :
    List Thread → Threads → Option Threads
  | [], r => some r
  | Thread.caching :: schedule, r =>
    match stepCaching loadFrameForCaching frameIdx r with
    | some r1 =>
      runSchedule loadFrameForCaching frameIdx emitSignalDefault fuel sender schedule r1
    | none => none
  | Thread.gui :: schedule, r =>
    match stepSize emitSignalDefault fuel sender r with
    | some r1 =>
      runSchedule loadFrameForCaching frameIdx emitSignalDefault fuel sender schedule r1
    | none => none

/-- What is left of a run for comparison: whether both threads have returned and the mutex is
free, the frame size, and the size of the pixmap cached under `frameIdx`. -/
def Threads.summary (frameIdx : Int) (r : Threads) :
    Bool × Bool × Bool × QSize × Option (Int × Int) :=
  (r.cachePc.finished, r.sizePc.finished, r.mutex.isNone, r.handler.frameSize,
   (r.handler.pixmapCache.lookup frameIdx).map
     (fun p => (p.toImage.width, p.toImage.height)))

/-- The handler of `exampleControls` after the user has typed 416 into the width spin box. -/
def exampleWidthEdited : videoHandler :=
  { exampleControls with
    ui := ⟨⟨416, 0, 100000, true, true⟩, ⟨144, 0, 100000, true, true⟩, ⟨[], 1, true, true⟩⟩ }

/-- The schedule of the race: the caching thread decodes under the mutex, the GUI thread then
changes the size and clears the cache, and the caching thread inserts its pixmap. -/
def exampleSchedule : List Thread :=
  List.replicate 4 Thread.caching ++ List.replicate 10 Thread.gui ++
    List.replicate 2 Thread.caching

/-! Section: Lemmas: machine integers and colours -/

theorem wrap32_eq_self {x : Int} (h1 : -2147483648 ≤ x) (h2 : x < 2147483648) :
    wrap32 x = x := by
  unfold wrap32; omega

theorem wrap32_add_wrap32 (a b : Int) : wrap32 (a + wrap32 b) = wrap32 (a + b) := by
  unfold wrap32; omega

theorem wrap64_eq_self {x : Int} (h1 : -9223372036854775808 ≤ x)
    (h2 : x < 9223372036854775808) : wrap64 x = x := by
  unfold wrap64; omega

theorem wrap64_wrap64_add (a b : Int) : wrap64 (wrap64 a + b) = wrap64 (a + b) := by
  unfold wrap64; omega

theorem qRed_range (p : QRgb) : 0 ≤ qRed p ∧ qRed p ≤ 255 := by
  unfold qRed; omega

theorem qGreen_range (p : QRgb) : 0 ≤ qGreen p ∧ qGreen p ≤ 255 := by
  unfold qGreen; omega

theorem qBlue_range (p : QRgb) : 0 ≤ qBlue p ∧ qBlue p ≤ 255 := by
  unfold qBlue; omega

theorem qRed_qRgb {r g b : Int} (hr : 0 ≤ r ∧ r ≤ 255) : qRed (qRgb r g b) = r := by
  unfold qRed qRgb; omega

theorem qGreen_qRgb {r g b : Int} (hg : 0 ≤ g ∧ g ≤ 255) : qGreen (qRgb r g b) = g := by
  unfold qGreen qRgb; omega

theorem qBlue_qRgb {r g b : Int} (hb : 0 ≤ b ∧ b ≤ 255) : qBlue (qRgb r g b) = b := by
  unfold qBlue qRgb; omega

/-! Section: Lemmas: fresh images -/

theorem QImage.create_of_some {alloc : QImageAlloc} {w h : Int} {d : Int → Int → QRgb}
    (hw : 0 < w) (hh : 0 < h) (hd : alloc w h = some d) :
    QImage.create alloc w h = ⟨w, h, d⟩ := by
  unfold QImage.create
  rw [if_neg (by omega), hd]

theorem QImage.create_of_nonpos (alloc : QImageAlloc) {w h : Int} (hwh : w ≤ 0 ∨ h ≤ 0) :
    QImage.create alloc w h = QImage.null := by
  unfold QImage.create
  rw [if_pos hwh]

theorem QImage.create_cases (alloc : QImageAlloc) (w h : Int) :
    QImage.create alloc w h = QImage.null ∨
      (0 < w ∧ 0 < h ∧ ∃ d, alloc w h = some d ∧ QImage.create alloc w h = ⟨w, h, d⟩) := by
  by_cases hwh : w ≤ 0 ∨ h ≤ 0
  · exact Or.inl (QImage.create_of_nonpos alloc hwh)
  · cases hd : alloc w h with
    | none =>
      left
      unfold QImage.create
      rw [if_neg hwh, hd]
    | some d =>
      right
      exact ⟨by omega, by omega, d, rfl, QImage.create_of_some (by omega) (by omega) hd⟩

theorem QImage.create_valid {alloc : QImageAlloc} {w h x y : Int}
    (hv : (QImage.create alloc w h).valid x y = true) : 0 ≤ x ∧ x < w ∧ 0 ≤ y ∧ y < h := by
  rcases QImage.create_cases alloc w h with h0 | ⟨-, -, d, -, h1⟩
  · rw [h0] at hv
    unfold QImage.valid QImage.null at hv
    simp only [decide_eq_true_eq] at hv
    omega
  · rw [h1] at hv
    unfold QImage.valid at hv
    simpa only [decide_eq_true_eq] using hv

/-! Section: Lemmas: reading pixels -/

theorem getPixelVal_snd_fst (s : videoHandler) (x y x1 y1 : Int) :
    (getPixelVal (getPixelVal s x y).2 x1 y1).1 = (getPixelVal s x1 y1).1 := by
  unfold getPixelVal
  by_cases h : s.currentFrame_Image_FrameIdx ≠ s.currentFrameIdx <;> simp [h]

theorem getPixelValAt_eq (s : videoHandler) (p : QPoint) :
    getPixelValAt s p = getPixelVal s p.x p.y := rfl

/-! Section: Lemmas: the loops of `calculateDifference` -/

theorem mem_intRange (n i : Int) : i ∈ intRange n ↔ 0 ≤ i ∧ i < n := by
  unfold intRange
  simp only [List.mem_map, List.mem_range]
  constructor
  · rintro ⟨k, hk, rfl⟩
    simp only [Int.ofNat_eq_coe]
    omega
  · rintro ⟨h0, h1⟩
    exact ⟨i.toNat, by omega, by simp only [Int.ofNat_eq_coe]; omega⟩

theorem mem_overlapPixels (width height x y : Int) :
    (x, y) ∈ overlapPixels width height ↔ (0 ≤ x ∧ x < width) ∧ (0 ≤ y ∧ y < height) := by
  unfold overlapPixels
  simp only [List.mem_flatMap, List.mem_map, Prod.mk.injEq, mem_intRange]
  constructor
  · rintro ⟨b, hb, a, ha, rfl, rfl⟩
    exact ⟨ha, hb⟩
  · rintro ⟨hx, hy⟩
    exact ⟨y, hy, x, hx, rfl, rfl⟩

theorem calculateDifference_loops_eq_foldl (amp : Int) (mark : Bool) (width height : Int)
    (st : DiffLoop) :
    calculateDifference_loops amp mark width height st =
      (overlapPixels width height).foldl
        (fun st p => calculateDifference_body amp mark p.2 st p.1) st := by
  unfold calculateDifference_loops overlapPixels
  generalize intRange height = ys
  induction ys generalizing st with
  | nil => rfl
  | cons y ys ih =>
    rw [List.foldl_cons, ih, List.flatMap_cons, List.foldl_append, List.foldl_map]

theorem calculateDifference_body_diffImg (amp : Int) (mark : Bool) (y : Int) (st : DiffLoop)
    (x : Int) :
    (calculateDifference_body amp mark y st x).diffImg =
      st.diffImg.setPixel x y
        (diffValue amp mark (getPixelVal st.self x y).1 (getPixelVal st.item2 x y).1) := rfl

/-- The state of the loops after the pixels `ps` have been visited, starting with the
handlers `a`, `b`, the image `img` and zeroed sums. -/
theorem calculateDifference_foldl_spec (amp : Int) (mark : Bool) (a b : videoHandler)
    (img : QImage) (ps : List (Int × Int)) :
    let st := ps.foldl (fun st p => calculateDifference_body amp mark p.2 st p.1)
      ⟨a, b, img, 0, 0, 0⟩
    (∀ x y, (getPixelVal st.self x y).1 = (getPixelVal a x y).1) ∧
    (∀ x y, (getPixelVal st.item2 x y).1 = (getPixelVal b x y).1) ∧
    st.diffImg.width = img.width ∧ st.diffImg.height = img.height ∧
    (∀ x y, st.diffImg.data x y =
      if (x, y) ∈ ps ∧ img.valid x y = true then
        diffValue amp mark (getPixelVal a x y).1 (getPixelVal b x y).1
      else img.data x y) ∧
    st.mseAdd0 = wrap64 ((ps.map (fun p =>
      (qRed (getPixelVal a p.1 p.2).1 - qRed (getPixelVal b p.1 p.2).1) ^ 2)).sum) ∧
    st.mseAdd1 = wrap64 ((ps.map (fun p =>
      (qGreen (getPixelVal a p.1 p.2).1 - qGreen (getPixelVal b p.1 p.2).1) ^ 2)).sum) ∧
    st.mseAdd2 = wrap64 ((ps.map (fun p =>
      (qBlue (getPixelVal a p.1 p.2).1 - qBlue (getPixelVal b p.1 p.2).1) ^ 2)).sum) := by
  induction ps using List.reverseRecOn with
  | nil =>
    simp only [List.foldl_nil, List.not_mem_nil, false_and, if_false, List.map_nil,
      List.sum_nil, implies_true, true_and]
    refine ⟨?_, ?_, ?_⟩ <;> (unfold wrap64; rfl)
  | append_singleton ps p ih =>
    obtain ⟨x0, y0⟩ := p
    simp only [List.foldl_append, List.foldl_cons, List.foldl_nil, List.map_append,
      List.map_cons, List.map_nil, List.sum_append, List.sum_cons, List.sum_nil, add_zero]
    simp only at ih
    generalize ps.foldl (fun st p => calculateDifference_body amp mark p.2 st p.1)
      ⟨a, b, img, 0, 0, 0⟩ = st at ih ⊢
    obtain ⟨hA, hB, hw, hh, hdata, h0, h1, h2⟩ := ih
    have hvalid : ∀ x y, st.diffImg.valid x y = img.valid x y := by
      intro x y; unfold QImage.valid; rw [hw, hh]
    refine ⟨?_, ?_, ?_, ?_, ?_, ?_, ?_, ?_⟩
    · intro x y
      show (getPixelVal (getPixelVal st.self x0 y0).2 x y).1 = _
      rw [getPixelVal_snd_fst, hA]
    · intro x y
      show (getPixelVal (getPixelVal st.item2 x0 y0).2 x y).1 = _
      rw [getPixelVal_snd_fst, hB]
    · rw [calculateDifference_body_diffImg]
      unfold QImage.setPixel
      split <;> simp [hw]
    · rw [calculateDifference_body_diffImg]
      unfold QImage.setPixel
      split <;> simp [hh]
    · intro x y
      rw [calculateDifference_body_diffImg, hA, hB]
      unfold QImage.setPixel
      by_cases hv : st.diffImg.valid x0 y0 = true
      · rw [if_pos hv]
        simp only [List.mem_append, List.mem_singleton, Prod.mk.injEq]
        by_cases hxy : x = x0 ∧ y = y0
        · obtain ⟨rfl, rfl⟩ := hxy
          rw [hvalid] at hv
          simp [hv]
        · rw [if_neg hxy, hdata]
          simp [hxy]
      · rw [if_neg hv, hdata]
        simp only [List.mem_append, List.mem_singleton, Prod.mk.injEq]
        by_cases hxy : x = x0 ∧ y = y0
        · obtain ⟨rfl, rfl⟩ := hxy
          rw [hvalid] at hv
          simp [hv]
        · simp [hxy]
    · show wrap64 (st.mseAdd0 + wrap32 (_ * _)) = _
      rw [hA, hB, h0, wrap64_wrap64_add, wrap32_eq_self, sq]
      · have h1 := qRed_range (getPixelVal a x0 y0).1
        have h2 := qRed_range (getPixelVal b x0 y0).1
        nlinarith
      · have h1 := qRed_range (getPixelVal a x0 y0).1
        have h2 := qRed_range (getPixelVal b x0 y0).1
        nlinarith
    · show wrap64 (st.mseAdd1 + wrap32 (_ * _)) = _
      rw [hA, hB, h1, wrap64_wrap64_add, wrap32_eq_self, sq]
      · have h1 := qGreen_range (getPixelVal a x0 y0).1
        have h2 := qGreen_range (getPixelVal b x0 y0).1
        nlinarith
      · have h1 := qGreen_range (getPixelVal a x0 y0).1
        have h2 := qGreen_range (getPixelVal b x0 y0).1
        nlinarith
    · show wrap64 (st.mseAdd2 + wrap32 (_ * _)) = _
      rw [hA, hB, h2, wrap64_wrap64_add, wrap32_eq_self, sq]
      · have h1 := qBlue_range (getPixelVal a x0 y0).1
        have h2 := qBlue_range (getPixelVal b x0 y0).1
        nlinarith
      · have h1 := qBlue_range (getPixelVal a x0 y0).1
        have h2 := qBlue_range (getPixelVal b x0 y0).1
        nlinarith

theorem calculateDifference_unfold (alloc : QImageAlloc) (loadFrame loadFrame2 : LoadFrame) (self item2 : videoHandler)
    (frame : Int) (l : List infoItem) (amp : Int) (mark : Bool) :
    calculateDifference alloc loadFrame loadFrame2 self item2 frame l amp mark =
      (let a := loadedSelf loadFrame self frame
       let b := loadedItem2 loadFrame2 item2 frame
       let width := min a.frameSize.width b.frameSize.width
       let height := min a.frameSize.height b.frameSize.height
       let st := (overlapPixels width height).foldl
         (fun st p => calculateDifference_body amp mark p.2 st p.1)
         ⟨a, b, QImage.create alloc width height, 0, 0, 0⟩
       let area := Double.ofInt (wrap32 (width * height))
       let mse0 := Double.div (Double.ofInt st.mseAdd0) area
       let mse1 := Double.div (Double.ofInt st.mseAdd1) area
       let mse2 := Double.div (Double.ofInt st.mseAdd2) area
       ⟨QPixmap.fromImage st.diffImg,
        (l ++ [⟨"Difference Type", InfoText.str "RGB"⟩]) ++
          [⟨"MSE R", InfoText.num mse0⟩, ⟨"MSE G", InfoText.num mse1⟩,
           ⟨"MSE B", InfoText.num mse2⟩,
           ⟨"MSE All", InfoText.num (Double.add (Double.add mse0 mse1) mse2)⟩],
        st.self, st.item2⟩) := by
  unfold calculateDifference loadedSelf loadedItem2
  simp only [calculateDifference_loops_eq_foldl]

theorem diffValue_channels (amp : Int) (mark : Bool) (p1 p2 : QRgb)
    (hamp : mark = false → -8421503 ≤ amp ∧ amp ≤ 8421503) :
    qRed (diffValue amp mark p1 p2) = specChannel amp mark (qRed p1 - qRed p2) ∧
    qGreen (diffValue amp mark p1 p2) = specChannel amp mark (qGreen p1 - qGreen p2) ∧
    qBlue (diffValue amp mark p1 p2) = specChannel amp mark (qBlue p1 - qBlue p2) := by
  have key : ∀ d : Int, -255 ≤ d → d ≤ 255 →
      (0 ≤ specChannel amp mark d ∧ specChannel amp mark d ≤ 255) ∧
      (if mark then (if d ≠ 0 then 255 else 0)
       else if amp ≠ 1 then clip (wrap32 (128 + wrap32 (d * amp))) 0 255
       else clip (wrap32 (128 + d)) 0 255) = specChannel amp mark d := by
    intro d hd1 hd2
    unfold specChannel
    cases mark with
    | true =>
      simp only [if_true]
      split <;> simp
    | false =>
      obtain ⟨ha1, ha2⟩ := hamp rfl
      have hprod1 : -2147483265 ≤ d * amp := by nlinarith
      have hprod2 : d * amp ≤ 2147483265 := by nlinarith
      simp only [Bool.false_eq_true, if_false]
      refine ⟨by omega, ?_⟩
      by_cases h1 : amp = 1
      · subst h1
        simp only [ne_eq, not_true_eq_false, if_false, mul_one]
        rw [wrap32_eq_self (by omega) (by omega)]
        unfold clip; rfl
      · simp only [ne_eq, h1, not_false_eq_true, if_true]
        rw [wrap32_add_wrap32, wrap32_eq_self (by omega) (by omega)]
        unfold clip; rfl
  have hR := key (qRed p1 - qRed p2) (by have := qRed_range p1; have := qRed_range p2; omega)
    (by have := qRed_range p1; have := qRed_range p2; omega)
  have hG := key (qGreen p1 - qGreen p2)
    (by have := qGreen_range p1; have := qGreen_range p2; omega)
    (by have := qGreen_range p1; have := qGreen_range p2; omega)
  have hB := key (qBlue p1 - qBlue p2) (by have := qBlue_range p1; have := qBlue_range p2; omega)
    (by have := qBlue_range p1; have := qBlue_range p2; omega)
  have hval : diffValue amp mark p1 p2 =
      qRgb (specChannel amp mark (qRed p1 - qRed p2))
        (specChannel amp mark (qGreen p1 - qGreen p2))
        (specChannel amp mark (qBlue p1 - qBlue p2)) := by
    unfold diffValue
    rw [← hR.2, ← hG.2, ← hB.2]
    cases mark <;> by_cases h1 : amp = 1 <;> simp [h1]
  rw [hval]
  exact ⟨qRed_qRgb hR.1, qGreen_qRgb hG.1, qBlue_qRgb hB.1⟩

/-- C1 (amended): when the overlap `min(w1,w2)` by `min(h1,h2)` of the two frame sizes has
positive width and height, Qt can allocate an image of that size, and the amplification factor
lies between -8421503 and 8421503 when differences are not only marked, the image returned by
`calculateDifference` has width `min(w1,w2)` and height `min(h1,h2)`, and each channel of each of
its pixels is 255/0 (marking) or `max(0, min(255, 128 + delta * amplification))`, where `delta` is
the channel difference of the two frames at that pixel. -/
theorem calculateDifference_image (alloc : QImageAlloc) (loadFrame loadFrame2 : LoadFrame) (self item2 : videoHandler)
    (frame : Int) (l : List infoItem) (amp : Int) (mark : Bool)
    (hw : 0 < min (loadedSelf loadFrame self frame).frameSize.width
      (loadedItem2 loadFrame2 item2 frame).frameSize.width)
    (hh : 0 < min (loadedSelf loadFrame self frame).frameSize.height
      (loadedItem2 loadFrame2 item2 frame).frameSize.height)
    (halloc : (alloc
      (min (loadedSelf loadFrame self frame).frameSize.width
        (loadedItem2 loadFrame2 item2 frame).frameSize.width)
      (min (loadedSelf loadFrame self frame).frameSize.height
        (loadedItem2 loadFrame2 item2 frame).frameSize.height)).isSome = true)
    (hamp : mark = false → -8421503 ≤ amp ∧ amp ≤ 8421503) :
    ((calculateDifference alloc loadFrame loadFrame2 self item2 frame l amp mark).pixmap.toImage.width =
      min (loadedSelf loadFrame self frame).frameSize.width
        (loadedItem2 loadFrame2 item2 frame).frameSize.width) ∧
    ((calculateDifference alloc loadFrame loadFrame2 self item2 frame l amp mark).pixmap.toImage.height =
      min (loadedSelf loadFrame self frame).frameSize.height
        (loadedItem2 loadFrame2 item2 frame).frameSize.height) ∧
    ∀ x y : Int,
      0 ≤ x → x < min (loadedSelf loadFrame self frame).frameSize.width
        (loadedItem2 loadFrame2 item2 frame).frameSize.width →
      0 ≤ y → y < min (loadedSelf loadFrame self frame).frameSize.height
        (loadedItem2 loadFrame2 item2 frame).frameSize.height →
      qRed ((calculateDifference alloc loadFrame loadFrame2 self item2 frame l amp mark).pixmap.toImage.pixel x y)
        = specChannel amp mark
            (qRed (getPixelVal (loadedSelf loadFrame self frame) x y).1 -
             qRed (getPixelVal (loadedItem2 loadFrame2 item2 frame) x y).1) ∧
      qGreen ((calculateDifference alloc loadFrame loadFrame2 self item2 frame l amp mark).pixmap.toImage.pixel x y)
        = specChannel amp mark
            (qGreen (getPixelVal (loadedSelf loadFrame self frame) x y).1 -
             qGreen (getPixelVal (loadedItem2 loadFrame2 item2 frame) x y).1) ∧
      qBlue ((calculateDifference alloc loadFrame loadFrame2 self item2 frame l amp mark).pixmap.toImage.pixel x y)
        = specChannel amp mark
            (qBlue (getPixelVal (loadedSelf loadFrame self frame) x y).1 -
             qBlue (getPixelVal (loadedItem2 loadFrame2 item2 frame) x y).1) := by
  rw [calculateDifference_unfold]
  generalize loadedSelf loadFrame self frame = a at hw hh halloc ⊢
  generalize loadedItem2 loadFrame2 item2 frame = b at hw hh halloc ⊢
  simp only [QPixmap.toImage, QPixmap.fromImage]
  generalize hW : min a.frameSize.width b.frameSize.width = W at hw halloc ⊢
  generalize hH : min a.frameSize.height b.frameSize.height = H at hh halloc ⊢
  obtain ⟨d, hd⟩ := Option.isSome_iff_exists.1 halloc
  have hcreate : QImage.create alloc W H = ⟨W, H, d⟩ := QImage.create_of_some hw hh hd
  obtain ⟨-, -, hw1, hh1, hdata, -, -, -⟩ :=
    calculateDifference_foldl_spec amp mark a b (QImage.create alloc W H) (overlapPixels W H)
  rw [hcreate] at hw1 hh1 hdata ⊢
  refine ⟨hw1, hh1, ?_⟩
  intro x y hx0 hx1 hy0 hy1
  have hvalid : QImage.valid ⟨W, H, d⟩ x y = true := by
    unfold QImage.valid; simp only [decide_eq_true_eq]; omega
  have hpix : QImage.pixel ((overlapPixels W H).foldl
      (fun st p => calculateDifference_body amp mark p.2 st p.1)
      ⟨a, b, ⟨W, H, d⟩, 0, 0, 0⟩).diffImg x y =
      diffValue amp mark (getPixelVal a x y).1 (getPixelVal b x y).1 := by
    unfold QImage.pixel
    have hv2 : QImage.valid ((overlapPixels W H).foldl
        (fun st p => calculateDifference_body amp mark p.2 st p.1)
        ⟨a, b, ⟨W, H, d⟩, 0, 0, 0⟩).diffImg x y = true := by
      unfold QImage.valid; rw [hw1, hh1]; simp only [decide_eq_true_eq]; omega
    rw [if_pos hv2, hdata, if_pos ⟨(mem_overlapPixels W H x y).2 ⟨⟨hx0, hx1⟩, ⟨hy0, hy1⟩⟩, hvalid⟩]
  rw [hpix]
  exact diffValue_channels amp mark _ _ hamp

/-- The info list `calculateDifference` returns, with the machine arithmetic still visible. -/
theorem calculateDifference_info (alloc : QImageAlloc) (loadFrame loadFrame2 : LoadFrame) (self item2 : videoHandler)
    (frame : Int) (l : List infoItem) (amp : Int) (mark : Bool) :
    (calculateDifference alloc loadFrame loadFrame2 self item2 frame l amp mark).differenceInfoList =
      (let a := loadedSelf loadFrame self frame
       let b := loadedItem2 loadFrame2 item2 frame
       let width := min a.frameSize.width b.frameSize.width
       let height := min a.frameSize.height b.frameSize.height
       let area := Double.ofInt (wrap32 (width * height))
       let mse0 := Double.div (Double.ofInt (wrap64 (sumSquares qRed a b width height))) area
       let mse1 := Double.div (Double.ofInt (wrap64 (sumSquares qGreen a b width height))) area
       let mse2 := Double.div (Double.ofInt (wrap64 (sumSquares qBlue a b width height))) area
       l ++ [⟨"Difference Type", InfoText.str "RGB"⟩, ⟨"MSE R", InfoText.num mse0⟩,
          ⟨"MSE G", InfoText.num mse1⟩, ⟨"MSE B", InfoText.num mse2⟩,
          ⟨"MSE All", InfoText.num (Double.add (Double.add mse0 mse1) mse2)⟩]) := by
  rw [calculateDifference_unfold]
  obtain ⟨-, -, -, -, -, h0, h1, h2⟩ :=
    calculateDifference_foldl_spec amp mark (loadedSelf loadFrame self frame)
      (loadedItem2 loadFrame2 item2 frame)
      (QImage.create alloc
        (min (loadedSelf loadFrame self frame).frameSize.width
          (loadedItem2 loadFrame2 item2 frame).frameSize.width)
        (min (loadedSelf loadFrame self frame).frameSize.height
          (loadedItem2 loadFrame2 item2 frame).frameSize.height))
      (overlapPixels
        (min (loadedSelf loadFrame self frame).frameSize.width
          (loadedItem2 loadFrame2 item2 frame).frameSize.width)
        (min (loadedSelf loadFrame self frame).frameSize.height
          (loadedItem2 loadFrame2 item2 frame).frameSize.height))
  simp only [h0, h1, h2, sumSquares, List.append_assoc, List.cons_append, List.nil_append]

theorem length_intRange (n : Int) : (intRange n).length = n.toNat := by
  unfold intRange; simp

theorem length_overlapPixels (width height : Int) :
    (overlapPixels width height).length = height.toNat * width.toNat := by
  unfold overlapPixels
  generalize intRange_h : intRange height = ys
  have hlen : ys.length = height.toNat := by rw [← intRange_h, length_intRange]
  rw [← hlen]
  clear hlen intRange_h
  induction ys with
  | nil => simp
  | cons y ys ih =>
    rw [List.flatMap_cons, List.length_append, ih, List.length_map, length_intRange,
      List.length_cons]
    ring

theorem sum_map_bounds (ps : List (Int × Int)) (f : Int × Int → Int) (c : Int)
    (hf : ∀ p, 0 ≤ f p ∧ f p ≤ c) :
    0 ≤ (ps.map f).sum ∧ (ps.map f).sum ≤ c * ps.length := by
  induction ps with
  | nil => simp
  | cons p ps ih =>
    have := hf p
    simp only [List.map_cons, List.sum_cons, List.length_cons, Nat.cast_add, Nat.cast_one]
    constructor
    · omega
    · nlinarith

theorem sumSquares_bounds (channel : QRgb → Int) (hc : ∀ p, 0 ≤ channel p ∧ channel p ≤ 255)
    (a b : videoHandler) (width height : Int) :
    0 ≤ sumSquares channel a b width height ∧
    sumSquares channel a b width height ≤ 65025 * (height.toNat * width.toNat : Nat) := by
  unfold sumSquares
  rw [← length_overlapPixels]
  apply sum_map_bounds
  intro p
  have h1 := hc (getPixelVal a p.1 p.2).1
  have h2 := hc (getPixelVal b p.1 p.2).1
  constructor
  · positivity
  · nlinarith

theorem overlapPixels_eq_nil (width height : Int) (h : width ≤ 0 ∨ height ≤ 0) :
    overlapPixels width height = [] := by
  unfold overlapPixels intRange
  rcases h with h | h
  · have : width.toNat = 0 := by omega
    simp [this]
  · have : height.toNat = 0 := by omega
    simp [this]

theorem sumSquares_eq_zero_of_nil (channel : QRgb → Int) (a b : videoHandler)
    (width height : Int) (h : width ≤ 0 ∨ height ≤ 0) :
    sumSquares channel a b width height = 0 := by
  unfold sumSquares
  rw [overlapPixels_eq_nil width height h]
  rfl

theorem sumSquares_eq_zero_of_same (channel : QRgb → Int) (a b : videoHandler)
    (width height : Int)
    (h : ∀ x y, 0 ≤ x → x < width → 0 ≤ y → y < height →
      (getPixelVal a x y).1 = (getPixelVal b x y).1) :
    sumSquares channel a b width height = 0 := by
  unfold sumSquares
  apply List.sum_eq_zero
  intro v hv
  rw [List.mem_map] at hv
  obtain ⟨⟨x, y⟩, hp, rfl⟩ := hv
  rw [mem_overlapPixels] at hp
  simp only
  rw [h x y hp.1.1 hp.1.2 hp.2.1 hp.2.2]
  simp

theorem wrap64_zero : wrap64 0 = 0 := by unfold wrap64; rfl

theorem Double.div_zero_zero : Double.div (Double.ofInt 0) (Double.ofInt 0) = Double.nan := by
  simp [Double.div, Double.ofInt]

theorem Double.zero_div_ofInt {n : Int} (hn : n ≠ 0) :
    Double.div (Double.ofInt 0) (Double.ofInt n) = Double.finite 0 := by
  simp [Double.div, Double.ofInt, hn]

theorem Double.div_ofInt {m n : Int} (hn : n ≠ 0) :
    Double.div (Double.ofInt m) (Double.ofInt n) = Double.finite ((m : ℚ) / (n : ℚ)) := by
  simp [Double.div, Double.ofInt, hn]

/-- C2 (amended): when the overlap rectangle is not empty and its area `w * h` is below 2^31,
the statistics `calculateDifference` appends are "MSE R", "MSE G", "MSE B", each the sum over the
overlap of the squared channel difference divided by `w * h`, and "MSE All", their sum, whatever
the amplification factor and the marking flag. -/
theorem calculateDifference_statistics (alloc : QImageAlloc) (loadFrame loadFrame2 : LoadFrame) (self item2 : videoHandler)
    (frame : Int) (l : List infoItem) (amp : Int) (mark : Bool)
    (hw : 0 < min (loadedSelf loadFrame self frame).frameSize.width
      (loadedItem2 loadFrame2 item2 frame).frameSize.width)
    (hh : 0 < min (loadedSelf loadFrame self frame).frameSize.height
      (loadedItem2 loadFrame2 item2 frame).frameSize.height)
    (harea : min (loadedSelf loadFrame self frame).frameSize.width
        (loadedItem2 loadFrame2 item2 frame).frameSize.width *
      min (loadedSelf loadFrame self frame).frameSize.height
        (loadedItem2 loadFrame2 item2 frame).frameSize.height < 2147483648) :
    (calculateDifference alloc loadFrame loadFrame2 self item2 frame l amp mark).differenceInfoList =
      l ++ ⟨"Difference Type", InfoText.str "RGB"⟩ ::
        specStatistics (loadedSelf loadFrame self frame) (loadedItem2 loadFrame2 item2 frame)
          (min (loadedSelf loadFrame self frame).frameSize.width
            (loadedItem2 loadFrame2 item2 frame).frameSize.width)
          (min (loadedSelf loadFrame self frame).frameSize.height
            (loadedItem2 loadFrame2 item2 frame).frameSize.height) := by
  rw [calculateDifference_info]
  dsimp only
  generalize loadedSelf loadFrame self frame = a at hw hh harea ⊢
  generalize loadedItem2 loadFrame2 item2 frame = b at hw hh harea ⊢
  generalize min a.frameSize.width b.frameSize.width = W at hw hh harea ⊢
  generalize min a.frameSize.height b.frameSize.height = H at hw hh harea ⊢
  have hpos : 0 < W * H := Int.mul_pos hw hh
  have hcount : ((H.toNat * W.toNat : Nat) : Int) = W * H := by
    rw [Nat.cast_mul, Int.toNat_of_nonneg hw.le, Int.toNat_of_nonneg hh.le, mul_comm]
  have hsum : ∀ channel : QRgb → Int, (∀ p, 0 ≤ channel p ∧ channel p ≤ 255) →
      wrap64 (sumSquares channel a b W H) = sumSquares channel a b W H := by
    intro channel hc
    have hb := sumSquares_bounds channel hc a b W H
    rw [hcount] at hb
    exact wrap64_eq_self (by omega) (by omega)
  have harea32 : wrap32 (W * H) = W * H := wrap32_eq_self (by omega) harea
  simp only [hsum qRed qRed_range, hsum qGreen qGreen_range, hsum qBlue qBlue_range, harea32,
    Double.div_ofInt hpos.ne', Double.add, specStatistics]

/-- C1 (witness): two 2 x 1 frames, amplification 2. -/
theorem calculateDifference_image_witness :
    qRed ((calculateDifference exampleAlloc exampleLoadFrame exampleLoadFrame (exampleHandler ⟨2, 1⟩ (qRgb 9 0 0))
        (exampleHandler ⟨2, 1⟩ (qRgb 4 0 0)) 0 [] 2 false).pixmap.toImage.pixel 1 0)
      = specChannel 2 false
          (qRed (getPixelVal
            (loadedSelf exampleLoadFrame (exampleHandler ⟨2, 1⟩ (qRgb 9 0 0)) 0) 1 0).1 -
           qRed (getPixelVal
            (loadedItem2 exampleLoadFrame (exampleHandler ⟨2, 1⟩ (qRgb 4 0 0)) 0) 1 0).1) :=
  ((calculateDifference_image exampleAlloc exampleLoadFrame exampleLoadFrame (exampleHandler ⟨2, 1⟩ (qRgb 9 0 0))
      (exampleHandler ⟨2, 1⟩ (qRgb 4 0 0)) 0 [] 2 false (by decide) (by decide) (by decide)
      (by decide)).2.2 1 0 (by decide) (by decide) (by decide) (by decide)).1

/-- C1 (counterexample): with amplification 8421504 and a red difference of 255 the sum
`128 + 255 * 8421504` is 2^31, which a 32-bit `int` does not hold; the code stores red 0 where
the claim asks for `max(0, min(255, 2^31)) = 255`. For two frames of 0 x 144 pixels Qt makes
the null image, of height 0 where the claim asks for `min(144, 144) = 144`; and when Qt cannot
allocate the image of two 1 x 1 frames, the image returned has width 0 where the claim asks
for 1. -/
theorem calculateDifference_image_overflow :
    (qRed ((calculateDifference exampleAlloc exampleLoadFrame exampleLoadFrame (exampleHandler ⟨1, 1⟩ (qRgb 255 0 0))
        (exampleHandler ⟨1, 1⟩ (qRgb 0 0 0)) 0 [] 8421504 false).pixmap.toImage.pixel 0 0) = 0
      ∧ specChannel 8421504 false
        (qRed (getPixelVal
          (loadedSelf exampleLoadFrame (exampleHandler ⟨1, 1⟩ (qRgb 255 0 0)) 0) 0 0).1 -
         qRed (getPixelVal
          (loadedItem2 exampleLoadFrame (exampleHandler ⟨1, 1⟩ (qRgb 0 0 0)) 0) 0 0).1)
        = 255)
    ∧ ((calculateDifference exampleAlloc exampleLoadFrame exampleLoadFrame
          (exampleHandler ⟨0, 144⟩ (qRgb 1 2 3)) (exampleHandler ⟨0, 144⟩ (qRgb 1 2 3))
          0 [] 1 false).pixmap.toImage.height = 0
      ∧ min (loadedSelf exampleLoadFrame (exampleHandler ⟨0, 144⟩ (qRgb 1 2 3)) 0).frameSize.height
          (loadedItem2 exampleLoadFrame (exampleHandler ⟨0, 144⟩ (qRgb 1 2 3)) 0).frameSize.height
        = 144)
    ∧ ((calculateDifference (fun _ _ => none) exampleLoadFrame exampleLoadFrame
          (exampleHandler ⟨1, 1⟩ (qRgb 1 2 3)) (exampleHandler ⟨1, 1⟩ (qRgb 1 2 3))
          0 [] 1 false).pixmap.toImage.width = 0
      ∧ min (loadedSelf exampleLoadFrame (exampleHandler ⟨1, 1⟩ (qRgb 1 2 3)) 0).frameSize.width
          (loadedItem2 exampleLoadFrame (exampleHandler ⟨1, 1⟩ (qRgb 1 2 3)) 0).frameSize.width
        = 1) := by
  refine ⟨by decide, by decide, by decide⟩

/-- C2 (witness): two 2 x 1 frames. -/
theorem calculateDifference_statistics_witness :
    (calculateDifference exampleAlloc exampleLoadFrame exampleLoadFrame (exampleHandler ⟨2, 1⟩ (qRgb 9 0 0))
        (exampleHandler ⟨2, 1⟩ (qRgb 4 0 0)) 0 [] 3 true).differenceInfoList =
      [] ++ ⟨"Difference Type", InfoText.str "RGB"⟩ ::
        specStatistics (loadedSelf exampleLoadFrame (exampleHandler ⟨2, 1⟩ (qRgb 9 0 0)) 0)
          (loadedItem2 exampleLoadFrame (exampleHandler ⟨2, 1⟩ (qRgb 4 0 0)) 0)
          (min (loadedSelf exampleLoadFrame (exampleHandler ⟨2, 1⟩ (qRgb 9 0 0)) 0).frameSize.width
            (loadedItem2 exampleLoadFrame (exampleHandler ⟨2, 1⟩ (qRgb 4 0 0)) 0).frameSize.width)
          (min (loadedSelf exampleLoadFrame (exampleHandler ⟨2, 1⟩ (qRgb 9 0 0)) 0).frameSize.height
            (loadedItem2 exampleLoadFrame (exampleHandler ⟨2, 1⟩ (qRgb 4 0 0)) 0).frameSize.height) :=
  calculateDifference_statistics exampleAlloc exampleLoadFrame exampleLoadFrame (exampleHandler ⟨2, 1⟩ (qRgb 9 0 0))
    (exampleHandler ⟨2, 1⟩ (qRgb 4 0 0)) 0 [] 3 true (by decide) (by decide) (by decide)

/-- C2 (counterexample): for two equal frames of 65536 x 65536 pixels the `int` product
`width * height` is 0, so every statistic is 0/0 = NaN, while the sums of squares divided by
`65536 * 65536` are numbers. -/
theorem calculateDifference_statistics_overflow :
    (loadedSelf exampleLoadFrame (exampleHandler ⟨65536, 65536⟩ (qRgb 7 7 7)) 0).frameSize
      = ⟨65536, 65536⟩ ∧
    (loadedItem2 exampleLoadFrame (exampleHandler ⟨65536, 65536⟩ (qRgb 7 7 7)) 0).frameSize
      = ⟨65536, 65536⟩ ∧
    (calculateDifference exampleAlloc exampleLoadFrame exampleLoadFrame (exampleHandler ⟨65536, 65536⟩ (qRgb 7 7 7))
        (exampleHandler ⟨65536, 65536⟩ (qRgb 7 7 7)) 0 [] 1 false).differenceInfoList =
      ⟨"Difference Type", InfoText.str "RGB"⟩ :: nanStatistics ∧
    (calculateDifference exampleAlloc exampleLoadFrame exampleLoadFrame (exampleHandler ⟨65536, 65536⟩ (qRgb 7 7 7))
        (exampleHandler ⟨65536, 65536⟩ (qRgb 7 7 7)) 0 [] 1 false).differenceInfoList ≠
      ⟨"Difference Type", InfoText.str "RGB"⟩ ::
        specStatistics (loadedSelf exampleLoadFrame (exampleHandler ⟨65536, 65536⟩ (qRgb 7 7 7)) 0)
          (loadedItem2 exampleLoadFrame (exampleHandler ⟨65536, 65536⟩ (qRgb 7 7 7)) 0)
          65536 65536 := by
  have hlist : (calculateDifference exampleAlloc exampleLoadFrame exampleLoadFrame (exampleHandler ⟨65536, 65536⟩ (qRgb 7 7 7))
        (exampleHandler ⟨65536, 65536⟩ (qRgb 7 7 7)) 0 [] 1 false).differenceInfoList =
      ⟨"Difference Type", InfoText.str "RGB"⟩ :: nanStatistics := by
    rw [calculateDifference_info]
    dsimp only
    have hsame : ∀ channel : QRgb → Int,
        sumSquares channel
          (loadedSelf exampleLoadFrame (exampleHandler ⟨65536, 65536⟩ (qRgb 7 7 7)) 0)
          (loadedItem2 exampleLoadFrame (exampleHandler ⟨65536, 65536⟩ (qRgb 7 7 7)) 0)
          (min (loadedSelf exampleLoadFrame
              (exampleHandler ⟨65536, 65536⟩ (qRgb 7 7 7)) 0).frameSize.width
            (loadedItem2 exampleLoadFrame
              (exampleHandler ⟨65536, 65536⟩ (qRgb 7 7 7)) 0).frameSize.width)
          (min (loadedSelf exampleLoadFrame
              (exampleHandler ⟨65536, 65536⟩ (qRgb 7 7 7)) 0).frameSize.height
            (loadedItem2 exampleLoadFrame
              (exampleHandler ⟨65536, 65536⟩ (qRgb 7 7 7)) 0).frameSize.height) = 0 :=
      fun channel => sumSquares_eq_zero_of_same channel _ _ _ _ (fun x y _ _ _ _ => rfl)
    have harea : wrap32
        (min (loadedSelf exampleLoadFrame
              (exampleHandler ⟨65536, 65536⟩ (qRgb 7 7 7)) 0).frameSize.width
            (loadedItem2 exampleLoadFrame
              (exampleHandler ⟨65536, 65536⟩ (qRgb 7 7 7)) 0).frameSize.width *
          min (loadedSelf exampleLoadFrame
              (exampleHandler ⟨65536, 65536⟩ (qRgb 7 7 7)) 0).frameSize.height
            (loadedItem2 exampleLoadFrame
              (exampleHandler ⟨65536, 65536⟩ (qRgb 7 7 7)) 0).frameSize.height) = 0 := by
      decide
    rw [hsame, hsame, hsame, harea, wrap64_zero, Double.div_zero_zero]
    rfl
  refine ⟨rfl, rfl, hlist, ?_⟩
  rw [hlist]
  simp [nanStatistics, specStatistics]

/-- C3 (amended): when the overlap rectangle of the two handlers has width 0 or height 0,
`calculateDifference` reports no error: it returns an image without any pixel and still appends
"Difference Type" and the four statistics, each of them 0/0 = NaN. -/
theorem calculateDifference_emptyOverlap (alloc : QImageAlloc) (loadFrame loadFrame2 : LoadFrame) (self item2 : videoHandler)
    (frame : Int) (l : List infoItem) (amp : Int) (mark : Bool)
    (hzero : min (loadedSelf loadFrame self frame).frameSize.width
        (loadedItem2 loadFrame2 item2 frame).frameSize.width = 0 ∨
      min (loadedSelf loadFrame self frame).frameSize.height
        (loadedItem2 loadFrame2 item2 frame).frameSize.height = 0) :
    (calculateDifference alloc loadFrame loadFrame2 self item2 frame l amp mark).differenceInfoList =
      l ++ ⟨"Difference Type", InfoText.str "RGB"⟩ :: nanStatistics ∧
    ∀ x y : Int,
      (calculateDifference alloc loadFrame loadFrame2 self item2 frame l amp mark).pixmap.toImage.valid x y
        = false := by
  constructor
  · rw [calculateDifference_info]
    dsimp only
    generalize loadedSelf loadFrame self frame = a at hzero ⊢
    generalize loadedItem2 loadFrame2 item2 frame = b at hzero ⊢
    generalize min a.frameSize.width b.frameSize.width = W at hzero ⊢
    generalize min a.frameSize.height b.frameSize.height = H at hzero ⊢
    have hnil : W ≤ 0 ∨ H ≤ 0 := by omega
    have harea : wrap32 (W * H) = 0 := by
      have : W * H = 0 := by rcases hzero with h | h <;> simp [h]
      rw [this]; rfl
    rw [sumSquares_eq_zero_of_nil qRed a b W H hnil, sumSquares_eq_zero_of_nil qGreen a b W H hnil,
      sumSquares_eq_zero_of_nil qBlue a b W H hnil, harea, wrap64_zero, Double.div_zero_zero]
    rfl
  · intro x y
    rw [calculateDifference_unfold]
    dsimp only
    generalize loadedSelf loadFrame self frame = a at hzero ⊢
    generalize loadedItem2 loadFrame2 item2 frame = b at hzero ⊢
    generalize min a.frameSize.width b.frameSize.width = W at hzero ⊢
    generalize min a.frameSize.height b.frameSize.height = H at hzero ⊢
    obtain ⟨-, -, hw1, hh1, -, -, -, -⟩ :=
      calculateDifference_foldl_spec amp mark a b (QImage.create alloc W H) (overlapPixels W H)
    have hcw : (QImage.create alloc W H).width ≤ 0 ∨ (QImage.create alloc W H).height ≤ 0 := by
      rw [QImage.create_of_nonpos alloc (show W ≤ 0 ∨ H ≤ 0 by omega)]
      left; exact le_refl 0
    unfold QImage.valid QPixmap.toImage QPixmap.fromImage
    simp only [hw1, hh1, decide_eq_false_iff_not]
    omega

/-- C3 (witness): a 176 x 144 frame compared with a handler of frame size 0 x 0. -/
theorem calculateDifference_emptyOverlap_witness :
    (calculateDifference exampleAlloc exampleLoadFrame exampleLoadFrame (exampleHandler ⟨176, 144⟩ (qRgb 1 2 3))
        (exampleHandler ⟨0, 0⟩ (qRgb 1 2 3)) 4 [] 1 false).differenceInfoList =
      [] ++ ⟨"Difference Type", InfoText.str "RGB"⟩ :: nanStatistics :=
  (calculateDifference_emptyOverlap exampleAlloc exampleLoadFrame exampleLoadFrame (exampleHandler ⟨176, 144⟩ (qRgb 1 2 3))
    (exampleHandler ⟨0, 0⟩ (qRgb 1 2 3)) 4 [] 1 false (by decide)).1

/-- C3 (counterexample): for an overlap of 0 x 144 the call returns normally with the four
statistics appended, each the quotient 0/0. -/
theorem calculateDifference_emptyOverlap_noError :
    min (loadedSelf exampleLoadFrame (exampleHandler ⟨0, 144⟩ (qRgb 1 2 3)) 0).frameSize.width
      (loadedItem2 exampleLoadFrame (exampleHandler ⟨176, 144⟩ (qRgb 3 2 1)) 0).frameSize.width
      = 0 ∧
    (calculateDifference exampleAlloc exampleLoadFrame exampleLoadFrame (exampleHandler ⟨0, 144⟩ (qRgb 1 2 3))
        (exampleHandler ⟨176, 144⟩ (qRgb 3 2 1)) 0 [] 1 false).differenceInfoList =
      [⟨"Difference Type", InfoText.str "RGB"⟩,
       ⟨"MSE R", InfoText.num (Double.div (Double.ofInt 0) (Double.ofInt 0))⟩,
       ⟨"MSE G", InfoText.num (Double.div (Double.ofInt 0) (Double.ofInt 0))⟩,
       ⟨"MSE B", InfoText.num (Double.div (Double.ofInt 0) (Double.ofInt 0))⟩,
       ⟨"MSE All", InfoText.num Double.nan⟩] := by
  decide

/-- The list `getPixelValuesDifference` returns, by the position of the point. -/
theorem getPixelValuesDifference_eq (self item2 : videoHandler) (pixelPos : QPoint) :
    getPixelValuesDifference self pixelPos item2 =
      if (0 ≤ pixelPos.x ∧ pixelPos.x < min self.frameSize.width item2.frameSize.width) ∧
         (0 ≤ pixelPos.y ∧ pixelPos.y < min self.frameSize.height item2.frameSize.height) then
        [⟨"R", qRed (getPixelValAt self pixelPos).1 - qRed (getPixelValAt item2 pixelPos).1⟩,
         ⟨"G", qGreen (getPixelValAt self pixelPos).1 - qGreen (getPixelValAt item2 pixelPos).1⟩,
         ⟨"B", qBlue (getPixelValAt self pixelPos).1 - qBlue (getPixelValAt item2 pixelPos).1⟩]
      else [] := by
  unfold getPixelValuesDifference
  by_cases hin : (0 ≤ pixelPos.x ∧ pixelPos.x < min self.frameSize.width item2.frameSize.width) ∧
      (0 ≤ pixelPos.y ∧ pixelPos.y < min self.frameSize.height item2.frameSize.height)
  · have hguard : ¬ (pixelPos.x < 0 ∨
        pixelPos.x ≥ min self.frameSize.width item2.frameSize.width ∨ pixelPos.y < 0 ∨
        pixelPos.y ≥ min self.frameSize.height item2.frameSize.height) := by omega
    rw [if_neg hguard, if_pos hin]
  · have hguard : pixelPos.x < 0 ∨
        pixelPos.x ≥ min self.frameSize.width item2.frameSize.width ∨ pixelPos.y < 0 ∨
        pixelPos.y ≥ min self.frameSize.height item2.frameSize.height := by omega
    rw [if_pos hguard, if_neg hin]

/-- C4: `getPixelValuesDifference` returns the empty list exactly when the point lies outside
`[0, min(w1,w2)) × [0, min(h1,h2))`, and for a point inside it returns the three entries
"R", "G", "B", in this order, holding the signed differences of the channels the two handlers
read at that point. -/
theorem getPixelValuesDifference_spec (self item2 : videoHandler) (pixelPos : QPoint) :
    (getPixelValuesDifference self pixelPos item2 = [] ↔
      ¬ ((0 ≤ pixelPos.x ∧ pixelPos.x < min self.frameSize.width item2.frameSize.width) ∧
         (0 ≤ pixelPos.y ∧ pixelPos.y < min self.frameSize.height item2.frameSize.height))) ∧
    getPixelValuesDifference self pixelPos item2 =
      if (0 ≤ pixelPos.x ∧ pixelPos.x < min self.frameSize.width item2.frameSize.width) ∧
         (0 ≤ pixelPos.y ∧ pixelPos.y < min self.frameSize.height item2.frameSize.height) then
        [⟨"R", qRed (getPixelValAt self pixelPos).1 - qRed (getPixelValAt item2 pixelPos).1⟩,
         ⟨"G", qGreen (getPixelValAt self pixelPos).1 - qGreen (getPixelValAt item2 pixelPos).1⟩,
         ⟨"B", qBlue (getPixelValAt self pixelPos).1 - qBlue (getPixelValAt item2 pixelPos).1⟩]
      else [] := by
  refine ⟨?_, getPixelValuesDifference_eq self item2 pixelPos⟩
  rw [getPixelValuesDifference_eq]
  by_cases hin : (0 ≤ pixelPos.x ∧ pixelPos.x < min self.frameSize.width item2.frameSize.width) ∧
      (0 ≤ pixelPos.y ∧ pixelPos.y < min self.frameSize.height item2.frameSize.height)
  · rw [if_pos hin]
    exact ⟨fun h => absurd h (List.cons_ne_nil _ _), fun h => absurd hin h⟩
  · rw [if_neg hin]
    exact ⟨fun _ => hin, fun _ => rfl⟩

/-- C5: at a point inside the overlap rectangle the three values of
`getPixelValuesDifference` of A with B are the negated values of B with A, under the same
names; at a point outside it both calls return the empty list. -/
theorem getPixelValuesDifference_antisymm (a b : videoHandler) (pixelPos : QPoint) :
    if (0 ≤ pixelPos.x ∧ pixelPos.x < min a.frameSize.width b.frameSize.width) ∧
       (0 ≤ pixelPos.y ∧ pixelPos.y < min a.frameSize.height b.frameSize.height) then
      (getPixelValuesDifference a pixelPos b).length = 3 ∧
      (getPixelValuesDifference b pixelPos a).length = 3 ∧
      (getPixelValuesDifference a pixelPos b).map (fun v => v.value) =
        (getPixelValuesDifference b pixelPos a).map (fun v => - v.value) ∧
      (getPixelValuesDifference a pixelPos b).map (fun v => v.name) =
        (getPixelValuesDifference b pixelPos a).map (fun v => v.name)
    else
      getPixelValuesDifference a pixelPos b = [] ∧ getPixelValuesDifference b pixelPos a = [] := by
  have hab := getPixelValuesDifference_eq a b pixelPos
  have hba := getPixelValuesDifference_eq b a pixelPos
  rw [min_comm b.frameSize.width, min_comm b.frameSize.height] at hba
  by_cases hin : (0 ≤ pixelPos.x ∧ pixelPos.x < min a.frameSize.width b.frameSize.width) ∧
      (0 ≤ pixelPos.y ∧ pixelPos.y < min a.frameSize.height b.frameSize.height)
  · rw [if_pos hin] at hab hba ⊢
    rw [hab, hba]
    simp
  · rw [if_neg hin] at hab hba ⊢
    exact ⟨hab, hba⟩

/-- C10 (amended): when the two handlers have the same frame size and read the same pixels,
amplification 1 without marking gives an image whose every pixel is (128,128,128); the four
statistics are all 0 provided the `int` product `width * height` is not 0, and all NaN when it
is 0 (an empty frame). -/
theorem calculateDifference_identical (alloc : QImageAlloc) (loadFrame loadFrame2 : LoadFrame) (self item2 : videoHandler)
    (frame : Int) (l : List infoItem)
    (hsize : (loadedSelf loadFrame self frame).frameSize =
      (loadedItem2 loadFrame2 item2 frame).frameSize)
    (hsame : ∀ x y : Int, (getPixelVal (loadedSelf loadFrame self frame) x y).1 =
      (getPixelVal (loadedItem2 loadFrame2 item2 frame) x y).1) :
    (∀ x y : Int,
      (calculateDifference alloc loadFrame loadFrame2 self item2 frame l 1 false).pixmap.toImage.valid x y = true →
      qRed ((calculateDifference alloc loadFrame loadFrame2 self item2 frame l 1 false).pixmap.toImage.pixel x y)
        = 128 ∧
      qGreen ((calculateDifference alloc loadFrame loadFrame2 self item2 frame l 1 false).pixmap.toImage.pixel x y)
        = 128 ∧
      qBlue ((calculateDifference alloc loadFrame loadFrame2 self item2 frame l 1 false).pixmap.toImage.pixel x y)
        = 128) ∧
    (wrap32 ((loadedSelf loadFrame self frame).frameSize.width *
        (loadedSelf loadFrame self frame).frameSize.height) ≠ 0 →
      (calculateDifference alloc loadFrame loadFrame2 self item2 frame l 1 false).differenceInfoList =
        l ++ ⟨"Difference Type", InfoText.str "RGB"⟩ :: zeroStatistics) ∧
    (wrap32 ((loadedSelf loadFrame self frame).frameSize.width *
        (loadedSelf loadFrame self frame).frameSize.height) = 0 →
      (calculateDifference alloc loadFrame loadFrame2 self item2 frame l 1 false).differenceInfoList =
        l ++ ⟨"Difference Type", InfoText.str "RGB"⟩ :: nanStatistics) := by
  have hinfo := calculateDifference_info alloc loadFrame loadFrame2 self item2 frame l 1 false
  have hunf := calculateDifference_unfold alloc loadFrame loadFrame2 self item2 frame l 1 false
  dsimp only at hinfo hunf
  generalize calculateDifference alloc loadFrame loadFrame2 self item2 frame l 1 false = res at hinfo hunf ⊢
  generalize loadedSelf loadFrame self frame = a at hsize hsame hinfo hunf ⊢
  generalize loadedItem2 loadFrame2 item2 frame = b at hsize hsame hinfo hunf ⊢
  rw [← hsize, min_self, min_self] at hinfo hunf
  have hsum : ∀ channel : QRgb → Int,
      sumSquares channel a b a.frameSize.width a.frameSize.height = 0 :=
    fun channel => sumSquares_eq_zero_of_same channel a b _ _ (fun x y _ _ _ _ => hsame x y)
  rw [hsum, hsum, hsum, wrap64_zero] at hinfo
  refine ⟨?_, ?_, ?_⟩
  · intro x y hvalid
    obtain ⟨-, -, hw1, hh1, hdata, -, -, -⟩ :=
      calculateDifference_foldl_spec 1 false a b
        (QImage.create alloc a.frameSize.width a.frameSize.height)
        (overlapPixels a.frameSize.width a.frameSize.height)
    rw [hunf] at hvalid ⊢
    simp only [QPixmap.toImage, QPixmap.fromImage] at hvalid ⊢
    have hv0 : (QImage.create alloc a.frameSize.width a.frameSize.height).valid x y = true := by
      unfold QImage.valid at hvalid ⊢
      rw [hw1, hh1] at hvalid
      exact hvalid
    have hdims : (0 ≤ x ∧ x < a.frameSize.width) ∧ (0 ≤ y ∧ y < a.frameSize.height) := by
      have h := QImage.create_valid hv0
      exact ⟨⟨h.1, h.2.1⟩, ⟨h.2.2.1, h.2.2.2⟩⟩
    have hpix : QImage.pixel ((overlapPixels a.frameSize.width a.frameSize.height).foldl
        (fun st p => calculateDifference_body 1 false p.2 st p.1)
        ⟨a, b, QImage.create alloc a.frameSize.width a.frameSize.height, 0, 0, 0⟩).diffImg x y =
        diffValue 1 false (getPixelVal a x y).1 (getPixelVal b x y).1 := by
      unfold QImage.pixel
      rw [if_pos hvalid, hdata, if_pos ⟨(mem_overlapPixels _ _ x y).2 hdims, hv0⟩]
    rw [hpix, hsame]
    have hch := diffValue_channels 1 false (getPixelVal b x y).1 (getPixelVal b x y).1
      (fun _ => by omega)
    simp only [sub_self] at hch
    exact hch
  · intro harea
    rw [hinfo, Double.zero_div_ofInt harea]
    simp only [Double.add, add_zero, zeroStatistics]
  · intro harea
    rw [hinfo, harea, Double.div_zero_zero]
    rfl

/-- C10 (witness): a 2 x 2 frame against a handler showing the same frame. -/
theorem calculateDifference_identical_witness :
    (calculateDifference exampleAlloc exampleLoadFrame exampleLoadFrame (exampleHandler ⟨2, 2⟩ (qRgb 10 20 30))
        (exampleHandler ⟨2, 2⟩ (qRgb 10 20 30)) 0 [] 1 false).differenceInfoList =
      [] ++ ⟨"Difference Type", InfoText.str "RGB"⟩ :: zeroStatistics :=
  (calculateDifference_identical exampleAlloc exampleLoadFrame exampleLoadFrame (exampleHandler ⟨2, 2⟩ (qRgb 10 20 30))
    (exampleHandler ⟨2, 2⟩ (qRgb 10 20 30)) 0 [] rfl (fun _ _ => rfl)).2.1 (by decide)

/-- C10 (counterexample): a frame of size 0 x 0 against itself: the four statistics are NaN,
not 0. -/
theorem calculateDifference_identical_empty :
    (calculateDifference exampleAlloc exampleLoadFrame exampleLoadFrame (exampleHandler ⟨0, 0⟩ (qRgb 10 20 30))
        (exampleHandler ⟨0, 0⟩ (qRgb 10 20 30)) 0 [] 1 false).differenceInfoList =
      ⟨"Difference Type", InfoText.str "RGB"⟩ :: nanStatistics ∧
    (calculateDifference exampleAlloc exampleLoadFrame exampleLoadFrame (exampleHandler ⟨0, 0⟩ (qRgb 10 20 30))
        (exampleHandler ⟨0, 0⟩ (qRgb 10 20 30)) 0 [] 1 false).differenceInfoList ≠
      ⟨"Difference Type", InfoText.str "RGB"⟩ :: zeroStatistics := by
  decide

/-! Section: The frame cache -/

theorem QMap.contains_insert {V : Type} (m : QMap V) (key : Int) (value : V) :
    (m.insert key value).contains key = true := by
  simp [QMap.contains, QMap.insert]

theorem QMap.lookup_insert {V : Type} (m : QMap V) (key : Int) (value : V) :
    (m.insert key value).lookup key = some value := by
  simp [QMap.lookup, QMap.insert]

theorem QMap.lookup_isSome_of_contains {V : Type} (m : QMap V) (key : Int)
    (h : m.contains key = true) : (m.lookup key).isSome = true := by
  unfold QMap.contains at h
  unfold QMap.lookup
  rw [Option.isSome_map', List.find?_isSome]
  rw [List.any_eq_true] at h
  exact h

theorem QMap.keys_insert_nodup {V : Type} (m : QMap V) (key : Int) (value : V)
    (h : m.keys.Nodup) : (m.insert key value).keys.Nodup := by
  unfold QMap.keys QMap.insert at *
  rw [List.map_cons, List.nodup_cons]
  constructor
  · simp only [List.mem_map, List.mem_filter, Bool.not_eq_true', beq_eq_false_iff_ne, ne_eq,
      not_exists, not_and]
    intro e he hk
    exact absurd hk he.2
  · exact (List.Nodup.sublist (List.Sublist.map _ (List.filter_sublist _)) h)

/-- C6: after `cacheFrame(i)` a lookup of `i` hits; when `i` was not cached it returns the
pixmap the decoder wrote for `i`, and when `i` was cached the call changes nothing at all (no
decoder call is added to the trace; cache, timer and every other member are the same); the keys
of the cache stay free of duplicates. -/
theorem cacheFrame_spec (loadFrameForCaching : LoadFrameForCaching) (s : videoHandler)
    (frameIdx : Int) :
    (cacheFrame loadFrameForCaching s frameIdx).pixmapCache.contains frameIdx = true ∧
    ((cacheFrame loadFrameForCaching s frameIdx).pixmapCache.lookup frameIdx).isSome = true ∧
    (s.pixmapCache.contains frameIdx = false →
      (cacheFrame loadFrameForCaching s frameIdx).pixmapCache.lookup frameIdx =
        some (loadFrameForCaching s frameIdx)) ∧
    (s.pixmapCache.contains frameIdx = true →
      cacheFrame loadFrameForCaching s frameIdx = s) ∧
    (s.pixmapCache.keys.Nodup →
      (cacheFrame loadFrameForCaching s frameIdx).pixmapCache.keys.Nodup) := by
  have hcache : s.pixmapCache.contains frameIdx = false →
      (cacheFrame loadFrameForCaching s frameIdx).pixmapCache =
        s.pixmapCache.insert frameIdx (loadFrameForCaching s frameIdx) := by
    intro h
    unfold cacheFrame
    simp only [h, Bool.false_eq_true, if_false]
    split <;> rfl
  have hhit : s.pixmapCache.contains frameIdx = true →
      cacheFrame loadFrameForCaching s frameIdx = s := by
    intro h
    unfold cacheFrame
    simp only [h, if_true]
  have hcontains : (cacheFrame loadFrameForCaching s frameIdx).pixmapCache.contains frameIdx
      = true := by
    cases h : s.pixmapCache.contains frameIdx with
    | true => rw [hhit h]; exact h
    | false => rw [hcache h]; exact QMap.contains_insert _ _ _
  refine ⟨hcontains, QMap.lookup_isSome_of_contains _ _ hcontains, ?_, hhit, ?_⟩
  · intro h
    rw [hcache h]
    exact QMap.lookup_insert _ _ _
  · intro hnodup
    cases h : s.pixmapCache.contains frameIdx with
    | true => rw [hhit h]; exact hnodup
    | false => rw [hcache h]; exact QMap.keys_insert_nodup _ _ _ hnodup

/-- C6 (witness): frame 5 cached into the initial handler, then asked for again. -/
theorem cacheFrame_spec_witness :
    (cacheFrame exampleLoadFrameForCaching videoHandler.init 5).pixmapCache.lookup 5 =
      some (exampleLoadFrameForCaching videoHandler.init 5) ∧
    cacheFrame exampleLoadFrameForCaching
        (cacheFrame exampleLoadFrameForCaching videoHandler.init 5) 5 =
      cacheFrame exampleLoadFrameForCaching videoHandler.init 5 ∧
    (cacheFrame exampleLoadFrameForCaching videoHandler.init 5).pixmapCache.keys.Nodup :=
  ⟨(cacheFrame_spec exampleLoadFrameForCaching videoHandler.init 5).2.2.1 (by decide),
   (cacheFrame_spec exampleLoadFrameForCaching
      (cacheFrame exampleLoadFrameForCaching videoHandler.init 5) 5).2.2.2.1 (by decide),
   (cacheFrame_spec exampleLoadFrameForCaching videoHandler.init 5).2.2.2.2 (by decide)⟩

/-! Section: Frame size and controls -/

theorem QSpinBox.bound_bound (box : QSpinBox) (v : Int) :
    box.bound (box.bound v) = box.bound v := by
  unfold QSpinBox.bound; omega

theorem sameSpinBoxes_refl (s : videoHandler) : sameSpinBoxes s s :=
  ⟨rfl, rfl, rfl, rfl, rfl, rfl, rfl⟩

theorem spinBoxesInRange_of_same {s t : videoHandler} (h : sameSpinBoxes s t)
    (hs : spinBoxesInRange s) : spinBoxesInRange t := by
  unfold sameSpinBoxes at h
  unfold spinBoxesInRange QSpinBox.bound at *
  obtain ⟨a1, a2, a3, a4, a5, a6, -⟩ := h
  rw [a1, a2, a3, a4, a5, a6]
  exact hs

theorem widthSpinBox_setValue_quiet (deliver : Sender → videoHandler → Option videoHandler)
    (v : Int) (s : videoHandler) (h : s.ui.widthSpinBox.bound v = s.ui.widthSpinBox.value) :
    widthSpinBox_setValue deliver v s = some s := by
  unfold widthSpinBox_setValue
  simp only [h, if_true]

theorem heightSpinBox_setValue_quiet (deliver : Sender → videoHandler → Option videoHandler)
    (v : Int) (s : videoHandler) (h : s.ui.heightSpinBox.bound v = s.ui.heightSpinBox.value) :
    heightSpinBox_setValue deliver v s = some s := by
  unfold heightSpinBox_setValue
  simp only [h, if_true]

/-- `setFrameSize` when both spin boxes already show the new size: no signal is delivered. -/
theorem setFrameSize_quiet (d : Bool) (fuel : Nat) (n : QSize) (e : Bool) (s : videoHandler)
    (hw : s.ui.widthSpinBox.bound n.width = s.ui.widthSpinBox.value)
    (hh : s.ui.heightSpinBox.bound n.height = s.ui.heightSpinBox.value) :
    ∃ t, setFrameSize d (fuel + 1) n e s = some t ∧ sameSpinBoxes s t := by
  rw [setFrameSize]
  by_cases h1 : n = s.frameSize
  · rw [if_pos h1]
    exact ⟨s, rfl, sameSpinBoxes_refl s⟩
  · rw [if_neg h1]
    dsimp only
    by_cases h2 : s.controlsCreated = true
    · rw [if_neg (by simp [h2])]
      cases e
      · rw [if_pos (by simp)]
        rw [widthSpinBox_setValue_quiet]
        · dsimp only
          rw [heightSpinBox_setValue_quiet]
          · exact ⟨_, rfl, rfl, rfl, rfl, rfl, rfl, rfl, rfl⟩
          · exact hh
        · exact hw
      · rw [if_neg (by simp)]
        rw [widthSpinBox_setValue_quiet]
        · dsimp only
          rw [heightSpinBox_setValue_quiet]
          · exact ⟨_, rfl, rfl, rfl, rfl, rfl, rfl, rfl, rfl⟩
          · exact hh
        · exact hw
    · rw [if_pos (by simp [h2])]
      exact ⟨_, rfl, rfl, rfl, rfl, rfl, rfl, rfl, rfl⟩

theorem widthSpinBox_setValue_total (deliver : Sender → videoHandler → Option videoHandler)
    (v : Int) (s : videoHandler)
    (hdel : ∀ u, spinBoxesInRange u →
      ∃ t, deliver Sender.widthSpinBox u = some t ∧ spinBoxesInRange t)
    (hs : spinBoxesInRange s) :
    ∃ t, widthSpinBox_setValue deliver v s = some t ∧ spinBoxesInRange t := by
  unfold widthSpinBox_setValue
  dsimp only
  by_cases h1 : s.ui.widthSpinBox.bound v = s.ui.widthSpinBox.value
  · rw [if_pos h1]
    exact ⟨s, rfl, hs⟩
  · rw [if_neg h1]
    have hu : spinBoxesInRange
        { s with ui := { s.ui with
            widthSpinBox := { s.ui.widthSpinBox with value := s.ui.widthSpinBox.bound v } } } :=
      ⟨QSpinBox.bound_bound s.ui.widthSpinBox v, hs.2⟩
    by_cases h2 : s.ui.widthSpinBox.connected = true
    · rw [if_pos h2]
      exact hdel _ hu
    · rw [if_neg h2]
      exact ⟨_, rfl, hu⟩

theorem heightSpinBox_setValue_total (deliver : Sender → videoHandler → Option videoHandler)
    (v : Int) (s : videoHandler)
    (hdel : ∀ u, spinBoxesInRange u →
      ∃ t, deliver Sender.heightSpinBox u = some t ∧ spinBoxesInRange t)
    (hs : spinBoxesInRange s) :
    ∃ t, heightSpinBox_setValue deliver v s = some t ∧ spinBoxesInRange t := by
  unfold heightSpinBox_setValue
  dsimp only
  by_cases h1 : s.ui.heightSpinBox.bound v = s.ui.heightSpinBox.value
  · rw [if_pos h1]
    exact ⟨s, rfl, hs⟩
  · rw [if_neg h1]
    have hu : spinBoxesInRange
        { s with ui := { s.ui with
            heightSpinBox := { s.ui.heightSpinBox with value := s.ui.heightSpinBox.bound v } } } :=
      ⟨hs.1, QSpinBox.bound_bound s.ui.heightSpinBox v⟩
    by_cases h2 : s.ui.heightSpinBox.connected = true
    · rw [if_pos h2]
      exact hdel _ hu
    · rw [if_neg h2]
      exact ⟨_, rfl, hu⟩

/-- The slot run for a spin box whose values are in range needs two levels of delivery. -/
theorem slotVideoControlChanged_spinBox_total (d : Bool) (fuel : Nat) (sender : Sender)
    (s : videoHandler) (hsender : sender = Sender.widthSpinBox ∨ sender = Sender.heightSpinBox)
    (hs : spinBoxesInRange s) :
    ∃ t, slotVideoControlChanged d (fuel + 2) sender s = some t ∧ spinBoxesInRange t := by
  rw [slotVideoControlChanged, if_pos hsender]
  dsimp only
  by_cases hne : (⟨s.ui.widthSpinBox.value, s.ui.heightSpinBox.value⟩ : QSize) ≠ s.frameSize
  · rw [if_pos hne]
    obtain ⟨t, ht, hsame⟩ := setFrameSize_quiet d fuel
      ⟨s.ui.widthSpinBox.value, s.ui.heightSpinBox.value⟩ d
      { s with ui := { s.ui with
          frameSizeComboBox :=
            { s.ui.frameSizeComboBox with
              currentIndex := findSize ⟨s.ui.widthSpinBox.value, s.ui.heightSpinBox.value⟩
              connected := true } } }
      hs.1 hs.2
    rw [ht]
    exact ⟨afterSizeChange t, rfl, spinBoxesInRange_of_same hsame hs⟩
  · rw [if_neg hne]
    exact ⟨s, rfl, hs⟩

/-- `setFrameSize` needs three levels of delivery when the spin boxes are in range. -/
theorem setFrameSize_total (d : Bool) (fuel : Nat) (n : QSize) (e : Bool) (s : videoHandler)
    (hs : spinBoxesInRange s) :
    ∃ t, setFrameSize d (fuel + 3) n e s = some t ∧ spinBoxesInRange t := by
  rw [setFrameSize]
  by_cases h1 : n = s.frameSize
  · rw [if_pos h1]
    exact ⟨s, rfl, hs⟩
  · rw [if_neg h1]
    dsimp only
    by_cases h2 : s.controlsCreated = true
    · rw [if_neg (by simp [h2])]
      have hs2 : spinBoxesInRange
          (if (!e) = true then setSpinBoxesConnected false { s with frameSize := n }
           else { s with frameSize := n }) := by
        cases e <;> exact hs
      obtain ⟨s3, h3, hs3⟩ := widthSpinBox_setValue_total
        (fun sender t => slotVideoControlChanged d (fuel + 2) sender t) n.width _
        (fun u hu => slotVideoControlChanged_spinBox_total d fuel _ u (Or.inl rfl) hu) hs2
      rw [h3]
      dsimp only
      obtain ⟨s4, h4, hs4⟩ := heightSpinBox_setValue_total
        (fun sender t => slotVideoControlChanged d (fuel + 2) sender t) n.height s3
        (fun u hu => slotVideoControlChanged_spinBox_total d fuel _ u (Or.inr rfl) hu) hs3
      rw [h4]
      refine ⟨_, rfl, ?_⟩
      cases e <;> exact hs4
    · rw [if_pos (by simp [h2])]
      exact ⟨_, rfl, hs⟩

/-- What a run of the slot that returns has done: nothing when the controls ask for no new
size, and otherwise the cache is empty and the current frame index is -1. -/
theorem slotVideoControlChanged_effect (d : Bool) (fuel : Nat) (sender : Sender)
    (s t : videoHandler) (h : slotVideoControlChanged d fuel sender s = some t) :
    (requestedSize sender s = none → t = s) ∧
    ((requestedSize sender s).isSome = true → t.pixmapCache = [] ∧ t.currentFrameIdx = -1) := by
  cases fuel with
  | zero => rw [slotVideoControlChanged] at h; exact absurd h (by simp)
  | succ fuel =>
    rw [slotVideoControlChanged] at h
    cases sender with
    | widthSpinBox =>
      simp only [true_or, if_true, requestedSize] at h ⊢
      split at h
      · rename_i hne
        rw [if_pos hne]
        split at h
        · exact absurd h (by simp)
        · simp only [Option.some.injEq] at h
          subst h
          exact ⟨fun h0 => absurd h0 (by simp), fun _ => ⟨rfl, rfl⟩⟩
      · rename_i hne
        rw [if_neg hne]
        simp only [Option.some.injEq] at h
        exact ⟨fun _ => h.symm, fun h0 => absurd h0 (by simp)⟩
    | heightSpinBox =>
      simp only [or_true, if_true, requestedSize] at h ⊢
      split at h
      · rename_i hne
        rw [if_pos hne]
        split at h
        · exact absurd h (by simp)
        · simp only [Option.some.injEq] at h
          subst h
          exact ⟨fun h0 => absurd h0 (by simp), fun _ => ⟨rfl, rfl⟩⟩
      · rename_i hne
        rw [if_neg hne]
        simp only [Option.some.injEq] at h
        exact ⟨fun _ => h.symm, fun h0 => absurd h0 (by simp)⟩
    | frameSizeComboBox =>
      simp only [reduceCtorEq, or_self, if_false, if_true, requestedSize] at h ⊢
      split at h
      · rename_i hne
        rw [if_pos hne]
        split at h
        · exact absurd h (by simp)
        · simp only [Option.some.injEq] at h
          subst h
          exact ⟨fun h0 => absurd h0 (by simp), fun _ => ⟨rfl, rfl⟩⟩
      · rename_i hne
        rw [if_neg hne]
        simp only [Option.some.injEq] at h
        exact ⟨fun _ => h.symm, fun h0 => absurd h0 (by simp)⟩
    | other =>
      simp only [reduceCtorEq, or_self, if_false, Option.some.injEq, requestedSize] at h ⊢
      exact ⟨fun _ => h.symm, fun h0 => absurd h0 (by simp)⟩

/-- The slot needs four levels of delivery when the spin boxes are in range. -/
theorem slotVideoControlChanged_total (d : Bool) (fuel : Nat) (sender : Sender)
    (s : videoHandler) (hs : spinBoxesInRange s) :
    ∃ t, slotVideoControlChanged d (fuel + 4) sender s = some t := by
  rw [slotVideoControlChanged]
  split
  · dsimp only
    split
    · obtain ⟨t, ht, -⟩ := setFrameSize_total d fuel
        ⟨s.ui.widthSpinBox.value, s.ui.heightSpinBox.value⟩ d
        { s with ui := { s.ui with
            frameSizeComboBox :=
              { s.ui.frameSizeComboBox with
                currentIndex := findSize ⟨s.ui.widthSpinBox.value, s.ui.heightSpinBox.value⟩
                connected := true } } }
        hs
      rw [ht]
      exact ⟨_, rfl⟩
    · exact ⟨_, rfl⟩
  · split
    · dsimp only
      split
      · obtain ⟨t, ht, -⟩ := setFrameSize_total d fuel
          (getSize s.ui.frameSizeComboBox.currentIndex) d s hs
        rw [ht]
        exact ⟨_, rfl⟩
      · exact ⟨_, rfl⟩
    · exact ⟨_, rfl⟩

/-- C7 (amended): every change of the frame size made through the width, height or preset
controls (`slotVideoControlChanged` run for a control that asks for a size different from the
current one) returns, empties the frame cache and sets the current frame index to -1, so that a
lookup of any index misses afterwards. -/
theorem slotVideoControlChanged_clears (d : Bool) (fuel : Nat) (sender : Sender)
    (s : videoHandler) (hs : spinBoxesInRange s)
    (hreq : (requestedSize sender s).isSome = true) :
    ∃ t, slotVideoControlChanged d (fuel + 4) sender s = some t ∧
      t.pixmapCache = [] ∧ t.currentFrameIdx = -1 ∧
      ∀ i : Int, t.pixmapCache.contains i = false ∧ t.pixmapCache.lookup i = none := by
  obtain ⟨t, ht⟩ := slotVideoControlChanged_total d fuel sender s hs
  obtain ⟨hc, hi⟩ := (slotVideoControlChanged_effect d (fuel + 4) sender s t ht).2 hreq
  refine ⟨t, ht, hc, hi, ?_⟩
  intro i
  rw [hc]
  exact ⟨rfl, rfl⟩

/-- C7 (witness): the preset 416 x 240 is selected while index 5 is cached and current. -/
theorem slotVideoControlChanged_clears_witness :
    exampleControls.pixmapCache.contains 5 = true ∧
    (slotVideoControlChanged false 4 Sender.frameSizeComboBox exampleControls).map
      (fun t => (t.pixmapCache.contains 5, t.currentFrameIdx)) = some (false, -1) := by
  obtain ⟨t, ht, -, hidx, hmiss⟩ :=
    slotVideoControlChanged_clears false 0 Sender.frameSizeComboBox exampleControls
      (by decide) (by decide)
  refine ⟨by decide, ?_⟩
  rw [ht, Option.map_some', (hmiss 5).1, hidx]

/-- C7 (counterexample): `setFrameSize` changes the frame size from 176 x 144 to 416 x 240
and returns with index 5 still in the cache and still the current frame index. -/
theorem setFrameSize_keeps_cache :
    exampleCached.frameSize = ⟨176, 144⟩ ∧
    exampleCached.pixmapCache.contains 5 = true ∧
    (setFrameSize false 1 ⟨416, 240⟩ false exampleCached).map
      (fun t => (t.frameSize, t.pixmapCache.contains 5, t.currentFrameIdx)) =
      some (⟨416, 240⟩, true, 5) := by
  decide

/-! Section: Drawing -/

/-- When `drawFrame` has its frame and the zoom factor is at least 64, it calls
`drawPixelValues` with the bounds of `drawFrame_pixelRange`. -/
theorem drawFrame_passes_pixelRange (loadFrame : LoadFrame) (painter : QPainter) (frameIdx : Int)
    (zoomFactor : ℚ) (s : videoHandler) (hzoom : 64 ≤ zoomFactor)
    (hload : (drawFrame_load loadFrame frameIdx s).2 = true) :
    drawFrame loadFrame painter frameIdx zoomFactor s =
      ((drawPixelValues
          { painter with ops := painter.ops ++
              [PaintOp.drawPixmap
                (drawFrame_videoRect (drawFrame_load loadFrame frameIdx s).1.frameSize zoomFactor)
                (drawFrame_load loadFrame frameIdx s).1.currentFrame] }
          (toUnsigned (drawFrame_pixelRange (drawFrame_load loadFrame frameIdx s).1.frameSize
            (drawFrame_videoRect (drawFrame_load loadFrame frameIdx s).1.frameSize zoomFactor)
            painter.viewport painter.dx painter.dy zoomFactor).1)
          (toUnsigned (drawFrame_pixelRange (drawFrame_load loadFrame frameIdx s).1.frameSize
            (drawFrame_videoRect (drawFrame_load loadFrame frameIdx s).1.frameSize zoomFactor)
            painter.viewport painter.dx painter.dy zoomFactor).2.1)
          (toUnsigned (drawFrame_pixelRange (drawFrame_load loadFrame frameIdx s).1.frameSize
            (drawFrame_videoRect (drawFrame_load loadFrame frameIdx s).1.frameSize zoomFactor)
            painter.viewport painter.dx painter.dy zoomFactor).2.2.1)
          (toUnsigned (drawFrame_pixelRange (drawFrame_load loadFrame frameIdx s).1.frameSize
            (drawFrame_videoRect (drawFrame_load loadFrame frameIdx s).1.frameSize zoomFactor)
            painter.viewport painter.dx painter.dy zoomFactor).2.2.2)
          zoomFactor (drawFrame_load loadFrame frameIdx s).1 none).self,
       (drawPixelValues
          { painter with ops := painter.ops ++
              [PaintOp.drawPixmap
                (drawFrame_videoRect (drawFrame_load loadFrame frameIdx s).1.frameSize zoomFactor)
                (drawFrame_load loadFrame frameIdx s).1.currentFrame] }
          (toUnsigned (drawFrame_pixelRange (drawFrame_load loadFrame frameIdx s).1.frameSize
            (drawFrame_videoRect (drawFrame_load loadFrame frameIdx s).1.frameSize zoomFactor)
            painter.viewport painter.dx painter.dy zoomFactor).1)
          (toUnsigned (drawFrame_pixelRange (drawFrame_load loadFrame frameIdx s).1.frameSize
            (drawFrame_videoRect (drawFrame_load loadFrame frameIdx s).1.frameSize zoomFactor)
            painter.viewport painter.dx painter.dy zoomFactor).2.1)
          (toUnsigned (drawFrame_pixelRange (drawFrame_load loadFrame frameIdx s).1.frameSize
            (drawFrame_videoRect (drawFrame_load loadFrame frameIdx s).1.frameSize zoomFactor)
            painter.viewport painter.dx painter.dy zoomFactor).2.2.1)
          (toUnsigned (drawFrame_pixelRange (drawFrame_load loadFrame frameIdx s).1.frameSize
            (drawFrame_videoRect (drawFrame_load loadFrame frameIdx s).1.frameSize zoomFactor)
            painter.viewport painter.dx painter.dy zoomFactor).2.2.2)
          zoomFactor (drawFrame_load loadFrame frameIdx s).1 none).painter) := by
  unfold drawFrame
  simp only [hload, Bool.not_true, Bool.false_eq_true, if_false, ge_iff_le, hzoom, if_true]

theorem roundHalfEven_intCast (k : Int) : roundHalfEven (k : ℚ) = k := by
  unfold roundHalfEven
  simp

theorem floor_le_roundHalfEven (q : ℚ) : ⌊q⌋ ≤ roundHalfEven q := by
  unfold roundHalfEven
  dsimp only
  split_ifs <;> omega

theorem roundHalfEven_eq {q : ℚ} {f : Int} (h1 : (f : ℚ) ≤ q) (h2 : q < f + 1) :
    roundHalfEven q =
      if q - f < 1 / 2 then f else if 1 / 2 < q - f then f + 1
      else if f % 2 = 0 then f else f + 1 := by
  have hf : ⌊q⌋ = f := Int.floor_eq_iff.2 ⟨h1, h2⟩
  unfold roundHalfEven
  rw [hf]

theorem log_eq_of_bounds {q : ℚ} {e : Int} (h1 : (2 : ℚ) ^ e ≤ q) (h2 : q < (2 : ℚ) ^ (e + 1)) :
    Int.log 2 q = e := by
  have hq : 0 < q := lt_of_lt_of_le (zpow_pos (by norm_num) e) h1
  have hb : 1 < (2 : ℕ) := by norm_num
  have ha : e ≤ Int.log 2 q := (Int.zpow_le_iff_le_log hb hq).1 (by exact_mod_cast h1)
  have hc : Int.log 2 q < e + 1 := (Int.lt_zpow_iff_log_lt hb hq).1 (by exact_mod_cast h2)
  omega

theorem roundF32Pos_of_bounds {q : ℚ} {e : Int} (h1 : (2 : ℚ) ^ e ≤ q)
    (h2 : q < (2 : ℚ) ^ (e + 1)) :
    roundF32Pos q = roundHalfEven (q / 2 ^ (e - 23)) * 2 ^ (e - 23) := by
  unfold roundF32Pos
  rw [log_eq_of_bounds h1 h2]

/-- A positive integer of at most 24 bits is a `float`. -/
theorem roundF32Pos_natCast {m : Nat} (h0 : 0 < m) (h : m ≤ 2 ^ 24) :
    roundF32Pos (m : ℚ) = m := by
  unfold roundF32Pos
  rw [Int.log_natCast]
  have he : Nat.log 2 m < 25 := Nat.log_lt_of_lt_pow (by omega) (by omega)
  have hle : 2 ^ Nat.log 2 m ≤ m := Nat.pow_log_le_self 2 (by omega)
  generalize Nat.log 2 m = e at he hle
  dsimp only
  by_cases h23 : e ≤ 23
  · obtain ⟨k, hk⟩ : ∃ k : Nat, 23 = e + k := ⟨23 - e, by omega⟩
    have hulp : ((e : Int) - 23) = -(k : Int) := by omega
    rw [hulp, zpow_neg, zpow_natCast, div_inv_eq_mul]
    have hcast : (m : ℚ) * 2 ^ k = (((m * 2 ^ k : Nat) : Int) : ℚ) := by push_cast; ring
    rw [hcast, roundHalfEven_intCast]
    push_cast
    field_simp
  · have he24 : e = 24 := by omega
    subst he24
    have hm : m = 2 ^ 24 := by omega
    subst hm
    have hcast : (((2 ^ 24 : Nat) : ℚ)) / 2 ^ (((24 : Nat) : Int) - 23) =
        (((2 ^ 23 : Int)) : ℚ) := by
      norm_num
    rw [hcast, roundHalfEven_intCast]
    norm_num

theorem roundF32_natCast {m : Nat} (h : m ≤ 2 ^ 24) : roundF32 (m : ℚ) = m := by
  unfold roundF32
  by_cases h0 : m = 0
  · simp [h0]
  · have hpos : (0 : ℚ) < m := by exact_mod_cast Nat.pos_of_ne_zero h0
    rw [if_neg hpos.ne', if_pos hpos]
    exact roundF32Pos_natCast (Nat.pos_of_ne_zero h0) h

/-- An integer of absolute value at most 2^24 is a `float`. -/
theorem roundF32_intCast {n : Int} (h1 : -(2 ^ 24) ≤ n) (h2 : n ≤ 2 ^ 24) :
    roundF32 (n : ℚ) = n := by
  rcases le_or_lt 0 n with hn | hn
  · obtain ⟨m, rfl⟩ := Int.eq_ofNat_of_zero_le hn
    have := roundF32_natCast (m := m) (by omega)
    simpa using this
  · obtain ⟨m, hm⟩ := Int.eq_ofNat_of_zero_le (show 0 ≤ -n by omega)
    have hn2 : n = -(m : Int) := by omega
    subst hn2
    have hmpos : 0 < m := by omega
    have hq : ((-(m : Int) : Int) : ℚ) = -(m : ℚ) := by push_cast; rfl
    unfold roundF32
    have hneg : (-(m : ℚ)) < 0 := by
      have : (0 : ℚ) < m := by exact_mod_cast hmpos
      linarith
    rw [hq, if_neg hneg.ne, if_neg (not_lt.2 hneg.le), neg_neg,
      roundF32Pos_natCast hmpos (by omega)]

/-- Rounding keeps a positive value positive. -/
theorem roundF32_pos {q : ℚ} (hq : 0 < q) : 0 < roundF32 q := by
  unfold roundF32
  rw [if_neg hq.ne', if_pos hq]
  unfold roundF32Pos
  dsimp only
  have hulp : (0 : ℚ) < 2 ^ (Int.log 2 q - 23) := zpow_pos (by norm_num) _
  have hlog : (2 : ℚ) ^ Int.log 2 q ≤ q := by
    have := Int.zpow_log_le_self (b := 2) (by norm_num) hq
    exact_mod_cast this
  have h23 : (1 : ℚ) ≤ q / 2 ^ (Int.log 2 q - 23) := by
    rw [le_div_iff₀ hulp, one_mul]
    refine le_trans ?_ hlog
    exact zpow_le_zpow_right₀ (by norm_num) (by omega)
  have hfl : (1 : Int) ≤ ⌊q / 2 ^ (Int.log 2 q - 23)⌋ := Int.le_floor.2 (by exact_mod_cast h23)
  have := floor_le_roundHalfEven (q / 2 ^ (Int.log 2 q - 23))
  have hr : (1 : ℚ) ≤ (roundHalfEven (q / 2 ^ (Int.log 2 q - 23)) : ℚ) := by
    exact_mod_cast le_trans hfl this
  positivity

theorem roundF32_zero : roundF32 0 = 0 := by
  unfold roundF32
  rw [if_pos rfl]

theorem sumSquaredSamples_succ (a b : Buffer) (n : Nat) :
    sumSquaredSamples a b (n + 1) = sumSquaredSamples a b n +
      (((a.byte n % 256 : Nat) : Int) - ((b.byte n % 256 : Nat) : Int)) ^ 2 := by
  unfold sumSquaredSamples
  rw [List.range_succ, List.map_append, List.sum_append]
  simp only [List.map_cons, List.map_nil, List.sum_cons, List.sum_nil, add_zero]

theorem sumSquaredSamples_nonneg (a b : Buffer) (n : Nat) : 0 ≤ sumSquaredSamples a b n := by
  induction n with
  | zero => simp [sumSquaredSamples]
  | succ n ih =>
    rw [sumSquaredSamples_succ]
    have := sq_nonneg (((a.byte n % 256 : Nat) : Int) - ((b.byte n % 256 : Nat) : Int))
    omega

/-- One pass of the loop body: the difference and its square are exact, the sum is rounded. -/
theorem computeMSE_body_eq (ptr ptr2 : Buffer) (m : ℚ) (i : Nat) (h1 : i < ptr.size)
    (h2 : i < ptr2.size) :
    computeMSE_body ptr ptr2 (some (Double.finite m)) i =
      some (Double.finite (roundF32 (m +
        (((((ptr.byte i % 256 : Nat) : Int) - ((ptr2.byte i % 256 : Nat) : Int)) ^ 2 : Int)
          : ℚ)))) := by
  have hr1 : ptr.read i = some ((ptr.byte i % 256 : Nat) : Int) := by
    unfold Buffer.read; rw [if_pos h1]
  have hr2 : ptr2.read i = some ((ptr2.byte i % 256 : Nat) : Int) := by
    unfold Buffer.read; rw [if_pos h2]
  have ha : (0 : Int) ≤ ((ptr.byte i % 256 : Nat) : Int) ∧
      ((ptr.byte i % 256 : Nat) : Int) ≤ 255 := by omega
  have hb : (0 : Int) ≤ ((ptr2.byte i % 256 : Nat) : Int) ∧
      ((ptr2.byte i % 256 : Nat) : Int) ≤ 255 := by omega
  generalize ((ptr.byte i % 256 : Nat) : Int) = a at hr1 ha ⊢
  generalize ((ptr2.byte i % 256 : Nat) : Int) = b at hr2 hb ⊢
  have hs : roundF32 ((a : ℚ) - (b : ℚ)) = ((a - b : Int) : ℚ) := by
    rw [← Int.cast_sub]
    exact roundF32_intCast (by omega) (by omega)
  have hm : roundF32 (((a - b : Int) : ℚ) * ((a - b : Int) : ℚ)) =
      (((a - b) ^ 2 : Int) : ℚ) := by
    rw [← Int.cast_mul, ← sq]
    exact roundF32_intCast (by nlinarith) (by nlinarith)
  unfold computeMSE_body
  rw [hr1, hr2]
  simp only [Float32.sub, Float32.ofInt, Float32.mul, Float32.add, Float32.round, Double.ofInt,
    Double.sub, Double.mul, Double.add]
  rw [roundF32_intCast (n := a) (by omega) (by omega),
    roundF32_intCast (n := b) (by omega) (by omega), hs, hm]

/-- While the sum of squares stays within 24 bits the loop accumulates it exactly. -/
theorem computeMSE_loop (ptr ptr2 : Buffer) (n : Nat) (h1 : n ≤ ptr.size) (h2 : n ≤ ptr2.size)
    (hsum : sumSquaredSamples ptr ptr2 n ≤ 2 ^ 24) :
    (List.range n).foldl (computeMSE_body ptr ptr2) (some (Double.finite 0)) =
      some (Double.finite ((sumSquaredSamples ptr ptr2 n : Int) : ℚ)) := by
  induction n with
  | zero => simp [sumSquaredSamples]
  | succ n ih =>
    have hsucc := sumSquaredSamples_succ ptr ptr2 n
    have hsq := sq_nonneg (((ptr.byte n % 256 : Nat) : Int) - ((ptr2.byte n % 256 : Nat) : Int))
    have hnn := sumSquaredSamples_nonneg ptr ptr2 n
    rw [List.range_succ, List.foldl_append, ih (by omega) (by omega) (by omega)]
    simp only [List.foldl_cons, List.foldl_nil]
    rw [computeMSE_body_eq ptr ptr2 _ n (by omega) (by omega), ← Int.cast_add, ← hsucc,
      roundF32_intCast (by omega) hsum]

/-- The value `computeMSE` returns for a positive count while the sum of squares stays within
24 bits: the rounded quotient of the sum and the rounded count. -/
theorem computeMSE_of_pos (ptr ptr2 : Buffer) (numPixels : Int) (hpos : 0 < numPixels)
    (h1 : numPixels ≤ ptr.size) (h2 : numPixels ≤ ptr2.size)
    (hsum : sumSquaredSamples ptr ptr2 numPixels.toNat ≤ 2 ^ 24) :
    computeMSE ptr ptr2 numPixels =
      some (Double.finite (roundF32
        (((sumSquaredSamples ptr ptr2 numPixels.toNat : Int) : ℚ) /
          roundF32 (numPixels : ℚ)))) := by
  have hq : (0 : ℚ) < (numPixels : ℚ) := by exact_mod_cast hpos
  unfold computeMSE
  simp only [gt_iff_lt, hpos, if_true]
  rw [computeMSE_loop ptr ptr2 numPixels.toNat (by omega) (by omega) hsum]
  simp only [Float32.div, Float32.ofInt, Float32.round, Double.div, Double.ofInt]
  rw [if_neg (roundF32_pos hq).ne']

/-- C9 (amended): for buffers with at least `count` readable bytes, `0 < count <= 2^24` and a
sum over `i` in `[0, count)` of `(a_i - b_i)^2` of at most 2^24, `computeMSE` returns the `float`
nearest to that sum divided by `count`; for `count <= 0` it returns 0 for every pair of buffers,
also for buffers without any readable byte, so no sample is read. -/
theorem computeMSE_spec (ptr ptr2 : Buffer) (numPixels : Int) :
    (0 < numPixels → numPixels ≤ ptr.size → numPixels ≤ ptr2.size → numPixels ≤ 2 ^ 24 →
      sumSquaredSamples ptr ptr2 numPixels.toNat ≤ 2 ^ 24 →
      computeMSE ptr ptr2 numPixels =
        some (Double.finite (roundF32
          (((sumSquaredSamples ptr ptr2 numPixels.toNat : Int) : ℚ) / (numPixels : ℚ))))) ∧
    (numPixels ≤ 0 → computeMSE ptr ptr2 numPixels = some (Double.finite 0)) := by
  constructor
  · intro hpos h1 h2 h24 hsum
    rw [computeMSE_of_pos ptr ptr2 numPixels hpos h1 h2 hsum,
      roundF32_intCast (by omega) h24]
  · intro hle
    unfold computeMSE
    simp only [gt_iff_lt, not_lt.2 hle, if_false]

/-- C9 (witness): three samples, and a count of 0 on buffers without a readable byte. -/
theorem computeMSE_spec_witness :
    computeMSE (Buffer.ofList [1, 2, 3]) (Buffer.ofList [1, 0, 0]) 3 =
      some (Double.finite (roundF32
        (((sumSquaredSamples (Buffer.ofList [1, 2, 3]) (Buffer.ofList [1, 0, 0])
          (3 : Int).toNat : Int) : ℚ) / ((3 : Int) : ℚ)))) ∧
    computeMSE (Buffer.ofList []) (Buffer.ofList []) 0 = some (Double.finite 0) :=
  ⟨(computeMSE_spec (Buffer.ofList [1, 2, 3]) (Buffer.ofList [1, 0, 0]) 3).1 (by decide)
      (by decide) (by decide) (by decide) (by decide),
   (computeMSE_spec (Buffer.ofList []) (Buffer.ofList []) 0).2 (by decide)⟩

theorem sumSquaredSamples_const (a b : Buffer) (n : Nat) (d : Int)
    (h : ∀ i : Nat, i < n → ((a.byte i % 256 : Nat) : Int) - ((b.byte i % 256 : Nat) : Int) = d) :
    sumSquaredSamples a b n = (n : Int) * d ^ 2 := by
  induction n with
  | zero => simp [sumSquaredSamples]
  | succ n ih =>
    rw [sumSquaredSamples_succ, ih (fun i hi => h i (by omega)), h n (by omega)]
    push_cast
    ring

theorem roundF32_16841475 : roundF32 16841475 = 16841476 := by
  have hpos : (0 : ℚ) < 16841475 := by norm_num
  unfold roundF32
  rw [if_neg hpos.ne', if_pos hpos,
    roundF32Pos_of_bounds (e := 24) (by norm_num) (by norm_num),
    roundHalfEven_eq (f := 8420737) (by norm_num) (by norm_num)]
  norm_num

theorem roundF32_quotient259 : roundF32 (16841476 / 259) = 16646401 / 256 := by
  have hpos : (0 : ℚ) < 16841476 / 259 := by norm_num
  unfold roundF32
  rw [if_neg hpos.ne', if_pos hpos,
    roundF32Pos_of_bounds (e := 15) (by norm_num) (by norm_num),
    roundHalfEven_eq (f := 16646400) (by norm_num) (by norm_num)]
  norm_num

/-- 259 bytes of value 255 against 259 bytes of value 0: the 259th addition is rounded up by
one, and the quotient is the `float` 65025.00390625. -/
theorem computeMSE_example259 :
    computeMSE (exampleBuffer 259 255) (exampleBuffer 259 0) 259 =
      some (Double.finite (16646401 / 256)) := by
  have hconst : ∀ i : Nat, i < 258 →
      (((exampleBuffer 259 255).byte i % 256 : Nat) : Int) -
        (((exampleBuffer 259 0).byte i % 256 : Nat) : Int) = 255 := fun _ _ => rfl
  have hsum : sumSquaredSamples (exampleBuffer 259 255) (exampleBuffer 259 0) 258 = 16776450 := by
    rw [sumSquaredSamples_const _ _ 258 255 hconst]
    rfl
  have hloop := computeMSE_loop (exampleBuffer 259 255) (exampleBuffer 259 0) 258
    (by decide) (by decide) (by rw [hsum]; decide)
  rw [hsum] at hloop
  have hbody := computeMSE_body_eq (exampleBuffer 259 255) (exampleBuffer 259 0) 16776450 258
    (by decide) (by decide)
  have hterm : ((((((exampleBuffer 259 255).byte 258 % 256 : Nat) : Int) -
      (((exampleBuffer 259 0).byte 258 % 256 : Nat) : Int)) ^ 2 : Int) : ℚ) = 65025 := by
    norm_num [exampleBuffer]
  rw [hterm] at hbody
  have h259 : roundF32 ((259 : Int) : ℚ) = 259 := by
    have := roundF32_intCast (n := 259) (by norm_num) (by norm_num)
    exact_mod_cast this
  unfold computeMSE
  rw [if_pos (by decide)]
  have hrange : List.range (259 : Int).toNat = List.range 258 ++ [258] := by
    rw [← List.range_succ]
    rfl
  rw [hrange, List.foldl_append, hloop]
  simp only [List.foldl_cons, List.foldl_nil]
  have hb2 : computeMSE_body (exampleBuffer 259 255) (exampleBuffer 259 0)
      (some (Double.finite ((16776450 : Int) : ℚ))) 258 =
      some (Double.finite 16841476) := by
    have hc : (((16776450 : Int) : ℚ)) = (16776450 : ℚ) := by norm_num
    rw [hc, hbody]
    have hadd : (16776450 : ℚ) + 65025 = 16841475 := by norm_num
    rw [hadd, roundF32_16841475]
  rw [hb2]
  simp only [Float32.div, Float32.ofInt, Float32.round, Double.div, Double.ofInt]
  rw [h259, if_neg (by norm_num)]
  show some (Double.finite (roundF32 (16841476 / 259))) = _
  rw [roundF32_quotient259]

/-- C9 (counterexample): for 259 bytes of value 255 against 259 bytes of value 0 the sum of
squares divided by the count is 65025, itself a `float`, while the code returns
16646401/256 = 65025.00390625: the `float` sum 16776450 + 65025 is rounded to 16841476. -/
theorem computeMSE_spec_rounding :
    computeMSE (exampleBuffer 259 255) (exampleBuffer 259 0) 259 =
      some (Double.finite (16646401 / 256)) ∧
    ((sumSquaredSamples (exampleBuffer 259 255) (exampleBuffer 259 0)
      (259 : Int).toNat : Int) : ℚ) / ((259 : Int) : ℚ) = 65025 ∧
    (16646401 / 256 : ℚ) ≠ 65025 := by
  refine ⟨computeMSE_example259, ?_, by norm_num⟩
  have hconst : ∀ i : Nat, i < 259 →
      (((exampleBuffer 259 255).byte i % 256 : Nat) : Int) -
        (((exampleBuffer 259 0).byte i % 256 : Nat) : Int) = 255 := fun _ _ => rfl
  have h : (259 : Int).toNat = 259 := rfl
  rw [h, sumSquaredSamples_const _ _ 259 255 hconst]
  norm_num

/-! Section: Marked differences of identical frames -/

/-- Every pixel of the image `calculateDifference` returns holds the value the loop body
stores for the two pixels read at that coordinate. -/
theorem calculateDifference_pixel (alloc : QImageAlloc) (loadFrame loadFrame2 : LoadFrame) (self item2 : videoHandler)
    (frame : Int) (l : List infoItem) (amp : Int) (mark : Bool) (x y : Int)
    (hvalid : (calculateDifference alloc loadFrame loadFrame2 self item2 frame l amp
      mark).pixmap.toImage.valid x y = true) :
    (calculateDifference alloc loadFrame loadFrame2 self item2 frame l amp mark).pixmap.toImage.pixel x y
      = diffValue amp mark (getPixelVal (loadedSelf loadFrame self frame) x y).1
          (getPixelVal (loadedItem2 loadFrame2 item2 frame) x y).1 := by
  rw [calculateDifference_unfold] at hvalid ⊢
  dsimp only at hvalid ⊢
  generalize loadedSelf loadFrame self frame = a at hvalid ⊢
  generalize loadedItem2 loadFrame2 item2 frame = b at hvalid ⊢
  generalize min a.frameSize.width b.frameSize.width = W at hvalid ⊢
  generalize min a.frameSize.height b.frameSize.height = H at hvalid ⊢
  obtain ⟨-, -, hw1, hh1, hdata, -, -, -⟩ :=
    calculateDifference_foldl_spec amp mark a b (QImage.create alloc W H) (overlapPixels W H)
  simp only [QPixmap.toImage, QPixmap.fromImage] at hvalid ⊢
  have hv0 : (QImage.create alloc W H).valid x y = true := by
    unfold QImage.valid at hvalid ⊢
    rw [hw1, hh1] at hvalid
    exact hvalid
  have hdims : (0 ≤ x ∧ x < W) ∧ (0 ≤ y ∧ y < H) := by
    have h := QImage.create_valid hv0
    exact ⟨⟨h.1, h.2.1⟩, ⟨h.2.2.1, h.2.2.2⟩⟩
  unfold QImage.pixel
  rw [if_pos hvalid, hdata, if_pos ⟨(mem_overlapPixels _ _ x y).2 hdims, hv0⟩]

/-- C11: when the two handlers have the same frame size and read the same pixels, marking
differences gives, for every amplification factor and whatever the fresh image held, an image
whose every pixel is (0,0,0); that image has the size of the frame when both dimensions are
positive and Qt can allocate it. -/
theorem calculateDifference_identical_marked (alloc : QImageAlloc) (loadFrame loadFrame2 : LoadFrame)
    (self item2 : videoHandler) (frame : Int) (l : List infoItem) (amp : Int)
    (hsize : (loadedSelf loadFrame self frame).frameSize =
      (loadedItem2 loadFrame2 item2 frame).frameSize)
    (hsame : ∀ x y : Int, (getPixelVal (loadedSelf loadFrame self frame) x y).1 =
      (getPixelVal (loadedItem2 loadFrame2 item2 frame) x y).1) :
    (0 < (loadedSelf loadFrame self frame).frameSize.width →
      0 < (loadedSelf loadFrame self frame).frameSize.height →
      (alloc (loadedSelf loadFrame self frame).frameSize.width
        (loadedSelf loadFrame self frame).frameSize.height).isSome = true →
      (calculateDifference alloc loadFrame loadFrame2 self item2 frame l amp true).pixmap.toImage.width
        = (loadedSelf loadFrame self frame).frameSize.width ∧
      (calculateDifference alloc loadFrame loadFrame2 self item2 frame l amp true).pixmap.toImage.height
        = (loadedSelf loadFrame self frame).frameSize.height) ∧
    ∀ x y : Int,
      (calculateDifference alloc loadFrame loadFrame2 self item2 frame l amp true).pixmap.toImage.valid
        x y = true →
      qRed ((calculateDifference alloc loadFrame loadFrame2 self item2 frame l amp
        true).pixmap.toImage.pixel x y) = 0 ∧
      qGreen ((calculateDifference alloc loadFrame loadFrame2 self item2 frame l amp
        true).pixmap.toImage.pixel x y) = 0 ∧
      qBlue ((calculateDifference alloc loadFrame loadFrame2 self item2 frame l amp
        true).pixmap.toImage.pixel x y) = 0 := by
  constructor
  · intro hw hh halloc
    obtain ⟨d, hd⟩ := Option.isSome_iff_exists.1 halloc
    rw [calculateDifference_unfold]
    dsimp only
    rw [← hsize, min_self, min_self]
    obtain ⟨-, -, hw1, hh1, -, -, -, -⟩ :=
      calculateDifference_foldl_spec amp true (loadedSelf loadFrame self frame)
        (loadedItem2 loadFrame2 item2 frame)
        (QImage.create alloc (loadedSelf loadFrame self frame).frameSize.width
          (loadedSelf loadFrame self frame).frameSize.height)
        (overlapPixels (loadedSelf loadFrame self frame).frameSize.width
          (loadedSelf loadFrame self frame).frameSize.height)
    simp only [QPixmap.toImage, QPixmap.fromImage, hw1, hh1]
    rw [QImage.create_of_some hw hh hd]
    exact ⟨rfl, rfl⟩
  · intro x y hvalid
    rw [calculateDifference_pixel alloc loadFrame loadFrame2 self item2 frame l amp true x y hvalid,
      hsame]
    have hch := diffValue_channels amp true
      (getPixelVal (loadedItem2 loadFrame2 item2 frame) x y).1
      (getPixelVal (loadedItem2 loadFrame2 item2 frame) x y).1 (fun h => absurd h (by simp))
    simp only [sub_self, specChannel, if_true, ne_eq, not_true_eq_false, if_false] at hch
    exact hch

/-- C11 (witness): a 2 x 2 frame against a handler showing the same frame, amplification 7. -/
theorem calculateDifference_identical_marked_witness :
    qRed ((calculateDifference exampleAlloc exampleLoadFrame exampleLoadFrame
        (exampleHandler ⟨2, 2⟩ (qRgb 10 20 30)) (exampleHandler ⟨2, 2⟩ (qRgb 10 20 30)) 0 [] 7
        true).pixmap.toImage.pixel 1 1) = 0 :=
  ((calculateDifference_identical_marked exampleAlloc exampleLoadFrame exampleLoadFrame
      (exampleHandler ⟨2, 2⟩ (qRgb 10 20 30)) (exampleHandler ⟨2, 2⟩ (qRgb 10 20 30)) 0 [] 7
      rfl (fun _ _ => rfl)).2 1 1 (by decide)).1

/-! Section: Mean squared error of equal and shifted buffers -/

/-- C12 (amended): for a count `n > 0` within the readable bytes, `computeMSE(buf, buf, n)` is
0; for two buffers whose bytes differ by the same `d` at each of the `n` positions `computeMSE`
is exactly `d^2` provided `n * d^2` is at most 2^24 = 16777216. -/
theorem computeMSE_constant (ptr ptr2 : Buffer) (n : Int) (hn : 0 < n) (h1 : n ≤ ptr.size) :
    computeMSE ptr ptr n = some (Double.finite 0) ∧
    ∀ d : Int, n ≤ ptr2.size →
      (∀ i : Nat, (i : Int) < n →
        ((ptr.byte i % 256 : Nat) : Int) - ((ptr2.byte i % 256 : Nat) : Int) = d) →
      n * d ^ 2 ≤ 2 ^ 24 →
      computeMSE ptr ptr2 n = some (Double.finite ((d : ℚ) ^ 2)) := by
  have hn2 : (n : ℚ) ≠ 0 := by exact_mod_cast hn.ne'
  have hcast : ((n.toNat : Nat) : Int) = n := Int.toNat_of_nonneg hn.le
  have hzero : ∀ p2 : Buffer, n ≤ p2.size → sumSquaredSamples ptr p2 n.toNat = 0 →
      computeMSE ptr p2 n = some (Double.finite 0) := by
    intro p2 h2 hs
    rw [computeMSE_of_pos ptr p2 n hn h1 h2 (by rw [hs]; norm_num), hs]
    simp [roundF32_zero]
  constructor
  · apply hzero ptr h1
    rw [sumSquaredSamples_const ptr ptr n.toNat 0 (fun i _ => sub_self _)]
    ring
  · intro d h2 hd hbound
    have hs : sumSquaredSamples ptr ptr2 n.toNat = n * d ^ 2 := by
      rw [sumSquaredSamples_const ptr ptr2 n.toNat d (fun i hi => hd i (by omega)), hcast]
    by_cases hd0 : d = 0
    · subst hd0
      rw [hzero ptr2 h2 (by rw [hs]; ring)]
      norm_num
    · have hsq : 1 ≤ d ^ 2 := by
        have := sq_nonneg d
        have : d ^ 2 ≠ 0 := pow_ne_zero 2 hd0
        omega
      have hn24 : n ≤ 2 ^ 24 := by nlinarith
      have hd24 : d ^ 2 ≤ 2 ^ 24 := by nlinarith
      rw [computeMSE_of_pos ptr ptr2 n hn h1 h2 (by rw [hs]; exact hbound), hs,
        roundF32_intCast (by omega) hn24]
      have hq : (((n * d ^ 2 : Int) : ℚ)) / (n : ℚ) = ((d ^ 2 : Int) : ℚ) := by
        push_cast
        field_simp
      rw [hq, roundF32_intCast (by omega) hd24]
      push_cast
      rfl

/-- C12 (witness): three bytes against themselves, and against bytes smaller by 2. -/
theorem computeMSE_constant_witness :
    computeMSE (Buffer.ofList [5, 6, 7]) (Buffer.ofList [5, 6, 7]) 3 = some (Double.finite 0) ∧
    computeMSE (Buffer.ofList [5, 6, 7]) (Buffer.ofList [3, 4, 5]) 3 =
      some (Double.finite (((2 : Int) : ℚ) ^ 2)) :=
  ⟨(computeMSE_constant (Buffer.ofList [5, 6, 7]) (Buffer.ofList [3, 4, 5]) 3 (by decide)
      (by decide)).1,
   (computeMSE_constant (Buffer.ofList [5, 6, 7]) (Buffer.ofList [3, 4, 5]) 3 (by decide)
      (by decide)).2 2 (by decide) (by
        intro i hi
        have hi3 : i < 3 := by omega
        interval_cases i <;> rfl) (by decide)⟩

/-- C12 (counterexample): 259 bytes of value 255 against 259 bytes of value 0 differ by
`d = 255` at every position, and `computeMSE` returns 65025.00390625, not `d^2 = 65025`:
`259 * 65025` is above 2^24 and the last `float` addition is rounded. -/
theorem computeMSE_constant_rounding :
    (∀ i : Nat, (i : Int) < 259 →
      (((exampleBuffer 259 255).byte i % 256 : Nat) : Int) -
        (((exampleBuffer 259 0).byte i % 256 : Nat) : Int) = 255) ∧
    computeMSE (exampleBuffer 259 255) (exampleBuffer 259 0) 259 ≠
      some (Double.finite (((255 : Int) : ℚ) ^ 2)) := by
  refine ⟨fun _ _ => rfl, ?_⟩
  rw [computeMSE_example259]
  intro h
  have h2 := Double.finite.inj (Option.some.inj h)
  norm_num at h2

/-! Section: Debounced cache notifications -/

theorem cacheFrame_hit (L : LoadFrameForCaching) (s : videoHandler) (i : Int)
    (h : s.pixmapCache.contains i = true) : cacheFrame L s i = s := by
  unfold cacheFrame
  simp only [h, if_true]

theorem cacheFrame_miss_idle (L : LoadFrameForCaching) (s : videoHandler) (i : Int)
    (h : s.pixmapCache.contains i = false) (hidle : s.cachingTimer.active = false) :
    (cacheFrame L s i).cachingTimer.active = true ∧
    (cacheFrame L s i).trace =
      s.trace ++ [Event.loadFrameForCaching i] ++ [Event.cachingTimerStart] := by
  unfold cacheFrame
  simp only [h, Bool.false_eq_true, if_false, hidle, Bool.not_false, if_true, and_self]

theorem cacheFrame_armed (L : LoadFrameForCaching) (s : videoHandler) (i : Int)
    (hactive : s.cachingTimer.active = true) :
    (cacheFrame L s i).cachingTimer.active = true ∧
    timerStarts (cacheFrame L s i).trace = timerStarts s.trace ∧
    notifications (cacheFrame L s i).trace = notifications s.trace := by
  cases h : s.pixmapCache.contains i with
  | true => rw [cacheFrame_hit L s i h]; exact ⟨hactive, rfl, rfl⟩
  | false =>
    unfold cacheFrame
    simp [h, hactive, timerStarts, notifications, List.count_append, List.count_cons]

theorem cachingTimerTimeout_armed (s : videoHandler) (hactive : s.cachingTimer.active = true) :
    notifications (cachingTimerTimeout s).trace = notifications s.trace + 1 ∧
    (cachingTimerTimeout s).cachingTimer.active = false := by
  unfold cachingTimerTimeout cachingTimerEvent
  simp [hactive, notifications, List.count_append, List.count_cons]

/-- Two more `cacheFrame` calls and the timeout, once the timer is armed. -/
theorem cacheFrame_armed_then_timeout (L : LoadFrameForCaching) (s : videoHandler)
    (rest : List Int) (hactive : s.cachingTimer.active = true) :
    timerStarts (rest.foldl (cacheFrame L) s).trace = timerStarts s.trace ∧
    notifications (cachingTimerTimeout (rest.foldl (cacheFrame L) s)).trace =
      notifications s.trace + 1 ∧
    (cachingTimerTimeout (rest.foldl (cacheFrame L) s)).cachingTimer.active = false := by
  induction rest generalizing s with
  | nil =>
    obtain ⟨h1, h2⟩ := cachingTimerTimeout_armed s hactive
    exact ⟨rfl, h1, h2⟩
  | cons i rest ih =>
    obtain ⟨ha, hs, hn⟩ := cacheFrame_armed L s i hactive
    obtain ⟨h1, h2, h3⟩ := ih (cacheFrame L s i) ha
    rw [List.foldl_cons]
    exact ⟨h1.trans hs, by rw [h2, hn], h3⟩

/-- C13 (amended): starting with the caching timer not armed, three `cacheFrame` calls of which
at least one finds its index not cached start the timer exactly once, and the firing of the
timer emits exactly one `signalHandlerChanged(false, false)`; the timer is then not armed, and
without a new insertion nothing further is emitted. -/
theorem cacheFrame_debounce (L : LoadFrameForCaching) (s : videoHandler) (i1 i2 i3 : Int)
    (hidle : s.cachingTimer.active = false)
    (hmiss : s.pixmapCache.contains i1 = false ∨ s.pixmapCache.contains i2 = false ∨
      s.pixmapCache.contains i3 = false) :
    timerStarts (cacheFrame L (cacheFrame L (cacheFrame L s i1) i2) i3).trace =
      timerStarts s.trace + 1 ∧
    notifications (cacheFrame L (cacheFrame L (cacheFrame L s i1) i2) i3).trace =
      notifications s.trace ∧
    notifications
        (cachingTimerTimeout (cacheFrame L (cacheFrame L (cacheFrame L s i1) i2) i3)).trace =
      notifications s.trace + 1 ∧
    (cachingTimerTimeout
      (cacheFrame L (cacheFrame L (cacheFrame L s i1) i2) i3)).cachingTimer.active = false ∧
    cachingTimerTimeout
        (cachingTimerTimeout (cacheFrame L (cacheFrame L (cacheFrame L s i1) i2) i3)) =
      cachingTimerTimeout (cacheFrame L (cacheFrame L (cacheFrame L s i1) i2) i3) := by
  have hstart : ∀ (u : videoHandler) (i : Int), u.pixmapCache.contains i = false →
      u.cachingTimer.active = false →
      (cacheFrame L u i).cachingTimer.active = true ∧
      timerStarts (cacheFrame L u i).trace = timerStarts u.trace + 1 ∧
      notifications (cacheFrame L u i).trace = notifications u.trace := by
    intro u i hu hui
    obtain ⟨h1, h2⟩ := cacheFrame_miss_idle L u i hu hui
    refine ⟨h1, ?_, ?_⟩
    · rw [h2]
      simp [timerStarts, List.count_append, List.count_cons]
    · rw [h2]
      simp [notifications, List.count_append, List.count_cons]
  have hnotify : ∀ (u : videoHandler) (rest : List Int), u.cachingTimer.active = true →
      notifications (rest.foldl (cacheFrame L) u).trace = notifications u.trace := by
    intro u rest
    induction rest generalizing u with
    | nil => intro _; rfl
    | cons i rest ih =>
      intro hu
      obtain ⟨ha, -, hn⟩ := cacheFrame_armed L u i hu
      rw [List.foldl_cons, ih _ ha, hn]
  have hidem : ∀ u : videoHandler, (cachingTimerTimeout u).cachingTimer.active = false →
      cachingTimerTimeout (cachingTimerTimeout u) = cachingTimerTimeout u := by
    intro u hu
    generalize cachingTimerTimeout u = t at hu ⊢
    unfold cachingTimerTimeout
    simp only [hu, Bool.false_eq_true, if_false]
  have key : ∀ (u : videoHandler) (i : Int) (rest : List Int),
      u.pixmapCache.contains i = false → u.cachingTimer.active = false →
      timerStarts (rest.foldl (cacheFrame L) (cacheFrame L u i)).trace = timerStarts u.trace + 1 ∧
      notifications (rest.foldl (cacheFrame L) (cacheFrame L u i)).trace = notifications u.trace ∧
      notifications (cachingTimerTimeout (rest.foldl (cacheFrame L) (cacheFrame L u i))).trace =
        notifications u.trace + 1 ∧
      (cachingTimerTimeout
        (rest.foldl (cacheFrame L) (cacheFrame L u i))).cachingTimer.active = false := by
    intro u i rest hu hui
    obtain ⟨ha, hs, hn⟩ := hstart u i hu hui
    obtain ⟨h1, h2, h3⟩ := cacheFrame_armed_then_timeout L (cacheFrame L u i) rest ha
    exact ⟨by rw [h1, hs], by rw [hnotify _ rest ha, hn], by rw [h2, hn], h3⟩
  have main : timerStarts (cacheFrame L (cacheFrame L (cacheFrame L s i1) i2) i3).trace =
      timerStarts s.trace + 1 ∧
    notifications (cacheFrame L (cacheFrame L (cacheFrame L s i1) i2) i3).trace =
      notifications s.trace ∧
    notifications
        (cachingTimerTimeout (cacheFrame L (cacheFrame L (cacheFrame L s i1) i2) i3)).trace =
      notifications s.trace + 1 ∧
    (cachingTimerTimeout
      (cacheFrame L (cacheFrame L (cacheFrame L s i1) i2) i3)).cachingTimer.active = false := by
    cases h1 : s.pixmapCache.contains i1 with
    | false => exact key s i1 [i2, i3] h1 hidle
    | true =>
      rw [cacheFrame_hit L s i1 h1]
      cases h2 : s.pixmapCache.contains i2 with
      | false => exact key s i2 [i3] h2 hidle
      | true =>
        rw [cacheFrame_hit L s i2 h2]
        cases h3 : s.pixmapCache.contains i3 with
        | false => exact key s i3 [] h3 hidle
        | true =>
          rw [h1, h2, h3] at hmiss
          simp at hmiss
  exact ⟨main.1, main.2.1, main.2.2.1, main.2.2.2, hidem _ main.2.2.2⟩

/-- C13 (witness): frames 1, 2, 3 cached into the initial handler, then the timer fires. -/
theorem cacheFrame_debounce_witness :
    timerStarts (cacheFrame exampleLoadFrameForCaching (cacheFrame exampleLoadFrameForCaching
      (cacheFrame exampleLoadFrameForCaching videoHandler.init 1) 2) 3).trace =
      timerStarts videoHandler.init.trace + 1 ∧
    notifications (cachingTimerTimeout (cacheFrame exampleLoadFrameForCaching
      (cacheFrame exampleLoadFrameForCaching
        (cacheFrame exampleLoadFrameForCaching videoHandler.init 1) 2) 3)).trace =
      notifications videoHandler.init.trace + 1 :=
  ⟨(cacheFrame_debounce exampleLoadFrameForCaching videoHandler.init 1 2 3 (by decide)
      (by decide)).1,
   (cacheFrame_debounce exampleLoadFrameForCaching videoHandler.init 1 2 3 (by decide)
      (by decide)).2.2.1⟩

/-- C13 (counterexample): the timer is not armed and index 5 is cached; three calls
`cacheFrame(5)` start no timer, so no timer fires and no notification is emitted. -/
theorem cacheFrame_debounce_allHits :
    exampleCached.cachingTimer.active = false ∧
    timerStarts (cacheFrame exampleLoadFrameForCaching (cacheFrame exampleLoadFrameForCaching
      (cacheFrame exampleLoadFrameForCaching exampleCached 5) 5) 5).trace = 0 ∧
    notifications (cachingTimerTimeout (cacheFrame exampleLoadFrameForCaching
      (cacheFrame exampleLoadFrameForCaching
        (cacheFrame exampleLoadFrameForCaching exampleCached 5) 5) 5)).trace = 0 := by
  decide

/-! Section: Removal from the cache -/

/-- C14 (amended): `removeFrameFromCache(i)` leaves the handler, and with it the cache,
unchanged, whether or not `i` is cached: a following lookup of any index, `i` included, gives
what it gave before. -/
theorem removeFrameFromCache_unchanged (s : videoHandler) (frameIdx : Int) :
    removeFrameFromCache s frameIdx = s ∧
    ∀ j : Int,
      (removeFrameFromCache s frameIdx).pixmapCache.contains j = s.pixmapCache.contains j ∧
      (removeFrameFromCache s frameIdx).pixmapCache.lookup j = s.pixmapCache.lookup j :=
  ⟨rfl, fun _ => ⟨rfl, rfl⟩⟩

/-- C14 (counterexample): index 5 is cached, and after `removeFrameFromCache(5)` a lookup of 5
still hits. -/
theorem removeFrameFromCache_keeps_entry :
    exampleCached.pixmapCache.contains 5 = true ∧
    (removeFrameFromCache exampleCached 5).pixmapCache.contains 5 = true ∧
    ((removeFrameFromCache exampleCached 5).pixmapCache.lookup 5).isSome = true := by
  decide

/-! Section: Frame size presets -/

/-- C15: the preset table has 14 names and 14 sizes, its entry 0 is "Custom Size" with the
size (-1,-1); `findSize` of the size at index `i` is `i` for every `i` from 1 to 13, and
`findSize` of a size that is not in the table is 0. -/
theorem findSize_getSize :
    presetNames.length = 14 ∧ presetSizes.length = 14 ∧
    presetNames.head? = some "Custom Size" ∧ getSize 0 = ⟨-1, -1⟩ ∧
    (∀ i : Int, 1 ≤ i → i ≤ 13 → findSize (getSize i) = i) ∧
    (∀ size : QSize, size ∉ presetSizes → findSize size = 0) := by
  refine ⟨rfl, rfl, rfl, rfl, ?_, ?_⟩
  · intro i h1 h13
    interval_cases i <;> decide
  · intro size hsize
    have hnone : presetSizes.indexOf? size = none := by
      unfold List.indexOf?
      rw [List.findIdx?_eq_none_iff]
      intro x hx
      simp only [beq_eq_false_iff_ne, ne_eq]
      intro hxs
      exact hsize (hxs ▸ hx)
    unfold findSize
    rw [hnone]

/-- C15 (witness): the preset at index 10 (1080i/p), and the size 100 x 100. -/
theorem findSize_getSize_witness :
    findSize (getSize 10) = 10 ∧ findSize ⟨100, 100⟩ = 0 :=
  ⟨findSize_getSize.2.2.2.2.1 10 (by decide) (by decide),
   findSize_getSize.2.2.2.2.2 ⟨100, 100⟩ (by decide)⟩

/-! Section: Drawing after a failed load -/

/-- C16: when the requested frame is neither current nor cached and `loadFrame` leaves a
current frame index other than the requested one, `drawFrame` leaves the painter as it was (no
paint operation) and the handler as `loadFrame` left it: current frame, current frame index,
frame size and cache are those `loadFrame` returned. -/
theorem drawFrame_loadFailure (loadFrame : LoadFrame) (painter : QPainter) (frameIdx : Int)
    (zoomFactor : ℚ) (s : videoHandler) (hidx : frameIdx ≠ s.currentFrameIdx)
    (hmiss : s.pixmapCache.contains frameIdx = false)
    (hfail : (loadFrame s frameIdx).currentFrameIdx ≠ frameIdx) :
    (drawFrame loadFrame painter frameIdx zoomFactor s).2 = painter ∧
    (drawFrame loadFrame painter frameIdx zoomFactor s).2.ops = painter.ops ∧
    (drawFrame loadFrame painter frameIdx zoomFactor s).1 = callLoadFrame loadFrame s frameIdx ∧
    (drawFrame loadFrame painter frameIdx zoomFactor s).1.currentFrame =
      (loadFrame s frameIdx).currentFrame ∧
    (drawFrame loadFrame painter frameIdx zoomFactor s).1.currentFrameIdx =
      (loadFrame s frameIdx).currentFrameIdx ∧
    (drawFrame loadFrame painter frameIdx zoomFactor s).1.frameSize =
      (loadFrame s frameIdx).frameSize ∧
    (drawFrame loadFrame painter frameIdx zoomFactor s).1.pixmapCache =
      (loadFrame s frameIdx).pixmapCache := by
  have hload : drawFrame_load loadFrame frameIdx s =
      (callLoadFrame loadFrame s frameIdx, false) := by
    unfold drawFrame_load
    rw [if_pos hidx]
    simp only [hmiss, Bool.false_eq_true, if_false]
    have hne : ¬ frameIdx = (callLoadFrame loadFrame s frameIdx).currentFrameIdx :=
      fun h => hfail h.symm
    simp only [hne, decide_False]
  have hdraw : drawFrame loadFrame painter frameIdx zoomFactor s =
      (callLoadFrame loadFrame s frameIdx, painter) := by
    unfold drawFrame
    simp only [hload, Bool.not_false, if_true]
  rw [hdraw]
  exact ⟨rfl, rfl, rfl, rfl, rfl, rfl, rfl⟩

/-- C16 (witness): a decoder that cannot load frame 7 and leaves the handler as it is. -/
theorem drawFrame_loadFailure_witness :
    (drawFrame (fun s _ => s) ⟨⟨0, 0, 99, 99⟩, 0, 0, []⟩ 7 64 exampleCached).2.ops = [] ∧
    (drawFrame (fun s _ => s) ⟨⟨0, 0, 99, 99⟩, 0, 0, []⟩ 7 64 exampleCached).1.currentFrameIdx
      = 5 :=
  ⟨(drawFrame_loadFailure (fun s _ => s) ⟨⟨0, 0, 99, 99⟩, 0, 0, []⟩ 7 64 exampleCached
      (by decide) (by decide) (by decide)).2.1,
   (drawFrame_loadFailure (fun s _ => s) ⟨⟨0, 0, 99, 99⟩, 0, 0, []⟩ 7 64 exampleCached
      (by decide) (by decide) (by decide)).2.2.2.2.1⟩

/-! Section: Pixel reads -/

theorem getPixelVal_trace (s : videoHandler) (x y : Int) :
    (getPixelVal s x y).2.trace = s.trace ++ [readEvent s (x, y)] := by
  unfold getPixelVal readEvent indexedImage
  by_cases h : s.currentFrame_Image_FrameIdx ≠ s.currentFrameIdx
  · simp only [if_pos h]
  · simp only [if_neg h]

theorem getPixelVal_tags (s : videoHandler) (x y : Int) :
    (getPixelVal s x y).2.currentFrame_Image_FrameIdx = s.currentFrame_Image_FrameIdx ∧
    (getPixelVal s x y).2.currentFrameIdx = s.currentFrameIdx ∧
    (getPixelVal s x y).2.currentFrame = s.currentFrame ∧
    (getPixelVal s x y).2.frameSize = s.frameSize ∧
    (getPixelVal s x y).2.currentFrame_Image = indexedImage s := by
  unfold getPixelVal indexedImage
  by_cases h : s.currentFrame_Image_FrameIdx ≠ s.currentFrameIdx
  · simp only [if_pos h, and_self]
  · simp only [if_neg h, and_self]

theorem indexedImage_getPixelVal (s : videoHandler) (x y : Int) :
    indexedImage (getPixelVal s x y).2 = indexedImage s := by
  obtain ⟨h1, h2, h3, -, h5⟩ := getPixelVal_tags s x y
  unfold indexedImage
  rw [h1, h2, h3, h5]
  unfold indexedImage
  by_cases h : s.currentFrame_Image_FrameIdx ≠ s.currentFrameIdx
  · simp only [if_pos h]
  · simp only [if_neg h]

theorem readEvent_getPixelVal (s : videoHandler) (x y : Int) (p : Int × Int) :
    readEvent (getPixelVal s x y).2 p = readEvent s p := by
  obtain ⟨h1, h2, -, -, -⟩ := getPixelVal_tags s x y
  unfold readEvent
  rw [indexedImage_getPixelVal, h1, h2]

/-- The traces of both handlers after the loops of `calculateDifference` have visited `ps`. -/
theorem calculateDifference_foldl_trace (amp : Int) (mark : Bool) (a b : videoHandler)
    (img : QImage) (ps : List (Int × Int)) :
    (∀ p, readEvent (ps.foldl (fun st p => calculateDifference_body amp mark p.2 st p.1)
      ⟨a, b, img, 0, 0, 0⟩).self p = readEvent a p) ∧
    (∀ p, readEvent (ps.foldl (fun st p => calculateDifference_body amp mark p.2 st p.1)
      ⟨a, b, img, 0, 0, 0⟩).item2 p = readEvent b p) ∧
    (ps.foldl (fun st p => calculateDifference_body amp mark p.2 st p.1)
      ⟨a, b, img, 0, 0, 0⟩).self.trace = a.trace ++ ps.map (readEvent a) ∧
    (ps.foldl (fun st p => calculateDifference_body amp mark p.2 st p.1)
      ⟨a, b, img, 0, 0, 0⟩).item2.trace = b.trace ++ ps.map (readEvent b) := by
  induction ps using List.reverseRecOn with
  | nil => simp
  | append_singleton ps p ih =>
    obtain ⟨x0, y0⟩ := p
    simp only [List.foldl_append, List.foldl_cons, List.foldl_nil, List.map_append,
      List.map_cons, List.map_nil]
    generalize ps.foldl (fun st p => calculateDifference_body amp mark p.2 st p.1)
      ⟨a, b, img, 0, 0, 0⟩ = st at ih ⊢
    obtain ⟨hA, hB, htA, htB⟩ := ih
    refine ⟨?_, ?_, ?_, ?_⟩
    · intro p
      show readEvent (getPixelVal st.self x0 y0).2 p = _
      rw [readEvent_getPixelVal, hA]
    · intro p
      show readEvent (getPixelVal st.item2 x0 y0).2 p = _
      rw [readEvent_getPixelVal, hB]
    · show (getPixelVal st.self x0 y0).2.trace = _
      rw [getPixelVal_trace, htA, hA, List.append_assoc]
    · show (getPixelVal st.item2 x0 y0).2.trace = _
      rw [getPixelVal_trace, htB, hB, List.append_assoc]

/-- The traces of the handlers `calculateDifference` returns: one read per pixel of the
overlap rectangle, in scan order. -/
theorem calculateDifference_trace (alloc : QImageAlloc) (loadFrame loadFrame2 : LoadFrame) (self item2 : videoHandler)
    (frame : Int) (l : List infoItem) (amp : Int) (mark : Bool) :
    (calculateDifference alloc loadFrame loadFrame2 self item2 frame l amp mark).self.trace =
      (loadedSelf loadFrame self frame).trace ++
        (overlapPixels
          (min (loadedSelf loadFrame self frame).frameSize.width
            (loadedItem2 loadFrame2 item2 frame).frameSize.width)
          (min (loadedSelf loadFrame self frame).frameSize.height
            (loadedItem2 loadFrame2 item2 frame).frameSize.height)).map
          (readEvent (loadedSelf loadFrame self frame)) ∧
    (calculateDifference alloc loadFrame loadFrame2 self item2 frame l amp mark).item2.trace =
      (loadedItem2 loadFrame2 item2 frame).trace ++
        (overlapPixels
          (min (loadedSelf loadFrame self frame).frameSize.width
            (loadedItem2 loadFrame2 item2 frame).frameSize.width)
          (min (loadedSelf loadFrame self frame).frameSize.height
            (loadedItem2 loadFrame2 item2 frame).frameSize.height)).map
          (readEvent (loadedItem2 loadFrame2 item2 frame)) := by
  rw [calculateDifference_unfold]
  dsimp only
  obtain ⟨-, -, h1, h2⟩ := calculateDifference_foldl_trace amp mark
    (loadedSelf loadFrame self frame) (loadedItem2 loadFrame2 item2 frame)
    (QImage.create alloc
      (min (loadedSelf loadFrame self frame).frameSize.width
        (loadedItem2 loadFrame2 item2 frame).frameSize.width)
      (min (loadedSelf loadFrame self frame).frameSize.height
        (loadedItem2 loadFrame2 item2 frame).frameSize.height))
    (overlapPixels
      (min (loadedSelf loadFrame self frame).frameSize.width
        (loadedItem2 loadFrame2 item2 frame).frameSize.width)
      (min (loadedSelf loadFrame self frame).frameSize.height
        (loadedItem2 loadFrame2 item2 frame).frameSize.height))
  exact ⟨h1, h2⟩

theorem readEvent_of_inside (s : videoHandler) (W H : Int) (p : Int × Int)
    (hdim : (indexedImage s).width = s.frameSize.width ∧
      (indexedImage s).height = s.frameSize.height)
    (hW : W ≤ s.frameSize.width) (hH : H ≤ s.frameSize.height)
    (hp : (0 ≤ p.1 ∧ p.1 < W) ∧ (0 ≤ p.2 ∧ p.2 < H)) :
    readEvent s p =
      Event.getPixelVal p.1 p.2 (decide (s.currentFrame_Image_FrameIdx ≠ s.currentFrameIdx))
        true := by
  unfold readEvent
  have hvalid : (indexedImage s).valid p.1 p.2 = true := by
    unfold QImage.valid
    rw [hdim.1, hdim.2]
    simp only [decide_eq_true_eq]
    omega
  rw [hvalid]

/-- C18 (amended): when the image `getPixelVal` indexes on each handler (the current frame
converted when the tag of the derived image differs from the current frame index, the derived
image stored otherwise) has the dimensions of the handler's `frameSize`,
`calculateDifference` calls `getPixelVal` on both handlers once for each pixel of the overlap
rectangle and for nothing else, `getPixelValuesDifference` calls it on both handlers at the
given point when that point is in the overlap rectangle and not at all otherwise, and every one
of these reads finds its coordinate inside the image (the flag `inRange` is `true`). -/
theorem pixelReads_inside_overlap (alloc : QImageAlloc) (loadFrame loadFrame2 : LoadFrame) (self item2 : videoHandler)
    (frame : Int) (l : List infoItem) (amp : Int) (mark : Bool) (s1 s2 : videoHandler)
    (pixelPos : QPoint)
    (ha : (indexedImage (loadedSelf loadFrame self frame)).width =
        (loadedSelf loadFrame self frame).frameSize.width ∧
      (indexedImage (loadedSelf loadFrame self frame)).height =
        (loadedSelf loadFrame self frame).frameSize.height)
    (hb : (indexedImage (loadedItem2 loadFrame2 item2 frame)).width =
        (loadedItem2 loadFrame2 item2 frame).frameSize.width ∧
      (indexedImage (loadedItem2 loadFrame2 item2 frame)).height =
        (loadedItem2 loadFrame2 item2 frame).frameSize.height)
    (h1 : (indexedImage s1).width = s1.frameSize.width ∧
      (indexedImage s1).height = s1.frameSize.height)
    (h2 : (indexedImage s2).width = s2.frameSize.width ∧
      (indexedImage s2).height = s2.frameSize.height) :
    (∀ p ∈ overlapPixels
        (min (loadedSelf loadFrame self frame).frameSize.width
          (loadedItem2 loadFrame2 item2 frame).frameSize.width)
        (min (loadedSelf loadFrame self frame).frameSize.height
          (loadedItem2 loadFrame2 item2 frame).frameSize.height),
      (0 ≤ p.1 ∧ p.1 < min (loadedSelf loadFrame self frame).frameSize.width
          (loadedItem2 loadFrame2 item2 frame).frameSize.width) ∧
      (0 ≤ p.2 ∧ p.2 < min (loadedSelf loadFrame self frame).frameSize.height
          (loadedItem2 loadFrame2 item2 frame).frameSize.height)) ∧
    (calculateDifference alloc loadFrame loadFrame2 self item2 frame l amp mark).self.trace =
      (loadedSelf loadFrame self frame).trace ++
        (overlapPixels
          (min (loadedSelf loadFrame self frame).frameSize.width
            (loadedItem2 loadFrame2 item2 frame).frameSize.width)
          (min (loadedSelf loadFrame self frame).frameSize.height
            (loadedItem2 loadFrame2 item2 frame).frameSize.height)).map
          (fun p => Event.getPixelVal p.1 p.2
            (decide ((loadedSelf loadFrame self frame).currentFrame_Image_FrameIdx ≠
              (loadedSelf loadFrame self frame).currentFrameIdx)) true) ∧
    (calculateDifference alloc loadFrame loadFrame2 self item2 frame l amp mark).item2.trace =
      (loadedItem2 loadFrame2 item2 frame).trace ++
        (overlapPixels
          (min (loadedSelf loadFrame self frame).frameSize.width
            (loadedItem2 loadFrame2 item2 frame).frameSize.width)
          (min (loadedSelf loadFrame self frame).frameSize.height
            (loadedItem2 loadFrame2 item2 frame).frameSize.height)).map
          (fun p => Event.getPixelVal p.1 p.2
            (decide ((loadedItem2 loadFrame2 item2 frame).currentFrame_Image_FrameIdx ≠
              (loadedItem2 loadFrame2 item2 frame).currentFrameIdx)) true) ∧
    (getPixelValuesDifference_handlers s1 pixelPos s2).1.trace =
      s1.trace ++
        (if (0 ≤ pixelPos.x ∧ pixelPos.x < min s1.frameSize.width s2.frameSize.width) ∧
            (0 ≤ pixelPos.y ∧ pixelPos.y < min s1.frameSize.height s2.frameSize.height) then
          [Event.getPixelVal pixelPos.x pixelPos.y
            (decide (s1.currentFrame_Image_FrameIdx ≠ s1.currentFrameIdx)) true]
         else []) ∧
    (getPixelValuesDifference_handlers s1 pixelPos s2).2.trace =
      s2.trace ++
        (if (0 ≤ pixelPos.x ∧ pixelPos.x < min s1.frameSize.width s2.frameSize.width) ∧
            (0 ≤ pixelPos.y ∧ pixelPos.y < min s1.frameSize.height s2.frameSize.height) then
          [Event.getPixelVal pixelPos.x pixelPos.y
            (decide (s2.currentFrame_Image_FrameIdx ≠ s2.currentFrameIdx)) true]
         else []) := by
  obtain ⟨htA, htB⟩ := calculateDifference_trace alloc loadFrame loadFrame2 self item2 frame l amp mark
  refine ⟨fun p hp => (mem_overlapPixels _ _ p.1 p.2).1 hp, ?_, ?_, ?_, ?_⟩
  · rw [htA]
    congr 1
    apply List.map_congr_left
    intro p hp
    exact readEvent_of_inside _ _ _ p ha (min_le_left _ _) (min_le_left _ _)
      ((mem_overlapPixels _ _ p.1 p.2).1 hp)
  · rw [htB]
    congr 1
    apply List.map_congr_left
    intro p hp
    exact readEvent_of_inside _ _ _ p hb (min_le_right _ _) (min_le_right _ _)
      ((mem_overlapPixels _ _ p.1 p.2).1 hp)
  · unfold getPixelValuesDifference_handlers
    by_cases hin : (0 ≤ pixelPos.x ∧ pixelPos.x < min s1.frameSize.width s2.frameSize.width) ∧
        (0 ≤ pixelPos.y ∧ pixelPos.y < min s1.frameSize.height s2.frameSize.height)
    · have hguard : ¬ (pixelPos.x < 0 ∨
          pixelPos.x ≥ min s1.frameSize.width s2.frameSize.width ∨ pixelPos.y < 0 ∨
          pixelPos.y ≥ min s1.frameSize.height s2.frameSize.height) := by omega
      rw [if_neg hguard, if_pos hin]
      show (getPixelVal s1 pixelPos.x pixelPos.y).2.trace = _
      rw [getPixelVal_trace, readEvent_of_inside s1 _ _ (pixelPos.x, pixelPos.y) h1
        (min_le_left _ _) (min_le_left _ _) hin]
    · have hguard : pixelPos.x < 0 ∨
          pixelPos.x ≥ min s1.frameSize.width s2.frameSize.width ∨ pixelPos.y < 0 ∨
          pixelPos.y ≥ min s1.frameSize.height s2.frameSize.height := by omega
      rw [if_pos hguard, if_neg hin, List.append_nil]
  · unfold getPixelValuesDifference_handlers
    by_cases hin : (0 ≤ pixelPos.x ∧ pixelPos.x < min s1.frameSize.width s2.frameSize.width) ∧
        (0 ≤ pixelPos.y ∧ pixelPos.y < min s1.frameSize.height s2.frameSize.height)
    · have hguard : ¬ (pixelPos.x < 0 ∨
          pixelPos.x ≥ min s1.frameSize.width s2.frameSize.width ∨ pixelPos.y < 0 ∨
          pixelPos.y ≥ min s1.frameSize.height s2.frameSize.height) := by omega
      rw [if_neg hguard, if_pos hin]
      show (getPixelVal s2 pixelPos.x pixelPos.y).2.trace = _
      rw [getPixelVal_trace, readEvent_of_inside s2 _ _ (pixelPos.x, pixelPos.y) h2
        (min_le_right _ _) (min_le_right _ _) hin]
    · have hguard : pixelPos.x < 0 ∨
          pixelPos.x ≥ min s1.frameSize.width s2.frameSize.width ∨ pixelPos.y < 0 ∨
          pixelPos.y ≥ min s1.frameSize.height s2.frameSize.height := by omega
      rw [if_pos hguard, if_neg hin, List.append_nil]

/-- C18 (witness): two 2 x 1 frames compared, and the difference at point (1,1) of a
2 x 2 handler with itself. -/
theorem pixelReads_inside_overlap_witness :
    (calculateDifference exampleAlloc exampleLoadFrame exampleLoadFrame (exampleHandler ⟨2, 1⟩ (qRgb 9 0 0))
        (exampleHandler ⟨2, 1⟩ (qRgb 4 0 0)) 0 [] 1 false).self.trace =
      (loadedSelf exampleLoadFrame (exampleHandler ⟨2, 1⟩ (qRgb 9 0 0)) 0).trace ++
        (overlapPixels
          (min (loadedSelf exampleLoadFrame (exampleHandler ⟨2, 1⟩ (qRgb 9 0 0)) 0).frameSize.width
            (loadedItem2 exampleLoadFrame (exampleHandler ⟨2, 1⟩ (qRgb 4 0 0)) 0).frameSize.width)
          (min (loadedSelf exampleLoadFrame (exampleHandler ⟨2, 1⟩ (qRgb 9 0 0)) 0).frameSize.height
            (loadedItem2 exampleLoadFrame
              (exampleHandler ⟨2, 1⟩ (qRgb 4 0 0)) 0).frameSize.height)).map
          (fun p => Event.getPixelVal p.1 p.2
            (decide ((loadedSelf exampleLoadFrame
                (exampleHandler ⟨2, 1⟩ (qRgb 9 0 0)) 0).currentFrame_Image_FrameIdx ≠
              (loadedSelf exampleLoadFrame
                (exampleHandler ⟨2, 1⟩ (qRgb 9 0 0)) 0).currentFrameIdx)) true) ∧
    (getPixelValuesDifference_handlers exampleShowing5 ⟨1, 1⟩ exampleShowing5).1.trace =
      exampleShowing5.trace ++
        (if (0 ≤ (⟨1, 1⟩ : QPoint).x ∧ (⟨1, 1⟩ : QPoint).x <
              min exampleShowing5.frameSize.width exampleShowing5.frameSize.width) ∧
            (0 ≤ (⟨1, 1⟩ : QPoint).y ∧ (⟨1, 1⟩ : QPoint).y <
              min exampleShowing5.frameSize.height exampleShowing5.frameSize.height) then
          [Event.getPixelVal (⟨1, 1⟩ : QPoint).x (⟨1, 1⟩ : QPoint).y
            (decide (exampleShowing5.currentFrame_Image_FrameIdx ≠
              exampleShowing5.currentFrameIdx)) true]
         else []) :=
  ⟨(pixelReads_inside_overlap exampleAlloc exampleLoadFrame exampleLoadFrame
      (exampleHandler ⟨2, 1⟩ (qRgb 9 0 0)) (exampleHandler ⟨2, 1⟩ (qRgb 4 0 0)) 0 [] 1 false
      exampleShowing5 exampleShowing5 ⟨1, 1⟩ (by decide) (by decide) (by decide)
      (by decide)).2.1,
   (pixelReads_inside_overlap exampleAlloc exampleLoadFrame exampleLoadFrame
      (exampleHandler ⟨2, 1⟩ (qRgb 9 0 0)) (exampleHandler ⟨2, 1⟩ (qRgb 4 0 0)) 0 [] 1 false
      exampleShowing5 exampleShowing5 ⟨1, 1⟩ (by decide) (by decide) (by decide)
      (by decide)).2.2.2.1⟩

/-- C18 (counterexample): a handler whose current frame is 2 x 2, as its `frameSize` says,
while the tag of the derived image equals the current frame index (both -1, as the constructor
leaves them) and the derived image is null.  `getPixelVal` then indexes the null image:
`getPixelValuesDifference` at the point (0,0), inside the overlap rectangle, records a read
out of range, and so does `calculateDifference` for frame -1 at each of the four pixels. -/
theorem pixelReads_stale_image :
    (exampleHandler ⟨2, 2⟩ (qRgb 1 2 3)).frameSize = ⟨2, 2⟩ ∧
    ((exampleHandler ⟨2, 2⟩ (qRgb 1 2 3)).currentFrame.toImage.width = 2 ∧
      (exampleHandler ⟨2, 2⟩ (qRgb 1 2 3)).currentFrame.toImage.height = 2) ∧
    (getPixelValuesDifference_handlers (exampleHandler ⟨2, 2⟩ (qRgb 1 2 3)) ⟨0, 0⟩
      (exampleHandler ⟨2, 2⟩ (qRgb 1 2 3))).1.trace = [Event.getPixelVal 0 0 false false] ∧
    (calculateDifference exampleAlloc exampleLoadFrame exampleLoadFrame
      (exampleHandler ⟨2, 2⟩ (qRgb 1 2 3)) (exampleHandler ⟨2, 2⟩ (qRgb 1 2 3)) (-1) [] 1
      false).self.trace =
      [Event.loadFrame (-1), Event.getPixelVal 0 0 false false, Event.getPixelVal 1 0 false false,
       Event.getPixelVal 0 1 false false, Event.getPixelVal 1 1 false false] := by
  decide

/-! Section: The tag of the derived image -/

/-- C19 (the code at the failing input): a handler shows frame 5 and its derived image has
the tag -1. After `getPixelVal(0, 0)` the tag is still -1 and the current frame index 5, and a
second `getPixelVal(0, 0)` converts the frame again: both reads are recorded as converting. -/
theorem getPixelVal_keeps_tag :
    exampleShowing5.currentFrame_Image_FrameIdx = -1 ∧
    exampleShowing5.currentFrameIdx = 5 ∧
    (getPixelVal exampleShowing5 0 0).2.currentFrame_Image_FrameIdx = -1 ∧
    (getPixelVal exampleShowing5 0 0).2.currentFrameIdx = 5 ∧
    (getPixelVal (getPixelVal exampleShowing5 0 0).2 0 0).2.trace =
      [Event.getPixelVal 0 0 true true, Event.getPixelVal 0 0 true true] := by
  decide

/-! Section: The divisor of the statistics -/

theorem pixelReads_append (l1 l2 : List Event) :
    pixelReads (l1 ++ l2) = pixelReads l1 + pixelReads l2 := by
  unfold pixelReads
  rw [List.countP_append]

theorem pixelReads_map_readEvent (s : videoHandler) (ps : List (Int × Int)) :
    pixelReads (ps.map (readEvent s)) = ps.length := by
  induction ps with
  | nil => rfl
  | cons p ps ih =>
    unfold pixelReads at ih ⊢
    rw [List.map_cons, List.countP_cons, ih]
    simp [readEvent]

/-- The number of pixel reads `calculateDifference` makes on its own handler. -/
theorem calculateDifference_pixelReads (alloc : QImageAlloc) (loadFrame loadFrame2 : LoadFrame)
    (self item2 : videoHandler) (frame : Int) (l : List infoItem) (amp : Int) (mark : Bool) :
    pixelReads (calculateDifference alloc loadFrame loadFrame2 self item2 frame l amp mark).self.trace =
      pixelReads (loadedSelf loadFrame self frame).trace +
        (min (loadedSelf loadFrame self frame).frameSize.height
          (loadedItem2 loadFrame2 item2 frame).frameSize.height).toNat *
        (min (loadedSelf loadFrame self frame).frameSize.width
          (loadedItem2 loadFrame2 item2 frame).frameSize.width).toNat := by
  rw [(calculateDifference_trace alloc loadFrame loadFrame2 self item2 frame l amp mark).1,
    pixelReads_append, pixelReads_map_readEvent, length_overlapPixels]

theorem sumSquares_const (channel : QRgb → Int) (a b : videoHandler) (width height : Int)
    (c : Int)
    (h : ∀ x y, 0 ≤ x → x < width → 0 ≤ y → y < height →
      (channel (getPixelVal a x y).1 - channel (getPixelVal b x y).1) ^ 2 = c) :
    sumSquares channel a b width height = (height.toNat * width.toNat : Nat) * c := by
  unfold sumSquares
  rw [← length_overlapPixels]
  have hmap : (overlapPixels width height).map (fun p =>
      (channel (getPixelVal a p.1 p.2).1 - channel (getPixelVal b p.1 p.2).1) ^ 2) =
      (overlapPixels width height).map (fun _ => c) := by
    apply List.map_congr_left
    intro p hp
    have hp' := (mem_overlapPixels width height p.1 p.2).1 hp
    exact h p.1 p.2 hp'.1.1 hp'.1.2 hp'.2.1 hp'.2.2
  rw [hmap, List.map_const', List.sum_replicate, nsmul_eq_mul]

/-- C20 (the code at the failing inputs): for two handlers left with the unset frame size
(-1,-1) the divisor `width * height` is 1 while no pixel is visited; for two handlers of frame
size 100000 x 100000 the 32-bit product is 1410065408 while 10000000000 pixels are visited, so
that two frames differing by 1 in red at every pixel get "MSE R" 10000000000 / 1410065408
instead of 1. -/
theorem calculateDifference_divisor_mismatch (alloc : QImageAlloc) :
    (wrap32
        (min (loadedSelf exampleLoadFrame videoHandler.init 0).frameSize.width
            (loadedItem2 exampleLoadFrame videoHandler.init 0).frameSize.width *
          min (loadedSelf exampleLoadFrame videoHandler.init 0).frameSize.height
            (loadedItem2 exampleLoadFrame videoHandler.init 0).frameSize.height) = 1 ∧
      pixelReads (calculateDifference alloc exampleLoadFrame exampleLoadFrame videoHandler.init
        videoHandler.init 0 [] 1 false).self.trace = 0) ∧
    (wrap32
        (min (loadedSelf exampleLoadFrame (exampleMaxSize (qRgb 1 0 0)) 0).frameSize.width
            (loadedItem2 exampleLoadFrame (exampleMaxSize (qRgb 0 0 0)) 0).frameSize.width *
          min (loadedSelf exampleLoadFrame (exampleMaxSize (qRgb 1 0 0)) 0).frameSize.height
            (loadedItem2 exampleLoadFrame (exampleMaxSize (qRgb 0 0 0)) 0).frameSize.height)
        = 1410065408 ∧
      pixelReads (calculateDifference alloc exampleLoadFrame exampleLoadFrame
        (exampleMaxSize (qRgb 1 0 0)) (exampleMaxSize (qRgb 0 0 0)) 0 [] 1 false).self.trace
        = 10000000000 ∧
      (calculateDifference alloc exampleLoadFrame exampleLoadFrame (exampleMaxSize (qRgb 1 0 0))
        (exampleMaxSize (qRgb 0 0 0)) 0 [] 1 false).differenceInfoList.take 2 =
        [⟨"Difference Type", InfoText.str "RGB"⟩,
         ⟨"MSE R", InfoText.num
            (Double.div (Double.ofInt 10000000000) (Double.ofInt 1410065408))⟩]) := by
  refine ⟨⟨by decide, ?_⟩, by decide, ?_, ?_⟩
  · rw [calculateDifference_pixelReads]
    decide
  · rw [calculateDifference_pixelReads]
    decide
  · rw [calculateDifference_info]
    dsimp only
    have hW : min (loadedSelf exampleLoadFrame (exampleMaxSize (qRgb 1 0 0)) 0).frameSize.width
        (loadedItem2 exampleLoadFrame (exampleMaxSize (qRgb 0 0 0)) 0).frameSize.width
        = 100000 := by decide
    have hH : min (loadedSelf exampleLoadFrame (exampleMaxSize (qRgb 1 0 0)) 0).frameSize.height
        (loadedItem2 exampleLoadFrame (exampleMaxSize (qRgb 0 0 0)) 0).frameSize.height
        = 100000 := by decide
    rw [hW, hH]
    have hR : sumSquares qRed (loadedSelf exampleLoadFrame (exampleMaxSize (qRgb 1 0 0)) 0)
        (loadedItem2 exampleLoadFrame (exampleMaxSize (qRgb 0 0 0)) 0) 100000 100000
        = 10000000000 := by
      rw [sumSquares_const qRed _ _ 100000 100000 1]
      · decide
      · intro x y hx0 hx1 hy0 hy1
        have h1 : (getPixelVal (loadedSelf exampleLoadFrame (exampleMaxSize (qRgb 1 0 0)) 0)
            x y).1 = qRgb 1 0 0 := by
          show QImage.pixel ⟨100000, 100000, fun _ _ => qRgb 1 0 0⟩ x y = _
          unfold QImage.pixel QImage.valid
          rw [if_pos (by simp only [decide_eq_true_eq]; omega)]
        have h2 : (getPixelVal (loadedItem2 exampleLoadFrame (exampleMaxSize (qRgb 0 0 0)) 0)
            x y).1 = qRgb 0 0 0 := by
          show QImage.pixel ⟨100000, 100000, fun _ _ => qRgb 0 0 0⟩ x y = _
          unfold QImage.pixel QImage.valid
          rw [if_pos (by simp only [decide_eq_true_eq]; omega)]
        rw [h1, h2]
        decide
    rw [hR]
    have h64 : wrap64 10000000000 = 10000000000 := by decide
    have h32 : wrap32 (100000 * 100000) = 1410065408 := by decide
    rw [h64, h32]
    rfl

/-! Section: A size change in the GUI thread against `cacheFrame` in the caching thread -/

/-- The code of `setFrameSize` is the comparison, the store of the size, and the tail. -/
theorem setFrameSize_eq_controls (d : Bool) (fuel : Nat) (newSize : QSize) (emitSignal : Bool)
    (s : videoHandler) :
    setFrameSize d (fuel + 1) newSize emitSignal s =
      if newSize = s.frameSize then some s
      else setFrameSize_controls d fuel newSize emitSignal { s with frameSize := newSize } := by
  rw [setFrameSize]
  rfl

/-- Run alone, the statements of the caching thread do what `cacheFrame` does. -/
theorem runSchedule_caching_alone (L : LoadFrameForCaching) (frameIdx : Int) (d : Bool)
    (fuel : Nat) (sender : Sender) (s : videoHandler)
    (hmiss : s.pixmapCache.contains frameIdx = false) :
    (runSchedule L frameIdx d fuel sender (List.replicate 6 Thread.caching)
      (Threads.start s)).map (fun r => r.handler) = some (cacheFrame L s frameIdx) := by
  simp only [List.replicate, runSchedule, stepCaching, Threads.start, hmiss, Bool.false_eq_true,
    if_false, Option.isNone_none, if_true, Option.map_some', cacheFrame]

/-- Run alone, the statements of the GUI thread do what `slotVideoControlChanged` does. -/
theorem runSchedule_gui_alone :
    (runSchedule exampleLoadFrameForCaching 7 false 0 Sender.widthSpinBox
      (List.replicate 10 Thread.gui) (Threads.start exampleWidthEdited)).map
        (fun r => r.handler) =
      slotVideoControlChanged false 2 Sender.widthSpinBox exampleWidthEdited := by
  rfl

/-- C17: the interleaving in which the caching thread decodes frame 7 under the mutex at
frame size 176 x 144, the GUI thread then stores the new size and clears the cache, and the
caching thread inserts its pixmap afterwards, ends with both functions returned and the
176 x 144 pixmap cached under the new frame size: 416 x 144 after an edit of the width spin
box (for either default of `emitSignal`), 416 x 240 after the choice of a preset. -/
theorem cacheFrame_race (emitSignalDefault : Bool) :
    (exampleWidthEdited.frameSize = ⟨176, 144⟩ ∧
      exampleWidthEdited.pixmapCache.contains 7 = false ∧
      (runSchedule exampleLoadFrameForCaching 7 emitSignalDefault 0 Sender.widthSpinBox
        exampleSchedule (Threads.start exampleWidthEdited)).map (Threads.summary 7) =
        some (true, true, true, ⟨416, 144⟩, some (176, 144))) ∧
    (exampleControls.frameSize = ⟨176, 144⟩ ∧
      exampleControls.pixmapCache.contains 7 = false ∧
      (runSchedule exampleLoadFrameForCaching 7 false 0 Sender.frameSizeComboBox
        exampleSchedule (Threads.start exampleControls)).map (Threads.summary 7) =
        some (true, true, true, ⟨416, 240⟩, some (176, 144))) := by
  cases emitSignalDefault <;>
    exact ⟨⟨rfl, rfl, rfl⟩, rfl, rfl, rfl⟩

end YUView
